import Mathlib

/-!
# SimOCA: Reynolds flocking agent (separation, alignment, cohesion)

Shallow embedding of `OpenEaaglesSwarmSims/pixhawkHIL/SimOCA.cpp`.

Modelling conventions.

* `double` is an arbitrary linearly ordered field `F` with exact arithmetic
  (instantiated at `ℚ` for evaluation, and at `ℝ` where the real square root is
  needed); rounding, infinities and NaN are not modelled there.
* Two properties, invariance under translation and under permutation of the roster,
  hold by the exactness of `F` alone.  For them `getAlignmentVector` and
  `getCohesionVector` are embedded a second time, in IEEE double arithmetic: a double
  is a rational with a 53-bit significand and every operation rounds its exact result
  to nearest, ties to even.
* The square root of the C math library is a parameter `sqrt : F → F`.  Every
  property of it that a theorem needs is an explicit hypothesis of that theorem.
* `int count` is a natural number (no overflow: a roster has far fewer than
  `2^31` entries) that is cast to `F` when a vector is divided by it.
* Heap objects of the framework (`Steerpoint`) are cells of a list `heap`,
  a pointer is an index into it, and `new` appends a cell.
* `dynamic_cast<UAV*>(getOwnship())` and `dynamic_cast<SimAP*>(getPilot())`
  are assumed to succeed: the ownship is a UAV flown by a `SimAP` pilot.
* `BaseClass::updateData(dt)` belongs to the framework and touches no field
  modelled here.
-/

set_option linter.unusedSectionVars false

namespace Swarms

/-! ## Vectors (`osg::Vec3d`) -/

/-- Three-component vector, the embedding of `osg::Vec3d`. -/
@[ext]
structure Vec3 (F : Type) where
  x : F
  y : F
  z : F
deriving DecidableEq

namespace Vec3

variable {F : Type} [LinearOrderedField F]

/-- Vector `Vec3d(0,0,0)`. -/
def zero : Vec3 F := ⟨0, 0, 0⟩

/-- Componentwise sum, `operator +`. -/
def add (a b : Vec3 F) : Vec3 F := ⟨a.x + b.x, a.y + b.y, a.z + b.z⟩

/-- Componentwise difference, `operator -`. -/
def sub (a b : Vec3 F) : Vec3 F := ⟨a.x - b.x, a.y - b.y, a.z - b.z⟩

/-- Multiplication by a scalar on the right, `operator * (value_type)`. -/
def smul (a : Vec3 F) (s : F) : Vec3 F := ⟨a.x * s, a.y * s, a.z * s⟩

/-- Division by a scalar, `operator / (value_type)`. -/
def sdiv (a : Vec3 F) (s : F) : Vec3 F := ⟨a.x / s, a.y / s, a.z / s⟩

instance : Zero (Vec3 F) := ⟨zero⟩
instance : Add (Vec3 F) := ⟨add⟩
instance : Sub (Vec3 F) := ⟨sub⟩
instance : HMul (Vec3 F) F (Vec3 F) := ⟨smul⟩
instance : HDiv (Vec3 F) F (Vec3 F) := ⟨sdiv⟩

/-- Euclidean length, `Vec3d::length()`: `sqrt(x*x + y*y + z*z)`. -/
def length (sqrt : F → F) (v : Vec3 F) : F :=
  sqrt (v.x * v.x + v.y * v.y + v.z * v.z)

end Vec3

/-! ## Data model -/

/-- One entry of the simulation's player list: the type tag says whether
`dynamic_cast<UAV*>` succeeds on the entry's object. -/
structure Player (F : Type) where
  isUAV : Bool
  id : Nat
  position : Vec3 F
  velocity : Vec3 F
deriving DecidableEq

/-- Framework steerpoint, reduced to the two fields this agent writes. -/
structure Steerpoint (F : Type) where
  position : Vec3 F
  cmdAltitude : F
deriving DecidableEq

/-- Framework route: the steerpoints inserted into it (as heap indices) and the
steerpoint currently flown to. -/
structure Route where
  steerpoints : List Nat
  toPoint : Option Nat
deriving DecidableEq

/-- Framework navigation component: it has at most one primary route. -/
structure Navigation where
  priRoute : Option Route
deriving DecidableEq

/-- The ownship as this agent sees it: identity, kinematic state, the mode
string reported by its `SimAP` pilot and its navigation component, if any. -/
structure UAV (F : Type) where
  id : Nat
  position : Vec3 F
  velocity : Vec3 F
  altitude : F
  mode : String
  nav : Option Navigation
deriving DecidableEq

/-- Member variables of a `SimOCA` object. -/
structure SimOCA (F : Type) where
  sFactor : F
  aFactor : F
  cFactor : F
  commDist : F
  desiredSep : F
  wp : Option Nat
deriving DecidableEq

/-- Everything one call of `updateData` can read or write. -/
structure World (F : Type) where
  oca : SimOCA F
  owner : UAV F
  players : List (Player F)
  heap : List (Steerpoint F)
deriving DecidableEq

variable {F : Type} [LinearOrderedField F]

/-- Constructor `SimOCA::SimOCA()` (source lines 65-75). -/
def SimOCA.new : SimOCA F :=
  { sFactor := 1, aFactor := 1, cFactor := 1, commDist := 27780, desiredSep := 1000, wp := none }

/-! ## Framework collaborators -/

/-- Modelled from the spec: `getDistance` is declared outside `SimOCA.cpp`; the
spec calls it the Euclidean distance of the two positions. -/
def getDistance (sqrt : F → F) (p q : Vec3 F) : F :=
  sqrt ((p.x - q.x) ^ 2 + (p.y - q.y) ^ 2 + (p.z - q.z) ^ 2)

/-- Lookup `PairStream::getPosition(n)`: the n-th entry counted from 1, absent
for `n = 0` and past the end. -/
def getPosition (players : List (Player F)) (n : Nat) : Option (Player F) :=
  if n = 0 then none else players[n - 1]?

/-- Default constructor `Steerpoint()`. -/
def Steerpoint.new : Steerpoint F := { position := 0, cmdAltitude := 0 }

/-- Method `Steerpoint::setPosition` applied through a pointer. -/
def setPosition (heap : List (Steerpoint F)) (h : Nat) (p : Vec3 F) : List (Steerpoint F) :=
  match heap[h]? with
  | some s => heap.set h { s with position := p }
  | none => heap

/-- Method `Steerpoint::setCmdAltitude` applied through a pointer. -/
def setCmdAltitude (heap : List (Steerpoint F)) (h : Nat) (a : F) : List (Steerpoint F) :=
  match heap[h]? with
  | some s => heap.set h { s with cmdAltitude := a }
  | none => heap

/-- Constructor `Navigation()`: no route yet. -/
def Navigation.new : Navigation := { priRoute := none }

/-- Constructor `Route()`: no steerpoints, nothing flown to. -/
def Route.new : Route := { steerpoints := [], toPoint := none }

/-- Method `Route::insertSteerpoint` with its default position: at the end. -/
def Route.insertSteerpoint (r : Route) (h : Nat) : Route :=
  { r with steerpoints := r.steerpoints ++ [h] }

/-- Modelled from the spec: `Route::directTo` makes the given steerpoint the
active navigation target. -/
def Route.directTo (r : Route) (h : Nat) : Route :=
  { r with toPoint := some h }

/-! ## The three aggregation rules -/

/-- The scan shared by the three getters (source lines 121-140, 153-170,
183-200): `while(true)` over `getPosition(i)`, leaving at the first absent
entry, otherwise running `body` on the entry and incrementing `i`. -/
def scanPlayers (body : Player F → Vec3 F × Nat → Vec3 F × Nat)
    (players : List (Player F)) (i : Nat) (acc : Vec3 F × Nat) : Vec3 F × Nat :=
  match h : getPosition players i with
  | some player => scanPlayers body players (i + 1) (body player acc)
  | none => acc
termination_by players.length + 1 - i
decreasing_by
  unfold getPosition at h
  split at h
  · cases h
  · have hlt := (List.getElem?_eq_some.1 h).1
    omega

/-- Loop body of `getSeparationVector` (source lines 127-137) acting on the
pair `(sum, count)`. -/
def separationBody (sqrt : F → F) (oca : SimOCA F) (owner : UAV F)
    (uav : Player F) (acc : Vec3 F × Nat) : Vec3 F × Nat :=
  if uav.isUAV ∧ owner.id ≠ uav.id then
    let pos1 := owner.position
    let pos2 := uav.position
    let dist := getDistance sqrt pos1 pos2
    if dist > 0 ∧ dist < oca.desiredSep then
      let v := pos1 - pos2
      let s := v * (oca.desiredSep / v.length sqrt) ^ 2
      (acc.1 + s, acc.2 + 1)
    else acc
  else acc

/-- Loop body of `getAlignmentVector` (source lines 159-167). -/
def alignmentBody (sqrt : F → F) (oca : SimOCA F) (owner : UAV F)
    (uav : Player F) (acc : Vec3 F × Nat) : Vec3 F × Nat :=
  if uav.isUAV ∧ owner.id ≠ uav.id then
    let dist := getDistance sqrt owner.position uav.position
    if dist > 0 ∧ dist < oca.commDist then
      (acc.1 + uav.velocity, acc.2 + 1)
    else acc
  else acc

/-- Loop body of `getCohesionVector` (source lines 189-197). -/
def cohesionBody (sqrt : F → F) (oca : SimOCA F) (owner : UAV F)
    (uav : Player F) (acc : Vec3 F × Nat) : Vec3 F × Nat :=
  if uav.isUAV ∧ owner.id ≠ uav.id then
    let pos1 := owner.position
    let pos2 := uav.position
    let dist := getDistance sqrt pos1 pos2
    if dist > 0 ∧ dist < oca.commDist then
      (acc.1 + pos2, acc.2 + 1)
    else acc
  else acc

/-- The pair `(sum, count)` at the exit of the loop of `getSeparationVector`. -/
def separationScan (sqrt : F → F) (oca : SimOCA F) (owner : UAV F)
    (players : List (Player F)) : Vec3 F × Nat :=
  scanPlayers (separationBody sqrt oca owner) players 1 (0, 0)

/-- The pair `(sum, count)` at the exit of the loop of `getAlignmentVector`. -/
def alignmentScan (sqrt : F → F) (oca : SimOCA F) (owner : UAV F)
    (players : List (Player F)) : Vec3 F × Nat :=
  scanPlayers (alignmentBody sqrt oca owner) players 1 (0, 0)

/-- The pair `(sum, count)` at the exit of the loop of `getCohesionVector`. -/
def cohesionScan (sqrt : F → F) (oca : SimOCA F) (owner : UAV F)
    (players : List (Player F)) : Vec3 F × Nat :=
  scanPlayers (cohesionBody sqrt oca owner) players 1 (0, 0)

/-- Method `SimOCA::getSeparationVector` (source lines 116-146). -/
def getSeparationVector (sqrt : F → F) (oca : SimOCA F) (owner : UAV F)
    (players : List (Player F)) : Vec3 F :=
  let r := separationScan sqrt oca owner players
  if r.2 > 0 then (r.1 / (r.2 : F)) * oca.sFactor else r.1

/-- Method `SimOCA::getAlignmentVector` (source lines 148-176). -/
def getAlignmentVector (sqrt : F → F) (oca : SimOCA F) (owner : UAV F)
    (players : List (Player F)) : Vec3 F :=
  let r := alignmentScan sqrt oca owner players
  if r.2 > 0 then (r.1 / (r.2 : F)) * oca.aFactor else r.1

/-- Method `SimOCA::getCohesionVector` (source lines 178-206). -/
def getCohesionVector (sqrt : F → F) (oca : SimOCA F) (owner : UAV F)
    (players : List (Player F)) : Vec3 F :=
  let r := cohesionScan sqrt oca owner players
  if r.2 > 0 then (r.1 / (r.2 : F) - owner.position) * oca.cFactor else r.1

/-! ## Setters -/

/-- Method `SimOCA::setSeparationFactor` (source lines 212-216). -/
def setSeparationFactor (oca : SimOCA F) (factr : F) : SimOCA F × Bool :=
  ({ oca with sFactor := factr }, true)

/-- Method `SimOCA::setAlignmentFactor` (source lines 218-222). -/
def setAlignmentFactor (oca : SimOCA F) (factr : F) : SimOCA F × Bool :=
  ({ oca with aFactor := factr }, true)

/-- Method `SimOCA::setCohesionFactor` (source lines 224-228). -/
def setCohesionFactor (oca : SimOCA F) (factr : F) : SimOCA F × Bool :=
  ({ oca with cFactor := factr }, true)

/-- Method `SimOCA::setCommDistance` (source lines 230-234). -/
def setCommDistance (oca : SimOCA F) (dist : F) : SimOCA F × Bool :=
  ({ oca with commDist := dist }, true)

/-- Method `SimOCA::setDesiredSeparation` (source lines 236-240). -/
def setDesiredSeparation (oca : SimOCA F) (sep : F) : SimOCA F × Bool :=
  ({ oca with desiredSep := sep }, true)

/-! ## The tick -/

/-- Method `SimOCA::updateData` (source lines 312-355). -/
def updateData (sqrt : F → F) (w : World F) : World F :=
  let uav := w.owner
  let mode := uav.mode
  if mode ≠ "swarm" then w else
  -- lines 319-324: the navigation component, created when absent
  let nav : Navigation :=
    match uav.nav with
    | some nav => nav
    | none => Navigation.new
  -- lines 325-329: its primary route, created when absent
  let route : Route :=
    match nav.priRoute with
    | some route => route
    | none => Route.new
  -- lines 332-335: the steerpoint, created and inserted when `wp == 0`
  let wp : Nat :=
    match w.oca.wp with
    | some wp => wp
    | none => w.heap.length
  let heap : List (Steerpoint F) :=
    match w.oca.wp with
    | some _ => w.heap
    | none => w.heap ++ [Steerpoint.new]
  let route : Route :=
    match w.oca.wp with
    | some _ => route
    | none => route.insertSteerpoint wp
  -- lines 336-342
  let aVec := getAlignmentVector sqrt w.oca uav w.players
  let sVec := getSeparationVector sqrt w.oca uav w.players
  let cVec := getCohesionVector sqrt w.oca uav w.players
  let nextWaypoint := aVec + sVec + cVec
  let uavPosition := uav.position
  -- lines 344-351
  let heap : List (Steerpoint F) :=
    if nextWaypoint.length sqrt = 0 then
      setCmdAltitude (setPosition heap wp (uavPosition + uav.velocity * (5000 : F))) wp
        uav.altitude
    else
      setCmdAltitude (setPosition heap wp (uavPosition + nextWaypoint)) wp
        (-(uavPosition + nextWaypoint).z)
  -- line 353
  let route := route.directTo wp
  { oca := { w.oca with wp := some wp }
    owner := { uav with nav := some { nav with priRoute := some route } }
    players := w.players
    heap := heap }

/-- The steerpoint the agent's `wp` pointer refers to, if it refers to one. -/
def waypoint (w : World F) : Option (Steerpoint F) :=
  match w.oca.wp with
  | some h => w.heap[h]?
  | none => none

/-! ## Reference formulas, written from the specification -/

/-- Membership test of a neighbour set: a UAV other than the owner whose
Euclidean distance `d` to the owner satisfies `0 < d < threshold`. -/
def qualifies (sqrt : F → F) (owner : UAV F) (threshold : F) (p : Player F) : Prop :=
  p.isUAV = true ∧ p.id ≠ owner.id ∧
    0 < getDistance sqrt owner.position p.position ∧
    getDistance sqrt owner.position p.position < threshold

instance (sqrt : F → F) (owner : UAV F) (threshold : F) :
    DecidablePred (qualifies sqrt owner threshold) := fun _ =>
  inferInstanceAs (Decidable (_ ∧ _ ∧ _ ∧ _))

/-- The neighbour set `Q` of a rule: the roster entries that qualify. -/
def neighbours (sqrt : F → F) (owner : UAV F) (threshold : F)
    (players : List (Player F)) : List (Player F) :=
  players.filter (fun p => decide (qualifies sqrt owner threshold p))

/-- Separation contribution of one neighbour: `v * (desiredSeparation / d)^2`
with `v = selfPos - neighborPos` and `d` the Euclidean distance. -/
def separationTerm (sqrt : F → F) (oca : SimOCA F) (owner : UAV F) (p : Player F) : Vec3 F :=
  (owner.position - p.position) *
    (oca.desiredSep / getDistance sqrt owner.position p.position) ^ 2

/-- Reference separation vector:
`separationFactor * (1/|Q|) * sum over Q of the contributions`, zero for empty `Q`. -/
def separationReference (sqrt : F → F) (oca : SimOCA F) (owner : UAV F)
    (players : List (Player F)) : Vec3 F :=
  let Q := neighbours sqrt owner oca.desiredSep players
  if Q = [] then 0
  else (Q.map (separationTerm sqrt oca owner)).sum * (oca.sFactor * (1 / (Q.length : F)))

/-- Reference alignment vector:
`alignmentFactor * (sum of the velocities of Q) / |Q|`, zero for empty `Q`. -/
def alignmentReference (sqrt : F → F) (oca : SimOCA F) (owner : UAV F)
    (players : List (Player F)) : Vec3 F :=
  let Q := neighbours sqrt owner oca.commDist players
  if Q = [] then 0
  else ((Q.map Player.velocity).sum * oca.aFactor) / (Q.length : F)

/-- Reference cohesion vector:
`cohesionFactor * ((sum of the positions of Q) / |Q| - selfPos)`, zero for empty `Q`. -/
def cohesionReference (sqrt : F → F) (oca : SimOCA F) (owner : UAV F)
    (players : List (Player F)) : Vec3 F :=
  let Q := neighbours sqrt owner oca.commDist players
  if Q = [] then 0
  else ((Q.map Player.position).sum / (Q.length : F) - owner.position) * oca.cFactor

/-! ## Vocabulary of the statements about the tick -/

/-- The `wp` pointer is null or refers to a live steerpoint. -/
def wpValid (w : World F) : Prop :=
  ∀ h, w.oca.wp = some h → h < w.heap.length

/-- Every UAV of other identity in the roster is at a distance of at least
`commDistance` and at least `desiredSeparation` from the owner (an empty roster
qualifies). -/
def allOutOfRange (sqrt : F → F) (oca : SimOCA F) (owner : UAV F)
    (players : List (Player F)) : Prop :=
  ∀ p ∈ players, p.isUAV = true → p.id ≠ owner.id →
    oca.commDist ≤ getDistance sqrt owner.position p.position ∧
    oca.desiredSep ≤ getDistance sqrt owner.position p.position

/-- The net steering vector `separation + alignment + cohesion`. -/
def netSteering (sqrt : F → F) (oca : SimOCA F) (owner : UAV F)
    (players : List (Player F)) : Vec3 F :=
  getSeparationVector sqrt oca owner players + getAlignmentVector sqrt oca owner players +
    getCohesionVector sqrt oca owner players

/-- The same world with another current altitude of the owner. -/
def World.withAltitude (w : World F) (alt : F) : World F :=
  { oca := w.oca
    owner :=
      { id := w.owner.id, position := w.owner.position, velocity := w.owner.velocity,
        altitude := alt, mode := w.owner.mode, nav := w.owner.nav }
    players := w.players
    heap := w.heap }

/-- The pointer held in `wp` after an active tick: the old one, or the cell that
`new Steerpoint()` appends to the heap. -/
def wpAfter (w : World F) : Nat :=
  match w.oca.wp with
  | some h => h
  | none => w.heap.length

/-- The heap after the creation step of an active tick. -/
def heapAfterCreate (w : World F) : List (Steerpoint F) :=
  match w.oca.wp with
  | some _ => w.heap
  | none => w.heap ++ [Steerpoint.new]

/-- The route after the creation steps of an active tick and `directTo`. -/
def routeAfter (w : World F) : Route :=
  let route : Route :=
    match w.owner.nav with
    | some nav =>
      match nav.priRoute with
      | some route => route
      | none => Route.new
    | none => Route.new
  match w.oca.wp with
  | some h => route.directTo h
  | none => (route.insertSteerpoint w.heap.length).directTo w.heap.length

/-- The position and commanded altitude an active tick writes (source lines 344-351). -/
def target (sqrt : F → F) (w : World F) : Steerpoint F :=
  let nextWaypoint :=
    getAlignmentVector sqrt w.oca w.owner w.players +
      getSeparationVector sqrt w.oca w.owner w.players +
      getCohesionVector sqrt w.oca w.owner w.players
  if nextWaypoint.length sqrt = 0 then
    { position := w.owner.position + w.owner.velocity * (5000 : F)
      cmdAltitude := w.owner.altitude }
  else
    { position := w.owner.position + nextWaypoint
      cmdAltitude := -(w.owner.position + nextWaypoint).z }

/-! ## Runs of ticks -/

/-- What the simulation shows the agent at one tick: the mode string of the pilot,
the kinematic state of the ownship and the player list. -/
structure Observation (F : Type) where
  mode : String
  position : Vec3 F
  velocity : Vec3 F
  altitude : F
  players : List (Player F)

/-- The world as the agent finds it at a tick: the simulation has moved the
ownship and the players; the agent's fields, the navigation component and the
heap are as the previous tick left them. -/
def World.observe (w : World F) (o : Observation F) : World F :=
  { oca := w.oca
    owner :=
      { id := w.owner.id, position := o.position, velocity := o.velocity,
        altitude := o.altitude, mode := o.mode, nav := w.owner.nav }
    players := o.players
    heap := w.heap }

/-- One tick: the simulation updates what the agent observes, then `updateData` runs. -/
def tick (sqrt : F → F) (w : World F) (o : Observation F) : World F :=
  updateData sqrt (w.observe o)

/-- A sequence of ticks. -/
def run (sqrt : F → F) (w : World F) (os : List (Observation F)) : World F :=
  os.foldl (tick sqrt) w

/-- A freshly constructed agent (`SimOCA::SimOCA()`, so `wp` is null) on an ownship
with the given identity and navigation component, over the given heap. -/
def World.fresh (id : Nat) (nav : Option Navigation) (heap : List (Steerpoint F)) : World F :=
  { oca := SimOCA.new
    owner := { id := id, position := 0, velocity := 0, altitude := 0, mode := "", nav := nav }
    players := []
    heap := heap }

/-! ## Slot setters -/

/-- Unit tag of a distance value of the configuration surface. -/
inductive DistanceUnit where
  | meters
  | nauticalMiles
deriving DecidableEq

/-- Modelled from the spec: `Basic::Distance` is a framework class; the spec
describes a distance input as a tagged value `{ amount, unit }` with the units
meters and nautical miles. -/
structure Distance (F : Type) where
  amount : F
  unit : DistanceUnit
deriving DecidableEq

/-- Modelled from the spec: `Basic::Meters::convertStatic` is framework code; the
spec says that nautical-mile inputs are converted to meters before storage
(one nautical mile is 1852 m). -/
def Meters.convertStatic (d : Distance F) : F :=
  match d.unit with
  | DistanceUnit.meters => d.amount
  | DistanceUnit.nauticalMiles => d.amount * 1852

/-- Method `SimOCA::setSlotSeparationFactor` (source lines 246-251); a
`Basic::Number*` is its `getDouble()` value, or `none` for the null pointer. -/
def setSlotSeparationFactor (oca : SimOCA F) (msg : Option F) : SimOCA F × Bool :=
  let ok := msg.isSome
  match msg with
  | some n => setSeparationFactor oca n
  | none => (oca, ok)

/-- Method `SimOCA::setSlotAlignmentFactor` (source lines 253-258). -/
def setSlotAlignmentFactor (oca : SimOCA F) (msg : Option F) : SimOCA F × Bool :=
  let ok := msg.isSome
  match msg with
  | some n => setAlignmentFactor oca n
  | none => (oca, ok)

/-- Method `SimOCA::setSlotCohesionFactor` (source lines 260-265). -/
def setSlotCohesionFactor (oca : SimOCA F) (msg : Option F) : SimOCA F × Bool :=
  let ok := msg.isSome
  match msg with
  | some n => setCohesionFactor oca n
  | none => (oca, ok)

/-- Method `SimOCA::setSlotCommDistance(const Basic::Number*)` (source lines 267-275). -/
def setSlotCommDistance (oca : SimOCA F) (msg : Option F) : SimOCA F × Bool :=
  match msg with
  | some n =>
    let dist := n
    setCommDistance oca dist
  | none => (oca, false)

/-- Method `SimOCA::setSlotCommDistance(const Basic::Distance*)` (source lines 277-285). -/
def setSlotCommDistanceD (oca : SimOCA F) (msg : Option (Distance F)) : SimOCA F × Bool :=
  match msg with
  | some d =>
    let dist := Meters.convertStatic d
    setCommDistance oca dist
  | none => (oca, false)

/-- Method `SimOCA::setSlotDesiredSeparation(const Basic::Number*)` (source lines 287-295). -/
def setSlotDesiredSeparation (oca : SimOCA F) (msg : Option F) : SimOCA F × Bool :=
  match msg with
  | some n =>
    let dist := n
    setDesiredSeparation oca dist
  | none => (oca, false)

/-- Method `SimOCA::setSlotDesiredSeparation(const Basic::Distance*)` (source lines 297-305). -/
def setSlotDesiredSeparationD (oca : SimOCA F) (msg : Option (Distance F)) : SimOCA F × Bool :=
  match msg with
  | some d =>
    let dist := Meters.convertStatic d
    setDesiredSeparation oca dist
  | none => (oca, false)

/-! ## Runs of configuration calls and ticks -/

/-- One call into the agent: a tick, one of the five setters, or one of the seven
slot setters. -/
inductive Event (F : Type) where
  | tick (o : Observation F)
  | setSeparationFactor (factr : F)
  | setAlignmentFactor (factr : F)
  | setCohesionFactor (factr : F)
  | setCommDistance (dist : F)
  | setDesiredSeparation (sep : F)
  | setSlotSeparationFactor (msg : Option F)
  | setSlotAlignmentFactor (msg : Option F)
  | setSlotCohesionFactor (msg : Option F)
  | setSlotCommDistance (msg : Option F)
  | setSlotCommDistanceD (msg : Option (Distance F))
  | setSlotDesiredSeparation (msg : Option F)
  | setSlotDesiredSeparationD (msg : Option (Distance F))

/-- The world with the agent's member variables replaced. -/
def World.withOca (w : World F) (oca : SimOCA F) : World F :=
  { oca := oca, owner := w.owner, players := w.players, heap := w.heap }

/-- The effect of one call on the world. -/
def step (sqrt : F → F) (w : World F) : Event F → World F
  | Event.tick o => tick sqrt w o
  | Event.setSeparationFactor x => w.withOca (setSeparationFactor w.oca x).1
  | Event.setAlignmentFactor x => w.withOca (setAlignmentFactor w.oca x).1
  | Event.setCohesionFactor x => w.withOca (setCohesionFactor w.oca x).1
  | Event.setCommDistance x => w.withOca (setCommDistance w.oca x).1
  | Event.setDesiredSeparation x => w.withOca (setDesiredSeparation w.oca x).1
  | Event.setSlotSeparationFactor m => w.withOca (setSlotSeparationFactor w.oca m).1
  | Event.setSlotAlignmentFactor m => w.withOca (setSlotAlignmentFactor w.oca m).1
  | Event.setSlotCohesionFactor m => w.withOca (setSlotCohesionFactor w.oca m).1
  | Event.setSlotCommDistance m => w.withOca (setSlotCommDistance w.oca m).1
  | Event.setSlotCommDistanceD m => w.withOca (setSlotCommDistanceD w.oca m).1
  | Event.setSlotDesiredSeparation m => w.withOca (setSlotDesiredSeparation w.oca m).1
  | Event.setSlotDesiredSeparationD m => w.withOca (setSlotDesiredSeparationD w.oca m).1

/-- A sequence of calls. -/
def reach (sqrt : F → F) (w : World F) (es : List (Event F)) : World F :=
  es.foldl (step sqrt) w

/-- The call does not set a distance parameter to a value that is not strictly
positive (in meters, after unit conversion). -/
def Event.distancePositive : Event F → Prop
  | Event.setCommDistance x => 0 < x
  | Event.setDesiredSeparation x => 0 < x
  | Event.setSlotCommDistance (some x) => 0 < x
  | Event.setSlotCommDistanceD (some d) => 0 < Meters.convertStatic d
  | Event.setSlotDesiredSeparation (some x) => 0 < x
  | Event.setSlotDesiredSeparationD (some d) => 0 < Meters.convertStatic d
  | _ => True

/-- The parameter invariant of the specification: both distance fields are
strictly positive. -/
def distancesPositive (oca : SimOCA F) : Prop :=
  0 < oca.commDist ∧ 0 < oca.desiredSep

/-! ## The getters with every division checked -/

/-- Scalar division that reports a zero divisor instead of dividing. -/
def checkedDiv (a b : F) : Option F :=
  if b = 0 then none else some (a / b)

/-- Division of a vector by a scalar that reports a zero divisor. -/
def Vec3.checkedSdiv (v : Vec3 F) (s : F) : Option (Vec3 F) :=
  if s = 0 then none else some (v / s)

/-- The scan of `scanPlayers` for a loop body that may report a zero divisor. -/
def scanPlayersChecked (body : Player F → Vec3 F × Nat → Option (Vec3 F × Nat))
    (players : List (Player F)) (i : Nat) (acc : Vec3 F × Nat) : Option (Vec3 F × Nat) :=
  match h : getPosition players i with
  | some player =>
    match body player acc with
    | some acc1 => scanPlayersChecked body players (i + 1) acc1
    | none => none
  | none => some acc
termination_by players.length + 1 - i
decreasing_by
  unfold getPosition at h
  split at h
  · cases h
  · have hlt := (List.getElem?_eq_some.1 h).1
    omega

/-- Loop body of `getSeparationVector` (source lines 127-137) with the division
`getDesiredSeparation()/v.length()` checked. -/
def separationBodyChecked (sqrt : F → F) (oca : SimOCA F) (owner : UAV F)
    (uav : Player F) (acc : Vec3 F × Nat) : Option (Vec3 F × Nat) :=
  if uav.isUAV ∧ owner.id ≠ uav.id then
    let pos1 := owner.position
    let pos2 := uav.position
    let dist := getDistance sqrt pos1 pos2
    if dist > 0 ∧ dist < oca.desiredSep then
      let v := pos1 - pos2
      match checkedDiv oca.desiredSep (v.length sqrt) with
      | some q =>
        let s := v * q ^ 2
        some (acc.1 + s, acc.2 + 1)
      | none => none
    else some acc
  else some acc

/-- Method `SimOCA::getSeparationVector` with both of its divisions checked. -/
def getSeparationVectorChecked (sqrt : F → F) (oca : SimOCA F) (owner : UAV F)
    (players : List (Player F)) : Option (Vec3 F) :=
  match scanPlayersChecked (separationBodyChecked sqrt oca owner) players 1 (0, 0) with
  | some r =>
    if r.2 > 0 then
      match r.1.checkedSdiv (r.2 : F) with
      | some a => some (a * oca.sFactor)
      | none => none
    else some r.1
  | none => none

/-- Method `SimOCA::getAlignmentVector` with its division `sum/count` checked (the
loop divides nothing). -/
def getAlignmentVectorChecked (sqrt : F → F) (oca : SimOCA F) (owner : UAV F)
    (players : List (Player F)) : Option (Vec3 F) :=
  let r := alignmentScan sqrt oca owner players
  if r.2 > 0 then
    match r.1.checkedSdiv (r.2 : F) with
    | some a => some (a * oca.aFactor)
    | none => none
  else some r.1

/-- Method `SimOCA::getCohesionVector` with its division `sum/count` checked (the
loop divides nothing). -/
def getCohesionVectorChecked (sqrt : F → F) (oca : SimOCA F) (owner : UAV F)
    (players : List (Player F)) : Option (Vec3 F) :=
  let r := cohesionScan sqrt oca owner players
  if r.2 > 0 then
    match r.1.checkedSdiv (r.2 : F) with
    | some a => some ((a - owner.position) * oca.cFactor)
    | none => none
  else some r.1

/-! ## Vocabulary of the statements about the route -/

/-- After the tick the agent owns a steerpoint, the ownship has a navigation
component with a primary route, the steerpoint is among the steerpoints inserted
into that route, and the route flies to it. -/
def directedTo (w : World F) : Prop :=
  ∃ h r, w.oca.wp = some h ∧ w.owner.nav = some { priRoute := some r } ∧
    h ∈ r.steerpoints ∧ r.toPoint = some h

/-- A steerpoint owned by the agent is among the steerpoints of the primary route. -/
def wpInRoute (w : World F) : Prop :=
  ∀ h, w.oca.wp = some h →
    ∃ r, w.owner.nav = some { priRoute := some r } ∧ h ∈ r.steerpoints

/-! ## Vocabulary of the statements about translation -/

/-- The roster entry moved by the vector `t`. -/
def Player.translate (t : Vec3 F) (p : Player F) : Player F :=
  { isUAV := p.isUAV, id := p.id, position := p.position + t, velocity := p.velocity }

/-- The ownship moved by the vector `t`. -/
def UAV.translate (t : Vec3 F) (u : UAV F) : UAV F :=
  { id := u.id, position := u.position + t, velocity := u.velocity, altitude := u.altitude,
    mode := u.mode, nav := u.nav }

/-- The world with the ownship and every roster entry moved by the vector `t`. -/
def World.translate (t : Vec3 F) (w : World F) : World F :=
  { oca := w.oca
    owner := w.owner.translate t
    players := w.players.map (Player.translate t)
    heap := w.heap }

/-! ## The alignment and cohesion getters in IEEE double arithmetic

A finite `double` is a rational number with a 53-bit significand.  Each basic
operation of IEEE 754 returns the exact result rounded to the nearest such number,
ties to the even significand.  The exponent range is not bounded here: overflow and
subnormal numbers are outside this model. -/

/-- Rounding to the nearest integer, ties to the even integer. -/
def roundNearestEven (y : ℚ) : ℤ :=
  let n := ⌊y⌋
  if y - n < 1 / 2 then n
  else if 1 / 2 < y - n then n + 1
  else if n % 2 = 0 then n else n + 1

/-- Exponent `e` of a non-zero number: `2^e ≤ |x| < 2^(e+1)`. -/
def binade (x : ℚ) : ℤ := Int.log 2 |x|

/-- Rounding of an exact result to `double`: the significand is rounded to 53 bits,
to nearest, ties to even. -/
def fl (x : ℚ) : ℚ :=
  if x = 0 then 0
  else (roundNearestEven (x * 2 ^ (52 - binade x)) : ℚ) / 2 ^ (52 - binade x)

/-- Sum of two doubles as the machine returns it. -/
def dadd (a b : ℚ) : ℚ := fl (a + b)

/-- Difference of two doubles as the machine returns it. -/
def dsub (a b : ℚ) : ℚ := fl (a - b)

/-- Product of two doubles as the machine returns it. -/
def dmul (a b : ℚ) : ℚ := fl (a * b)

/-- Quotient of two doubles as the machine returns it (the divisor is not zero
wherever the getters divide). -/
def ddiv (a b : ℚ) : ℚ := fl (a / b)

/-- Componentwise sum of `osg::Vec3d` in double arithmetic (`operator +`, `+=`). -/
def Vec3.dadd (a b : Vec3 ℚ) : Vec3 ℚ :=
  ⟨Swarms.dadd a.x b.x, Swarms.dadd a.y b.y, Swarms.dadd a.z b.z⟩

/-- Componentwise difference of `osg::Vec3d` in double arithmetic (`operator -`). -/
def Vec3.dsub (a b : Vec3 ℚ) : Vec3 ℚ :=
  ⟨Swarms.dsub a.x b.x, Swarms.dsub a.y b.y, Swarms.dsub a.z b.z⟩

/-- Product of an `osg::Vec3d` with a scalar in double arithmetic. -/
def Vec3.dsmul (a : Vec3 ℚ) (s : ℚ) : Vec3 ℚ := ⟨dmul a.x s, dmul a.y s, dmul a.z s⟩

/-- Quotient of an `osg::Vec3d` by a scalar in double arithmetic. -/
def Vec3.dsdiv (a : Vec3 ℚ) (s : ℚ) : Vec3 ℚ := ⟨ddiv a.x s, ddiv a.y s, ddiv a.z s⟩

/-- Modelled from the spec: `getDistance` is declared outside `SimOCA.cpp`; the
spec calls it the Euclidean distance of the two positions, here computed in double
arithmetic with the library square root `sqrt`. -/
def getDistanceD (sqrt : ℚ → ℚ) (p q : Vec3 ℚ) : ℚ :=
  let dx := dsub p.x q.x
  let dy := dsub p.y q.y
  let dz := dsub p.z q.z
  sqrt (dadd (dadd (dmul dx dx) (dmul dy dy)) (dmul dz dz))

/-- Loop body of `getAlignmentVector` (source lines 159-167) in double arithmetic. -/
def alignmentBodyD (sqrt : ℚ → ℚ) (oca : SimOCA ℚ) (owner : UAV ℚ)
    (uav : Player ℚ) (acc : Vec3 ℚ × Nat) : Vec3 ℚ × Nat :=
  if uav.isUAV ∧ owner.id ≠ uav.id then
    let dist := getDistanceD sqrt owner.position uav.position
    if dist > 0 ∧ dist < oca.commDist then
      (acc.1.dadd uav.velocity, acc.2 + 1)
    else acc
  else acc

/-- Loop body of `getCohesionVector` (source lines 189-197) in double arithmetic. -/
def cohesionBodyD (sqrt : ℚ → ℚ) (oca : SimOCA ℚ) (owner : UAV ℚ)
    (uav : Player ℚ) (acc : Vec3 ℚ × Nat) : Vec3 ℚ × Nat :=
  if uav.isUAV ∧ owner.id ≠ uav.id then
    let pos1 := owner.position
    let pos2 := uav.position
    let dist := getDistanceD sqrt pos1 pos2
    if dist > 0 ∧ dist < oca.commDist then
      (acc.1.dadd pos2, acc.2 + 1)
    else acc
  else acc

/-- The pair `(sum, count)` at the exit of the loop of `getAlignmentVector`, in
double arithmetic. -/
def alignmentScanD (sqrt : ℚ → ℚ) (oca : SimOCA ℚ) (owner : UAV ℚ)
    (players : List (Player ℚ)) : Vec3 ℚ × Nat :=
  scanPlayers (alignmentBodyD sqrt oca owner) players 1 (0, 0)

/-- The pair `(sum, count)` at the exit of the loop of `getCohesionVector`, in
double arithmetic. -/
def cohesionScanD (sqrt : ℚ → ℚ) (oca : SimOCA ℚ) (owner : UAV ℚ)
    (players : List (Player ℚ)) : Vec3 ℚ × Nat :=
  scanPlayers (cohesionBodyD sqrt oca owner) players 1 (0, 0)

/-- Method `SimOCA::getAlignmentVector` (source lines 148-176) in double arithmetic. -/
def getAlignmentVectorD (sqrt : ℚ → ℚ) (oca : SimOCA ℚ) (owner : UAV ℚ)
    (players : List (Player ℚ)) : Vec3 ℚ :=
  let r := alignmentScanD sqrt oca owner players
  if r.2 > 0 then (r.1.dsdiv (r.2 : ℚ)).dsmul oca.aFactor else r.1

/-- Method `SimOCA::getCohesionVector` (source lines 178-206) in double arithmetic. -/
def getCohesionVectorD (sqrt : ℚ → ℚ) (oca : SimOCA ℚ) (owner : UAV ℚ)
    (players : List (Player ℚ)) : Vec3 ℚ :=
  let r := cohesionScanD sqrt oca owner players
  if r.2 > 0 then ((r.1.dsdiv (r.2 : ℚ)).dsub owner.position).dsmul oca.cFactor else r.1

/-- The tests of source lines 160 and 163 (190 and 193) in double arithmetic: a UAV
of other identity whose computed distance `d` satisfies `0 < d < commDistance`. -/
def countedD (sqrt : ℚ → ℚ) (oca : SimOCA ℚ) (owner : UAV ℚ) (p : Player ℚ) : Prop :=
  (p.isUAV = true ∧ owner.id ≠ p.id) ∧
    (getDistanceD sqrt owner.position p.position > 0 ∧
      getDistanceD sqrt owner.position p.position < oca.commDist)

instance (sqrt : ℚ → ℚ) (oca : SimOCA ℚ) (owner : UAV ℚ) :
    DecidablePred (countedD sqrt oca owner) := fun _ =>
  inferInstanceAs (Decidable ((_ ∧ _) ∧ (_ ∧ _)))

/-! ## Concrete inputs used to evaluate the model -/

/-- Example ownship at the origin, in swarm mode, without navigation. -/
def exOwner : UAV ℚ :=
  { id := 1, position := ⟨0, 0, 0⟩, velocity := ⟨1, 2, 3⟩, altitude := 7,
    mode := "swarm", nav := none }

/-- Example neighbour at distance 500 from `exOwner`. -/
def exN1 : Player ℚ :=
  { isUAV := true, id := 2, position := ⟨300, 400, 0⟩, velocity := ⟨1, 0, 0⟩ }

/-- Example neighbour at distance 250 from `exOwner`. -/
def exN2 : Player ℚ :=
  { isUAV := true, id := 3, position := ⟨0, 0, 250⟩, velocity := ⟨0, 1, 0⟩ }

/-- Example neighbour at distance 1000 from `exOwner`. -/
def exN3 : Player ℚ :=
  { isUAV := true, id := 4, position := ⟨600, 0, 800⟩, velocity := ⟨0, 0, 1⟩ }

/-- Example neighbour at distance 27780 from `exOwner`. -/
def exN4 : Player ℚ :=
  { isUAV := true, id := 5, position := ⟨0, 27780, 0⟩, velocity := ⟨2, 2, 2⟩ }

/-- Example world: a fresh agent with two neighbours in range. -/
def exWorld : World ℚ :=
  { oca := SimOCA.new, owner := exOwner, players := [exN1, exN2], heap := [] }

/-- Example world: a fresh agent whose only neighbour is out of range. -/
def exWorldFar : World ℚ :=
  { oca := SimOCA.new, owner := exOwner, players := [exN4], heap := [] }

/-- Example world: the pilot is not in swarm mode (the mode differs in case only)
and the agent already owns a steerpoint that its route flies to. -/
def exWorldIdle : World ℚ :=
  { oca := { (SimOCA.new : SimOCA ℚ) with wp := some 0 }
    owner := { exOwner with
      mode := "Swarm"
      nav := some { priRoute := some { steerpoints := [0], toPoint := some 0 } } }
    players := [exN1, exN2]
    heap := [{ position := ⟨1, 2, 3⟩, cmdAltitude := 4 }] }

/-- Example observation: swarm mode, the state of `exOwner`, two neighbours in range. -/
def exObs : Observation ℚ :=
  { mode := "swarm", position := ⟨0, 0, 0⟩, velocity := ⟨1, 2, 3⟩, altitude := 7,
    players := [exN1, exN2] }

/-- Example observation: the same, with the pilot in another mode. -/
def exObsIdle : Observation ℚ :=
  { mode := "manual", position := ⟨0, 0, 0⟩, velocity := ⟨1, 2, 3⟩, altitude := 7,
    players := [exN1, exN2] }

/-- Example ownship over the reals, for statements that need the real square root. -/
def exOwnerR : UAV ℝ :=
  { id := 1, position := ⟨0, 0, 0⟩, velocity := ⟨1, 2, 3⟩, altitude := 7,
    mode := "swarm", nav := none }

/-- Example neighbour over the reals, at distance 500 from `exOwnerR`. -/
def exN1R : Player ℝ :=
  { isUAV := true, id := 2, position := ⟨300, 400, 0⟩, velocity := ⟨1, 0, 0⟩ }

/-- Example neighbour over the reals, at distance 250 from `exOwnerR`. -/
def exN2R : Player ℝ :=
  { isUAV := true, id := 3, position := ⟨0, 0, 250⟩, velocity := ⟨0, 1, 0⟩ }

/-- Example run of calls whose distance values are all strictly positive. -/
def exEvents : List (Event ℚ) :=
  [Event.setCommDistance 5, Event.tick exObs, Event.setSlotSeparationFactor none,
    Event.setSlotDesiredSeparationD (some { amount := 2, unit := DistanceUnit.nauticalMiles })]

/-- Example neighbour `exN2` moved out to distance 500 in the same direction. -/
def exN5 : Player ℚ :=
  { isUAV := true, id := 3, position := ⟨0, 0, 500⟩, velocity := ⟨0, 1, 0⟩ }

/-- Example neighbour `exN2R` moved out to distance 500 in the same direction. -/
def exN5R : Player ℝ :=
  { isUAV := true, id := 3, position := ⟨0, 0, 500⟩, velocity := ⟨0, 1, 0⟩ }

/-- Example neighbour at distance 2000 whose velocity is the opposite of its offset. -/
def exN6 : Player ℚ :=
  { isUAV := true, id := 6, position := ⟨2000, 0, 0⟩, velocity := ⟨-2000, 0, 0⟩ }

/-- Example world: a fresh agent whose only neighbour is `exN6`; alignment and
cohesion cancel. -/
def exWorldCancel : World ℚ :=
  { oca := SimOCA.new, owner := exOwner, players := [exN6], heap := [] }

/-- Example roster entry with the identity of `exOwner`. -/
def exSelf : Player ℚ :=
  { isUAV := true, id := 1, position := ⟨100, 0, 0⟩, velocity := ⟨9, 9, 9⟩ }

/-- Example roster entry that is not a UAV. -/
def exOther : Player ℚ :=
  { isUAV := false, id := 9, position := ⟨100, 0, 0⟩, velocity := ⟨9, 9, 9⟩ }

/-- Example UAV of another identity at the position of `exOwner`. -/
def exCoincident : Player ℚ :=
  { isUAV := true, id := 8, position := ⟨0, 0, 0⟩, velocity := ⟨9, 9, 9⟩ }

/-- Example translation vector. -/
def exShift : Vec3 ℚ := ⟨10, 20, 30⟩

/-- Example parameters with both thresholds switched off: `desiredSeparation = 0`
and `commDistance = -1`. -/
def exOcaOff : SimOCA ℚ :=
  { sFactor := 1, aFactor := 1, cFactor := 1, commDist := -1, desiredSep := 0, wp := none }

/-- Example ownship for the double model: at the origin, at rest. -/
def dOwner : UAV ℚ :=
  { id := 1, position := ⟨0, 0, 0⟩, velocity := ⟨0, 0, 0⟩, altitude := 0,
    mode := "swarm", nav := none }

/-- Example neighbour at distance 5 whose velocity is the double `0.1` along x. -/
def dA : Player ℚ :=
  { isUAV := true, id := 2, position := ⟨3, 4, 0⟩, velocity := ⟨fl (1 / 10), 0, 0⟩ }

/-- Example neighbour at distance 5 whose velocity is the double `0.2` along x. -/
def dB : Player ℚ :=
  { isUAV := true, id := 3, position := ⟨0, 3, 4⟩, velocity := ⟨fl (2 / 10), 0, 0⟩ }

/-- Example neighbour at distance 5 whose velocity is the double `0.3` along x. -/
def dC : Player ℚ :=
  { isUAV := true, id := 4, position := ⟨4, 0, 3⟩, velocity := ⟨fl (3 / 10), 0, 0⟩ }

/-- Example translation for the double model: the double `100000.1` along x. -/
def dShift : Vec3 ℚ := ⟨fl (1000001 / 10), 0, 0⟩

/-- Example neighbour for the double model at `(1, 0, 0)`, distance 1. -/
def dP : Player ℚ :=
  { isUAV := true, id := 2, position := ⟨1, 0, 0⟩, velocity := ⟨0, 0, 0⟩ }

/-- Example neighbour for the double model at `(1, 2, 2)`, distance 3. -/
def dQ : Player ℚ :=
  { isUAV := true, id := 3, position := ⟨1, 2, 2⟩, velocity := ⟨0, 0, 0⟩ }

/-- Example neighbour for the double model at `(1, 4, 8)`, distance 9. -/
def dR : Player ℚ :=
  { isUAV := true, id := 4, position := ⟨1, 4, 8⟩, velocity := ⟨0, 0, 0⟩ }

/-! ## Vector algebra -/

namespace Vec3

@[simp] theorem zero_x : (0 : Vec3 F).x = 0 := rfl
@[simp] theorem zero_y : (0 : Vec3 F).y = 0 := rfl
@[simp] theorem zero_z : (0 : Vec3 F).z = 0 := rfl
@[simp] theorem add_x (a b : Vec3 F) : (a + b).x = a.x + b.x := rfl
@[simp] theorem add_y (a b : Vec3 F) : (a + b).y = a.y + b.y := rfl
@[simp] theorem add_z (a b : Vec3 F) : (a + b).z = a.z + b.z := rfl
@[simp] theorem sub_x (a b : Vec3 F) : (a - b).x = a.x - b.x := rfl
@[simp] theorem sub_y (a b : Vec3 F) : (a - b).y = a.y - b.y := rfl
@[simp] theorem sub_z (a b : Vec3 F) : (a - b).z = a.z - b.z := rfl
@[simp] theorem smul_x (a : Vec3 F) (s : F) : (a * s).x = a.x * s := rfl
@[simp] theorem smul_y (a : Vec3 F) (s : F) : (a * s).y = a.y * s := rfl
@[simp] theorem smul_z (a : Vec3 F) (s : F) : (a * s).z = a.z * s := rfl
@[simp] theorem sdiv_x (a : Vec3 F) (s : F) : (a / s).x = a.x / s := rfl
@[simp] theorem sdiv_y (a : Vec3 F) (s : F) : (a / s).y = a.y / s := rfl
@[simp] theorem sdiv_z (a : Vec3 F) (s : F) : (a / s).z = a.z / s := rfl

theorem add_assoc3 (a b c : Vec3 F) : a + b + c = a + (b + c) := by
  ext <;> simp [add_assoc]

theorem add_comm3 (a b : Vec3 F) : a + b = b + a := by
  ext <;> simp [add_comm]

@[simp] theorem add_zero3 (a : Vec3 F) : a + 0 = a := by
  ext <;> simp

@[simp] theorem zero_add3 (a : Vec3 F) : 0 + a = a := by
  ext <;> simp

theorem sum_cons (a : Vec3 F) (l : List (Vec3 F)) : (a :: l).sum = a + l.sum := rfl

@[simp] theorem sum_x (l : List (Vec3 F)) : l.sum.x = (l.map Vec3.x).sum := by
  induction l with
  | nil => rfl
  | cons a l ih => simp [sum_cons, ih]

@[simp] theorem sum_y (l : List (Vec3 F)) : l.sum.y = (l.map Vec3.y).sum := by
  induction l with
  | nil => rfl
  | cons a l ih => simp [sum_cons, ih]

@[simp] theorem sum_z (l : List (Vec3 F)) : l.sum.z = (l.map Vec3.z).sum := by
  induction l with
  | nil => rfl
  | cons a l ih => simp [sum_cons, ih]

end Vec3

/-- The modelled `getDistance` is the `length()` of the difference vector. -/
theorem getDistance_eq_length (sqrt : F → F) (p q : Vec3 F) :
    getDistance sqrt p q = (p - q).length sqrt := by
  unfold getDistance Vec3.length
  congr 1
  simp only [Vec3.sub_x, Vec3.sub_y, Vec3.sub_z]
  ring

/-! ## The scan is a left fold over the whole roster -/

theorem scanPlayers_eq_foldl (body : Player F → Vec3 F × Nat → Vec3 F × Nat)
    (players : List (Player F)) (i : Nat) (acc : Vec3 F × Nat) :
    scanPlayers body players (i + 1) acc =
      (players.drop i).foldl (fun a p => body p a) acc := by
  generalize hn : players.length - i = n
  induction n generalizing i acc with
  | zero =>
    have hle : players.length ≤ i := by omega
    rw [scanPlayers]
    have hnone : getPosition players (i + 1) = none := by
      simp [getPosition, List.getElem?_eq_none hle]
    split
    · rename_i player hsome
      rw [hnone] at hsome
      cases hsome
    · rw [List.drop_of_length_le hle]
      rfl
  | succ n ih =>
    have hlt : i < players.length := by omega
    rw [scanPlayers]
    have hsome : getPosition players (i + 1) = some (players.get ⟨i, hlt⟩) := by
      simp [getPosition, List.getElem?_eq_getElem hlt]
    split
    · rename_i player hp
      rw [hsome] at hp
      cases hp
      rw [ih (i + 1) _ (by omega), List.drop_eq_getElem_cons hlt]
      rfl
    · rename_i hnone
      rw [hsome] at hnone
      cases hnone

theorem scanPlayers_one (body : Player F → Vec3 F × Nat → Vec3 F × Nat)
    (players : List (Player F)) (acc : Vec3 F × Nat) :
    scanPlayers body players 1 acc = players.foldl (fun a p => body p a) acc := by
  simpa using scanPlayers_eq_foldl body players 0 acc

/-! ## What the three loops compute -/

/-- A conditional accumulation folded over a roster adds up the terms of the
entries that pass the test and counts them. -/
theorem foldl_cond (q : Player F → Prop) [DecidablePred q] (c : Player F → Vec3 F)
    (l : List (Player F)) (acc : Vec3 F × Nat) :
    l.foldl (fun a p => if q p then (a.1 + c p, a.2 + 1) else a) acc =
      (acc.1 + ((l.filter (fun p => decide (q p))).map c).sum,
        acc.2 + (l.filter (fun p => decide (q p))).length) := by
  induction l generalizing acc with
  | nil => simp
  | cons p l ih =>
    rw [List.foldl_cons, ih]
    by_cases hq : q p
    · simp [hq, List.filter_cons, Vec3.sum_cons, Vec3.add_assoc3, Nat.add_assoc, Nat.add_comm 1]
    · simp [hq, List.filter_cons]

theorem separationBody_eq (sqrt : F → F) (oca : SimOCA F) (owner : UAV F)
    (p : Player F) (acc : Vec3 F × Nat) :
    separationBody sqrt oca owner p acc =
      if qualifies sqrt owner oca.desiredSep p then
        (acc.1 + separationTerm sqrt oca owner p, acc.2 + 1)
      else acc := by
  unfold separationBody qualifies separationTerm
  by_cases h1 : p.isUAV = true <;> by_cases h2 : owner.id = p.id <;>
    by_cases h3 : 0 < getDistance sqrt owner.position p.position <;>
    by_cases h4 : getDistance sqrt owner.position p.position < oca.desiredSep <;>
    simp [h1, h2, h3, h4, eq_comm, getDistance_eq_length]

theorem alignmentBody_eq (sqrt : F → F) (oca : SimOCA F) (owner : UAV F)
    (p : Player F) (acc : Vec3 F × Nat) :
    alignmentBody sqrt oca owner p acc =
      if qualifies sqrt owner oca.commDist p then (acc.1 + p.velocity, acc.2 + 1)
      else acc := by
  unfold alignmentBody qualifies
  by_cases h1 : p.isUAV = true <;> by_cases h2 : owner.id = p.id <;>
    by_cases h3 : 0 < getDistance sqrt owner.position p.position <;>
    by_cases h4 : getDistance sqrt owner.position p.position < oca.commDist <;>
    simp [h1, h2, h3, h4, eq_comm]

theorem cohesionBody_eq (sqrt : F → F) (oca : SimOCA F) (owner : UAV F)
    (p : Player F) (acc : Vec3 F × Nat) :
    cohesionBody sqrt oca owner p acc =
      if qualifies sqrt owner oca.commDist p then (acc.1 + p.position, acc.2 + 1)
      else acc := by
  unfold cohesionBody qualifies
  by_cases h1 : p.isUAV = true <;> by_cases h2 : owner.id = p.id <;>
    by_cases h3 : 0 < getDistance sqrt owner.position p.position <;>
    by_cases h4 : getDistance sqrt owner.position p.position < oca.commDist <;>
    simp [h1, h2, h3, h4, eq_comm]

/-- Exit state of the separation loop: the sum of the contributions of the
neighbour set and its size. -/
theorem separationScan_eq (sqrt : F → F) (oca : SimOCA F) (owner : UAV F)
    (players : List (Player F)) :
    separationScan sqrt oca owner players =
      (((neighbours sqrt owner oca.desiredSep players).map (separationTerm sqrt oca owner)).sum,
        (neighbours sqrt owner oca.desiredSep players).length) := by
  unfold separationScan neighbours
  rw [scanPlayers_one]
  simp only [separationBody_eq]
  rw [foldl_cond]
  simp

/-- Exit state of the alignment loop. -/
theorem alignmentScan_eq (sqrt : F → F) (oca : SimOCA F) (owner : UAV F)
    (players : List (Player F)) :
    alignmentScan sqrt oca owner players =
      (((neighbours sqrt owner oca.commDist players).map Player.velocity).sum,
        (neighbours sqrt owner oca.commDist players).length) := by
  unfold alignmentScan neighbours
  rw [scanPlayers_one]
  simp only [alignmentBody_eq]
  rw [foldl_cond (qualifies sqrt owner oca.commDist) Player.velocity]
  simp

/-- Exit state of the cohesion loop. -/
theorem cohesionScan_eq (sqrt : F → F) (oca : SimOCA F) (owner : UAV F)
    (players : List (Player F)) :
    cohesionScan sqrt oca owner players =
      (((neighbours sqrt owner oca.commDist players).map Player.position).sum,
        (neighbours sqrt owner oca.commDist players).length) := by
  unfold cohesionScan neighbours
  rw [scanPlayers_one]
  simp only [cohesionBody_eq]
  rw [foldl_cond (qualifies sqrt owner oca.commDist) Player.position]
  simp

theorem getSeparationVector_eq (sqrt : F → F) (oca : SimOCA F) (owner : UAV F)
    (players : List (Player F)) :
    getSeparationVector sqrt oca owner players = separationReference sqrt oca owner players := by
  unfold getSeparationVector separationReference
  simp only [separationScan_eq]
  by_cases hQ : neighbours sqrt owner oca.desiredSep players = []
  · simp [hQ]
  · have hpos : 0 < (neighbours sqrt owner oca.desiredSep players).length :=
      List.length_pos.2 hQ
    simp only [gt_iff_lt, hpos, if_true, hQ, if_false]
    ext <;> simp <;> ring

theorem getAlignmentVector_eq (sqrt : F → F) (oca : SimOCA F) (owner : UAV F)
    (players : List (Player F)) :
    getAlignmentVector sqrt oca owner players = alignmentReference sqrt oca owner players := by
  unfold getAlignmentVector alignmentReference
  simp only [alignmentScan_eq]
  by_cases hQ : neighbours sqrt owner oca.commDist players = []
  · simp [hQ]
  · have hpos : 0 < (neighbours sqrt owner oca.commDist players).length :=
      List.length_pos.2 hQ
    simp only [gt_iff_lt, hpos, if_true, hQ, if_false]
    ext <;> simp <;> ring

theorem getCohesionVector_eq (sqrt : F → F) (oca : SimOCA F) (owner : UAV F)
    (players : List (Player F)) :
    getCohesionVector sqrt oca owner players = cohesionReference sqrt oca owner players := by
  unfold getCohesionVector cohesionReference
  simp only [cohesionScan_eq]
  by_cases hQ : neighbours sqrt owner oca.commDist players = []
  · simp [hQ]
  · have hpos : 0 < (neighbours sqrt owner oca.commDist players).length :=
      List.length_pos.2 hQ
    simp only [gt_iff_lt, hpos, if_true, hQ, if_false]

/-! ## Evaluating distances over the rationals -/

theorem ratSqrt_mul_self (q : ℚ) (hq : 0 ≤ q) : Rat.sqrt (q * q) = q := by
  rw [Rat.sqrt_eq, abs_of_nonneg hq]

theorem ratSqrt_ne_zero (q : ℚ) (hq : 0 < q) : Rat.sqrt q ≠ 0 := by
  unfold Rat.sqrt
  have hden : Nat.sqrt q.den ≠ 0 := by
    have := Nat.sqrt_pos.2 q.den_pos
    omega
  rw [Rat.mkRat_ne_zero hden]
  have hnum : 0 < q.num := Rat.num_pos.2 hq
  unfold Int.sqrt
  have hpos : 0 < Nat.sqrt q.num.toNat := Nat.sqrt_pos.2 (by omega)
  omega

theorem exN1_dist : getDistance Rat.sqrt exOwner.position exN1.position = 500 := by
  have h : ((0 : ℚ) - 300) ^ 2 + (0 - 400) ^ 2 + (0 - 0) ^ 2 = 500 * 500 := by norm_num
  simp only [getDistance, exOwner, exN1, h]
  exact ratSqrt_mul_self 500 (by norm_num)

theorem exN2_dist : getDistance Rat.sqrt exOwner.position exN2.position = 250 := by
  have h : ((0 : ℚ) - 0) ^ 2 + (0 - 0) ^ 2 + (0 - 250) ^ 2 = 250 * 250 := by norm_num
  simp only [getDistance, exOwner, exN2, h]
  exact ratSqrt_mul_self 250 (by norm_num)

theorem exN3_dist : getDistance Rat.sqrt exOwner.position exN3.position = 1000 := by
  have h : ((0 : ℚ) - 600) ^ 2 + (0 - 0) ^ 2 + (0 - 800) ^ 2 = 1000 * 1000 := by norm_num
  simp only [getDistance, exOwner, exN3, h]
  exact ratSqrt_mul_self 1000 (by norm_num)

theorem exN4_dist : getDistance Rat.sqrt exOwner.position exN4.position = 27780 := by
  have h : ((0 : ℚ) - 0) ^ 2 + (0 - 27780) ^ 2 + (0 - 0) ^ 2 = 27780 * 27780 := by norm_num
  simp only [getDistance, exOwner, exN4, h]
  exact ratSqrt_mul_self 27780 (by norm_num)

/-! ## C1 - C3: the getters against the reference formulas -/

/-- C1: `getSeparationVector` equals the reference formula
`separationFactor * (1/|Q|) * sum over Q of (selfPos - neighborPos) * (desiredSeparation/d)^2`
(zero for empty `Q`), where `Q` holds the UAV entries of other identity at Euclidean
distance `0 < d < desiredSeparation`; and (P3) with `desiredSeparation = 1000`,
`separationFactor = 1` and two neighbours at distances 500 and 250 the result is
`(4*v1 + 16*v2)/2` with `v_i = selfPos - neighborPos_i`. -/
theorem separation_matches_reference (sqrt : F → F) (oca : SimOCA F) (owner : UAV F)
    (players : List (Player F)) :
    getSeparationVector sqrt oca owner players = separationReference sqrt oca owner players ∧
    ∀ n1 n2 : Player F,
      oca.desiredSep = 1000 → oca.sFactor = 1 →
      n1.isUAV = true → n1.id ≠ owner.id → n2.isUAV = true → n2.id ≠ owner.id →
      getDistance sqrt owner.position n1.position = 500 →
      getDistance sqrt owner.position n2.position = 250 →
      getSeparationVector sqrt oca owner [n1, n2] =
        ((owner.position - n1.position) * (4 : F) +
          (owner.position - n2.position) * (16 : F)) / (2 : F) := by
  refine ⟨getSeparationVector_eq sqrt oca owner players, ?_⟩
  intro n1 n2 hsep hfac hu1 hid1 hu2 hid2 hd1 hd2
  have hq1 : qualifies sqrt owner oca.desiredSep n1 := by
    refine ⟨hu1, hid1, ?_, ?_⟩
    · rw [hd1]; norm_num
    · rw [hd1, hsep]; norm_num
  have hq2 : qualifies sqrt owner oca.desiredSep n2 := by
    refine ⟨hu2, hid2, ?_, ?_⟩
    · rw [hd2]; norm_num
    · rw [hd2, hsep]; norm_num
  have hQ : neighbours sqrt owner oca.desiredSep [n1, n2] = [n1, n2] := by
    simp [neighbours, List.filter_cons, hq1, hq2]
  rw [getSeparationVector_eq]
  unfold separationReference
  simp only [hQ]
  simp only [separationTerm, hd1, hd2, hsep, hfac, List.map_cons, List.map_nil]
  ext <;> simp [Vec3.sum_cons] <;> norm_num <;> ring

/-- Evaluation of C1 (P3) on a concrete roster over the rationals. -/
theorem separation_matches_reference_witness :
    getDistance Rat.sqrt exOwner.position exN1.position = 500 ∧
    getDistance Rat.sqrt exOwner.position exN2.position = 250 ∧
    getSeparationVector Rat.sqrt SimOCA.new exOwner [exN1, exN2] = ⟨-600, -800, -2000⟩ := by
  refine ⟨exN1_dist, exN2_dist, ?_⟩
  rw [(separation_matches_reference Rat.sqrt SimOCA.new exOwner []).2 exN1 exN2 rfl rfl rfl
    (by decide) rfl (by decide) exN1_dist exN2_dist]
  ext <;> simp [exOwner, exN1, exN2] <;> norm_num

/-- C2: `getAlignmentVector` equals the reference formula
`alignmentFactor * (sum of the velocities of Q) / |Q|` (zero for empty `Q`), where `Q`
holds the UAV entries of other identity at Euclidean distance `0 < d < commDistance`. -/
theorem alignment_matches_reference (sqrt : F → F) (oca : SimOCA F) (owner : UAV F)
    (players : List (Player F)) :
    getAlignmentVector sqrt oca owner players = alignmentReference sqrt oca owner players :=
  getAlignmentVector_eq sqrt oca owner players

/-- C3: `getCohesionVector` equals the reference formula
`cohesionFactor * ((sum of the positions of Q) / |Q| - selfPos)` (zero for empty `Q`),
where `Q` holds the UAV entries of other identity at Euclidean distance
`0 < d < commDistance`. -/
theorem cohesion_matches_reference (sqrt : F → F) (oca : SimOCA F) (owner : UAV F)
    (players : List (Player F)) :
    getCohesionVector sqrt oca owner players = cohesionReference sqrt oca owner players :=
  getCohesionVector_eq sqrt oca owner players

/-! ## C4: the thresholds are strict -/

theorem neighbours_insert_of_not (sqrt : F → F) (owner : UAV F) (threshold : F)
    (pre post : List (Player F)) (n : Player F) (hn : ¬ qualifies sqrt owner threshold n) :
    neighbours sqrt owner threshold (pre ++ n :: post) =
      neighbours sqrt owner threshold (pre ++ post) := by
  simp [neighbours, List.filter_append, List.filter_cons, hn]

theorem neighbours_insert_of_qualifies (sqrt : F → F) (owner : UAV F) (threshold : F)
    (pre post : List (Player F)) (n : Player F) (hn : qualifies sqrt owner threshold n) :
    neighbours sqrt owner threshold (pre ++ n :: post) =
      neighbours sqrt owner threshold pre ++ n :: neighbours sqrt owner threshold post := by
  simp [neighbours, List.filter_append, List.filter_cons, hn]

theorem neighbours_append (sqrt : F → F) (owner : UAV F) (threshold : F)
    (pre post : List (Player F)) :
    neighbours sqrt owner threshold (pre ++ post) =
      neighbours sqrt owner threshold pre ++ neighbours sqrt owner threshold post := by
  simp [neighbours, List.filter_append]

theorem not_qualifies_of_dist_eq (sqrt : F → F) (owner : UAV F) (threshold : F) (n : Player F)
    (h : getDistance sqrt owner.position n.position = threshold) :
    ¬ qualifies sqrt owner threshold n := by
  intro hq
  exact absurd hq.2.2.2 (by rw [h]; exact lt_irrefl _)

/-- Summing vectors over a list with one more element in the middle. -/
theorem sum_map_insert (c : Player F → Vec3 F) (pre post : List (Player F)) (n : Player F) :
    ((pre ++ n :: post).map c).sum = ((pre ++ post).map c).sum + c n := by
  ext <;> simp [List.sum_append, List.sum_cons] <;> ring

/-- C4: a neighbour at distance exactly `desiredSeparation` does not change
`getSeparationVector` (the result is that of the roster without it), a neighbour at
distance exactly `commDistance` changes neither `getAlignmentVector` nor
`getCohesionVector`; a UAV of other identity at a distance `0 < d < threshold` adds
one to that rule's neighbour count and its term to that rule's sum. -/
theorem thresholds_are_strict (sqrt : F → F) (oca : SimOCA F) (owner : UAV F)
    (pre post : List (Player F)) (n : Player F) :
    (getDistance sqrt owner.position n.position = oca.desiredSep →
      getSeparationVector sqrt oca owner (pre ++ n :: post) =
        getSeparationVector sqrt oca owner (pre ++ post)) ∧
    (getDistance sqrt owner.position n.position = oca.commDist →
      getAlignmentVector sqrt oca owner (pre ++ n :: post) =
          getAlignmentVector sqrt oca owner (pre ++ post) ∧
        getCohesionVector sqrt oca owner (pre ++ n :: post) =
          getCohesionVector sqrt oca owner (pre ++ post)) ∧
    (n.isUAV = true → n.id ≠ owner.id → 0 < getDistance sqrt owner.position n.position →
      (getDistance sqrt owner.position n.position < oca.desiredSep →
        separationScan sqrt oca owner (pre ++ n :: post) =
          ((separationScan sqrt oca owner (pre ++ post)).1 + separationTerm sqrt oca owner n,
            (separationScan sqrt oca owner (pre ++ post)).2 + 1)) ∧
      (getDistance sqrt owner.position n.position < oca.commDist →
        alignmentScan sqrt oca owner (pre ++ n :: post) =
            ((alignmentScan sqrt oca owner (pre ++ post)).1 + n.velocity,
              (alignmentScan sqrt oca owner (pre ++ post)).2 + 1) ∧
          cohesionScan sqrt oca owner (pre ++ n :: post) =
            ((cohesionScan sqrt oca owner (pre ++ post)).1 + n.position,
              (cohesionScan sqrt oca owner (pre ++ post)).2 + 1))) := by
  refine ⟨?_, ?_, ?_⟩
  · intro h
    have hn := not_qualifies_of_dist_eq sqrt owner oca.desiredSep n h
    simp only [getSeparationVector_eq, separationReference,
      neighbours_insert_of_not sqrt owner oca.desiredSep pre post n hn]
  · intro h
    have hn := not_qualifies_of_dist_eq sqrt owner oca.commDist n h
    constructor
    · simp only [getAlignmentVector_eq, alignmentReference,
        neighbours_insert_of_not sqrt owner oca.commDist pre post n hn]
    · simp only [getCohesionVector_eq, cohesionReference,
        neighbours_insert_of_not sqrt owner oca.commDist pre post n hn]
  · intro hu hid hpos
    refine ⟨?_, ?_⟩
    · intro hlt
      have hq : qualifies sqrt owner oca.desiredSep n := ⟨hu, hid, hpos, hlt⟩
      simp only [separationScan_eq]
      rw [neighbours_insert_of_qualifies sqrt owner oca.desiredSep pre post n hq,
        neighbours_append, sum_map_insert]
      simp [Nat.add_assoc]
    · intro hlt
      have hq : qualifies sqrt owner oca.commDist n := ⟨hu, hid, hpos, hlt⟩
      simp only [alignmentScan_eq, cohesionScan_eq]
      rw [neighbours_insert_of_qualifies sqrt owner oca.commDist pre post n hq,
        neighbours_append, sum_map_insert, sum_map_insert]
      simp [Nat.add_assoc]

/-- Evaluation of C4 over the rationals with the constructor's thresholds: a
neighbour at distance 1000 leaves the separation vector alone, a neighbour at
distance 27780 leaves alignment and cohesion alone, and a neighbour at distance 250
is counted by all three rules. -/
theorem thresholds_are_strict_witness :
    (getDistance Rat.sqrt exOwner.position exN3.position = (SimOCA.new : SimOCA ℚ).desiredSep ∧
      getSeparationVector Rat.sqrt SimOCA.new exOwner ([exN1] ++ exN3 :: [exN2]) =
        getSeparationVector Rat.sqrt SimOCA.new exOwner ([exN1] ++ [exN2])) ∧
    (getDistance Rat.sqrt exOwner.position exN4.position = (SimOCA.new : SimOCA ℚ).commDist ∧
      getAlignmentVector Rat.sqrt SimOCA.new exOwner ([exN1] ++ exN4 :: [exN2]) =
        getAlignmentVector Rat.sqrt SimOCA.new exOwner ([exN1] ++ [exN2]) ∧
      getCohesionVector Rat.sqrt SimOCA.new exOwner ([exN1] ++ exN4 :: [exN2]) =
        getCohesionVector Rat.sqrt SimOCA.new exOwner ([exN1] ++ [exN2])) ∧
    ((0 : ℚ) < getDistance Rat.sqrt exOwner.position exN2.position ∧
      getDistance Rat.sqrt exOwner.position exN2.position <
        (SimOCA.new : SimOCA ℚ).desiredSep ∧
      separationScan Rat.sqrt SimOCA.new exOwner ([exN1] ++ exN2 :: []) =
        ((separationScan Rat.sqrt SimOCA.new exOwner ([exN1] ++ [])).1 +
            separationTerm Rat.sqrt SimOCA.new exOwner exN2,
          (separationScan Rat.sqrt SimOCA.new exOwner ([exN1] ++ [])).2 + 1) ∧
      alignmentScan Rat.sqrt SimOCA.new exOwner ([exN1] ++ exN2 :: []) =
        ((alignmentScan Rat.sqrt SimOCA.new exOwner ([exN1] ++ [])).1 + exN2.velocity,
          (alignmentScan Rat.sqrt SimOCA.new exOwner ([exN1] ++ [])).2 + 1)) := by
  have h3 : getDistance Rat.sqrt exOwner.position exN3.position =
      (SimOCA.new : SimOCA ℚ).desiredSep := by
    rw [exN3_dist]; norm_num [SimOCA.new]
  have h4 : getDistance Rat.sqrt exOwner.position exN4.position =
      (SimOCA.new : SimOCA ℚ).commDist := by
    rw [exN4_dist]; norm_num [SimOCA.new]
  have hpos : (0 : ℚ) < getDistance Rat.sqrt exOwner.position exN2.position := by
    rw [exN2_dist]; norm_num
  have hs : getDistance Rat.sqrt exOwner.position exN2.position <
      (SimOCA.new : SimOCA ℚ).desiredSep := by
    rw [exN2_dist]; norm_num [SimOCA.new]
  have hc : getDistance Rat.sqrt exOwner.position exN2.position <
      (SimOCA.new : SimOCA ℚ).commDist := by
    rw [exN2_dist]; norm_num [SimOCA.new]
  have hin := (thresholds_are_strict Rat.sqrt SimOCA.new exOwner [exN1] [] exN2).2.2
    rfl (by decide) hpos
  refine ⟨⟨h3, (thresholds_are_strict Rat.sqrt SimOCA.new exOwner [exN1] [exN2] exN3).1 h3⟩,
    ⟨h4, (thresholds_are_strict Rat.sqrt SimOCA.new exOwner [exN1] [exN2] exN4).2.1 h4⟩,
    hpos, hs, hin.1 hs, (hin.2 hc).1⟩

/-! ## The tick in normal form -/

theorem setCmdAltitude_setPosition (heap : List (Steerpoint F)) (h : Nat) (p : Vec3 F) (a : F) :
    setCmdAltitude (setPosition heap h p) h a =
      heap.set h { position := p, cmdAltitude := a } := by
  unfold setCmdAltitude setPosition
  by_cases hlt : h < heap.length
  · simp [List.getElem?_eq_getElem hlt, List.getElem?_set, hlt]
  · have hle : heap.length ≤ h := Nat.le_of_not_lt hlt
    simp [List.getElem?_eq_none hle, List.set_eq_of_length_le hle]

/-- An active tick, step by step: the pointer, the heap write, the route. -/
theorem updateData_active (sqrt : F → F) (w : World F) (hmode : w.owner.mode = "swarm") :
    updateData sqrt w =
      { oca := { w.oca with wp := some (wpAfter w) }
        owner := { w.owner with nav := some { priRoute := some (routeAfter w) } }
        players := w.players
        heap := (heapAfterCreate w).set (wpAfter w) (target sqrt w) } := by
  unfold updateData
  simp only [hmode, ne_eq, not_true_eq_false, if_false]
  have hheap : ∀ (hp : List (Steerpoint F)) (k : Nat),
      (if Vec3.length sqrt
            (getAlignmentVector sqrt w.oca w.owner w.players +
                getSeparationVector sqrt w.oca w.owner w.players +
              getCohesionVector sqrt w.oca w.owner w.players) = 0 then
          setCmdAltitude (setPosition hp k (w.owner.position + w.owner.velocity * (5000 : F))) k
            w.owner.altitude
        else
          setCmdAltitude
            (setPosition hp k
              (w.owner.position +
                (getAlignmentVector sqrt w.oca w.owner w.players +
                    getSeparationVector sqrt w.oca w.owner w.players +
                  getCohesionVector sqrt w.oca w.owner w.players))) k
            (-(w.owner.position +
                (getAlignmentVector sqrt w.oca w.owner w.players +
                    getSeparationVector sqrt w.oca w.owner w.players +
                  getCohesionVector sqrt w.oca w.owner w.players)).z)) =
        hp.set k (target sqrt w) := by
    intro hp k
    unfold target
    simp only [setCmdAltitude_setPosition]
    exact (apply_ite (hp.set k) _ _ _).symm
  rw [hheap]
  unfold wpAfter heapAfterCreate routeAfter
  cases hnav : w.owner.nav with
  | none => cases hwp : w.oca.wp <;> simp [Navigation.new]
  | some nav =>
    cases hroute : nav.priRoute <;> cases hwp : w.oca.wp <;> simp [hroute]

/-- What `wp` refers to after an active tick started with a valid pointer. -/
theorem waypoint_updateData (sqrt : F → F) (w : World F) (hmode : w.owner.mode = "swarm")
    (hvalid : wpValid w) : waypoint (updateData sqrt w) = some (target sqrt w) := by
  rw [updateData_active sqrt w hmode]
  unfold waypoint wpAfter heapAfterCreate
  cases hwp : w.oca.wp with
  | none => simp
  | some h =>
    have hlt : h < w.heap.length := hvalid h hwp
    simp [hlt]

/-! ## Evaluating the getters on the example roster -/

theorem ex_qualifies1 (t : ℚ) (ht : 500 < t) : qualifies Rat.sqrt exOwner t exN1 := by
  refine ⟨rfl, by decide, ?_, ?_⟩
  · rw [exN1_dist]; norm_num
  · rw [exN1_dist]; exact ht

theorem ex_qualifies2 (t : ℚ) (ht : 250 < t) : qualifies Rat.sqrt exOwner t exN2 := by
  refine ⟨rfl, by decide, ?_, ?_⟩
  · rw [exN2_dist]; norm_num
  · rw [exN2_dist]; exact ht

theorem ex_neighbours (t : ℚ) (ht : 500 < t) :
    neighbours Rat.sqrt exOwner t [exN1, exN2] = [exN1, exN2] := by
  have h1 := ex_qualifies1 t ht
  have h2 := ex_qualifies2 t (by linarith)
  simp [neighbours, List.filter_cons, h1, h2]

theorem ex_separation :
    getSeparationVector Rat.sqrt SimOCA.new exOwner [exN1, exN2] = ⟨-600, -800, -2000⟩ := by
  rw [getSeparationVector_eq]
  unfold separationReference
  rw [ex_neighbours _ (by norm_num [SimOCA.new])]
  simp only [separationTerm, List.map_cons, List.map_nil, exN1_dist, exN2_dist]
  ext <;> simp [Vec3.sum_cons, exOwner, exN1, exN2, SimOCA.new] <;> norm_num

theorem ex_alignment :
    getAlignmentVector Rat.sqrt SimOCA.new exOwner [exN1, exN2] = ⟨1 / 2, 1 / 2, 0⟩ := by
  rw [getAlignmentVector_eq]
  unfold alignmentReference
  rw [ex_neighbours _ (by norm_num [SimOCA.new])]
  ext <;> simp [Vec3.sum_cons, exOwner, exN1, exN2, SimOCA.new]

theorem ex_cohesion :
    getCohesionVector Rat.sqrt SimOCA.new exOwner [exN1, exN2] = ⟨150, 200, 125⟩ := by
  rw [getCohesionVector_eq]
  unfold cohesionReference
  rw [ex_neighbours _ (by norm_num [SimOCA.new])]
  ext <;> simp [Vec3.sum_cons, exOwner, exN1, exN2, SimOCA.new] <;> norm_num

/-! ## C5: the straight-ahead fallback -/

theorem neighbours_eq_nil_of_far (sqrt : F → F) (owner : UAV F) (threshold : F)
    (players : List (Player F))
    (hfar : ∀ p ∈ players, p.isUAV = true → p.id ≠ owner.id →
      threshold ≤ getDistance sqrt owner.position p.position) :
    neighbours sqrt owner threshold players = [] := by
  unfold neighbours
  rw [List.filter_eq_nil_iff]
  intro p hp hq
  have hq : qualifies sqrt owner threshold p := of_decide_eq_true hq
  exact absurd hq.2.2.2 (not_lt.2 (hfar p hp hq.1 hq.2.1))

theorem length_zero (sqrt : F → F) (hsqrt : sqrt 0 = 0) : (0 : Vec3 F).length sqrt = 0 := by
  simp [Vec3.length, hsqrt]

/-- C5: on an active tick whose roster is empty or holds no other UAV closer than
`commDistance` or `desiredSeparation`, the separation, alignment and cohesion vectors
are zero and the tick writes position `selfPosition + selfVelocity * 5000` and
commanded altitude `altitude` into the waypoint (`sqrt 0 = 0` is what makes the zero
vector have length zero). -/
theorem fallback_when_no_neighbour (sqrt : F → F) (w : World F) (hsqrt : sqrt 0 = 0)
    (hmode : w.owner.mode = "swarm") (hvalid : wpValid w)
    (hfar : allOutOfRange sqrt w.oca w.owner w.players) :
    getSeparationVector sqrt w.oca w.owner w.players = 0 ∧
    getAlignmentVector sqrt w.oca w.owner w.players = 0 ∧
    getCohesionVector sqrt w.oca w.owner w.players = 0 ∧
    waypoint (updateData sqrt w) =
      some { position := w.owner.position + w.owner.velocity * (5000 : F)
             cmdAltitude := w.owner.altitude } := by
  have hQs : neighbours sqrt w.owner w.oca.desiredSep w.players = [] :=
    neighbours_eq_nil_of_far sqrt w.owner _ w.players (fun p hp hu hid => (hfar p hp hu hid).2)
  have hQc : neighbours sqrt w.owner w.oca.commDist w.players = [] :=
    neighbours_eq_nil_of_far sqrt w.owner _ w.players (fun p hp hu hid => (hfar p hp hu hid).1)
  have hs : getSeparationVector sqrt w.oca w.owner w.players = 0 := by
    rw [getSeparationVector_eq]; simp [separationReference, hQs]
  have ha : getAlignmentVector sqrt w.oca w.owner w.players = 0 := by
    rw [getAlignmentVector_eq]; simp [alignmentReference, hQc]
  have hc : getCohesionVector sqrt w.oca w.owner w.players = 0 := by
    rw [getCohesionVector_eq]; simp [cohesionReference, hQc]
  refine ⟨hs, ha, hc, ?_⟩
  rw [waypoint_updateData sqrt w hmode hvalid]
  unfold target
  simp [hs, ha, hc, length_zero sqrt hsqrt]

/-- Evaluation of C5 over the rationals: the only neighbour is 27780 m away. -/
theorem fallback_when_no_neighbour_witness :
    Rat.sqrt 0 = 0 ∧ exWorldFar.owner.mode = "swarm" ∧ wpValid exWorldFar ∧
    allOutOfRange Rat.sqrt exWorldFar.oca exWorldFar.owner exWorldFar.players ∧
    waypoint (updateData Rat.sqrt exWorldFar) =
      some { position := ⟨5000, 10000, 15000⟩, cmdAltitude := 7 } := by
  have h0 : Rat.sqrt 0 = 0 := by simp
  have hv : wpValid exWorldFar := by
    intro h hh
    simp [exWorldFar, SimOCA.new] at hh
  have hfar : allOutOfRange Rat.sqrt exWorldFar.oca exWorldFar.owner exWorldFar.players := by
    intro p hp _ _
    have hp4 : p = exN4 := by simpa [exWorldFar] using hp
    subst hp4
    have hd : getDistance Rat.sqrt exWorldFar.owner.position exN4.position = 27780 := exN4_dist
    rw [hd]
    constructor <;> norm_num [exWorldFar, SimOCA.new]
  refine ⟨h0, rfl, hv, hfar, ?_⟩
  rw [(fallback_when_no_neighbour Rat.sqrt exWorldFar h0 rfl hv hfar).2.2.2]
  simp [exWorldFar, exOwner]
  ext <;> simp <;> norm_num

/-! ## C6: the steering projection -/

theorem separationBody_altitude (sqrt : F → F) (w : World F) (alt : F) :
    separationBody sqrt (w.withAltitude alt).oca (w.withAltitude alt).owner =
      separationBody sqrt w.oca w.owner := rfl

theorem alignmentBody_altitude (sqrt : F → F) (w : World F) (alt : F) :
    alignmentBody sqrt (w.withAltitude alt).oca (w.withAltitude alt).owner =
      alignmentBody sqrt w.oca w.owner := rfl

theorem cohesionBody_altitude (sqrt : F → F) (w : World F) (alt : F) :
    cohesionBody sqrt (w.withAltitude alt).oca (w.withAltitude alt).owner =
      cohesionBody sqrt w.oca w.owner := rfl

/-- The net steering vector does not read the altitude of the owner. -/
theorem netSteering_altitude (sqrt : F → F) (w : World F) (alt : F) :
    netSteering sqrt (w.withAltitude alt).oca (w.withAltitude alt).owner
        (w.withAltitude alt).players =
      netSteering sqrt w.oca w.owner w.players := by
  unfold netSteering getSeparationVector getAlignmentVector getCohesionVector
    separationScan alignmentScan cohesionScan
  rw [separationBody_altitude, alignmentBody_altitude, cohesionBody_altitude]
  rfl

/-- The sum the tick forms, `aVec + sVec + cVec`, is the net steering vector. -/
theorem nextWaypoint_eq_net (sqrt : F → F) (oca : SimOCA F) (owner : UAV F)
    (players : List (Player F)) :
    getAlignmentVector sqrt oca owner players + getSeparationVector sqrt oca owner players +
        getCohesionVector sqrt oca owner players =
      netSteering sqrt oca owner players := by
  unfold netSteering
  rw [Vec3.add_comm3 (getAlignmentVector sqrt oca owner players)]

/-- C6: on an active tick, with `net = separation + alignment + cohesion` as the
getters return them, if `net` has non-zero length the tick writes position
`selfPosition + net` and commanded altitude `-(selfPosition + net).z` into the
waypoint, whatever the current altitude of the agent is. -/
theorem steering_projection (sqrt : F → F) (w : World F)
    (hmode : w.owner.mode = "swarm") (hvalid : wpValid w)
    (hnet : (netSteering sqrt w.oca w.owner w.players).length sqrt ≠ 0) (alt : F) :
    waypoint (updateData sqrt (w.withAltitude alt)) =
      some { position := w.owner.position + netSteering sqrt w.oca w.owner w.players
             cmdAltitude := -(w.owner.position + netSteering sqrt w.oca w.owner w.players).z } := by
  have hmode2 : (w.withAltitude alt).owner.mode = "swarm" := hmode
  have hvalid2 : wpValid (w.withAltitude alt) := hvalid
  rw [waypoint_updateData sqrt _ hmode2 hvalid2]
  unfold target
  rw [nextWaypoint_eq_net, netSteering_altitude, if_neg hnet]
  rfl

theorem ex_net :
    netSteering Rat.sqrt exWorld.oca exWorld.owner exWorld.players =
      ⟨-899 / 2, -1199 / 2, -1875⟩ := by
  unfold netSteering
  have hs := ex_separation
  have ha := ex_alignment
  have hc := ex_cohesion
  simp only [exWorld, hs, ha, hc]
  ext <;> simp <;> norm_num

/-- Evaluation of C6 over the rationals: two neighbours in range, and the owner at
altitude 12345 instead of 7. -/
theorem steering_projection_witness :
    exWorld.owner.mode = "swarm" ∧ wpValid exWorld ∧
    (netSteering Rat.sqrt exWorld.oca exWorld.owner exWorld.players).length Rat.sqrt ≠ 0 ∧
    waypoint (updateData Rat.sqrt (exWorld.withAltitude 12345)) =
      some { position := ⟨-899 / 2, -1199 / 2, -1875⟩, cmdAltitude := 1875 } := by
  have hv : wpValid exWorld := by
    intro h hh
    simp [exWorld, SimOCA.new] at hh
  have hnet :
      (netSteering Rat.sqrt exWorld.oca exWorld.owner exWorld.players).length Rat.sqrt ≠ 0 := by
    rw [ex_net]
    exact ratSqrt_ne_zero _ (by norm_num)
  refine ⟨rfl, hv, hnet, ?_⟩
  rw [steering_projection Rat.sqrt exWorld rfl hv hnet 12345, ex_net]
  simp [exWorld, exOwner]
  ext <;> simp

/-! ## C7: the mode gate -/

/-- C7: when the mode string reported by the pilot is not exactly "swarm",
`updateData` returns the state it was given: no navigation, route or steerpoint is
created, the `wp` pointer and the steerpoint it refers to are as before, and the
route's direct-to target is as before. -/
theorem mode_gate (sqrt : F → F) (w : World F) (hmode : w.owner.mode ≠ "swarm") :
    updateData sqrt w = w := by
  unfold updateData
  simp [hmode]

/-- Evaluation of C7: the mode "Swarm" is not "swarm", and the tick changes nothing. -/
theorem mode_gate_witness :
    exWorldIdle.owner.mode ≠ "swarm" ∧ updateData Rat.sqrt exWorldIdle = exWorldIdle :=
  ⟨by decide, mode_gate Rat.sqrt exWorldIdle (by decide)⟩

/-! ## C8: the steerpoint is created once -/

theorem run_snoc (sqrt : F → F) (w : World F) (os : List (Observation F)) (o : Observation F) :
    run sqrt w (os ++ [o]) = tick sqrt (run sqrt w os) o := by
  simp [run, List.foldl_append]

theorem tick_inactive (sqrt : F → F) (w : World F) (o : Observation F)
    (hmode : o.mode ≠ "swarm") : tick sqrt w o = w.observe o := by
  unfold tick updateData
  simp [World.observe, hmode]

theorem tick_active (sqrt : F → F) (w : World F) (o : Observation F)
    (hmode : o.mode = "swarm") :
    (tick sqrt w o).oca = { w.oca with wp := some (wpAfter w) } ∧
    (tick sqrt w o).heap = (heapAfterCreate w).set (wpAfter w) (target sqrt (w.observe o)) := by
  unfold tick
  rw [updateData_active sqrt (w.observe o) hmode]
  exact ⟨rfl, rfl⟩

/-- State of a run from a fresh agent: either no tick was active so far, `wp` is
null and the heap is the initial one, or some tick was active, `wp` refers to the
one steerpoint appended to the initial heap. -/
theorem run_fresh_invariant (sqrt : F → F) (id : Nat) (nav : Option Navigation)
    (heap : List (Steerpoint F)) (os : List (Observation F)) :
    ((run sqrt (World.fresh id nav heap) os).oca.wp = none ∧
        (∀ o ∈ os, o.mode ≠ "swarm") ∧
        (run sqrt (World.fresh id nav heap) os).heap = heap) ∨
      ((run sqrt (World.fresh id nav heap) os).oca.wp = some heap.length ∧
        (∃ o ∈ os, o.mode = "swarm") ∧
        (run sqrt (World.fresh id nav heap) os).heap.length = heap.length + 1) := by
  induction os using List.reverseRecOn with
  | nil => left; simp [run, World.fresh, SimOCA.new]
  | append_singleton os o ih =>
    rw [run_snoc]
    by_cases hmode : o.mode = "swarm"
    · obtain ⟨hoca, hheap⟩ := tick_active sqrt (run sqrt (World.fresh id nav heap) os) o hmode
      right
      rcases ih with ⟨hwp, _, hh⟩ | ⟨hwp, _, hlen⟩
      · refine ⟨?_, ⟨o, by simp, hmode⟩, ?_⟩
        · rw [hoca]; simp [wpAfter, hwp, hh]
        · rw [hheap]; simp [heapAfterCreate, hwp, hh]
      · refine ⟨?_, ⟨o, by simp, hmode⟩, ?_⟩
        · rw [hoca]; simp [wpAfter, hwp]
        · rw [hheap]; simp [heapAfterCreate, hwp, hlen]
    · rw [tick_inactive sqrt _ o hmode]
      rcases ih with ⟨hwp, hall, hh⟩ | ⟨hwp, ⟨o', ho', hm'⟩, hlen⟩
      · left
        refine ⟨hwp, ?_, hh⟩
        intro o' ho'
        rcases List.mem_append.1 ho' with h | h
        · exact hall o' h
        · rw [List.mem_singleton.1 h]; exact hmode
      · right
        exact ⟨hwp, ⟨o', List.mem_append_left _ ho', hm'⟩, hlen⟩

/-- C8: in a run of ticks from a freshly constructed agent, with arbitrary modes,
ownship states and rosters, a tick constructs a steerpoint (the heap grows by one
cell) exactly when it is the first active tick and otherwise leaves the number of
cells alone, so at most one steerpoint is ever constructed; on every later active
tick the `wp` pointer and all parameters are as before the tick and the heap differs
only in the cell `wp` refers to, which receives the new position and commanded
altitude. -/
theorem lazy_single_creation (sqrt : F → F) (id : Nat) (nav : Option Navigation)
    (heap : List (Steerpoint F)) (pre : List (Observation F)) (o : Observation F) :
    ((tick sqrt (run sqrt (World.fresh id nav heap) pre) o).heap.length =
          (run sqrt (World.fresh id nav heap) pre).heap.length + 1 ↔
        (o.mode = "swarm" ∧ ∀ o' ∈ pre, o'.mode ≠ "swarm")) ∧
    ((tick sqrt (run sqrt (World.fresh id nav heap) pre) o).heap.length =
          (run sqrt (World.fresh id nav heap) pre).heap.length ∨
        (tick sqrt (run sqrt (World.fresh id nav heap) pre) o).heap.length =
          (run sqrt (World.fresh id nav heap) pre).heap.length + 1) ∧
    (tick sqrt (run sqrt (World.fresh id nav heap) pre) o).heap.length ≤ heap.length + 1 ∧
    (o.mode = "swarm" → (∃ o' ∈ pre, o'.mode = "swarm") →
      ∃ h, (run sqrt (World.fresh id nav heap) pre).oca.wp = some h ∧
        h < (run sqrt (World.fresh id nav heap) pre).heap.length ∧
        (tick sqrt (run sqrt (World.fresh id nav heap) pre) o).oca =
          (run sqrt (World.fresh id nav heap) pre).oca ∧
        (tick sqrt (run sqrt (World.fresh id nav heap) pre) o).heap =
          (run sqrt (World.fresh id nav heap) pre).heap.set h
            (target sqrt ((run sqrt (World.fresh id nav heap) pre).observe o))) := by
  have hinv := run_fresh_invariant sqrt id nav heap pre
  generalize run sqrt (World.fresh id nav heap) pre = w at hinv ⊢
  by_cases hmode : o.mode = "swarm"
  · obtain ⟨hoca, hheap⟩ := tick_active sqrt w o hmode
    rcases hinv with ⟨hwp, hall, hh⟩ | ⟨hwp, ⟨o', ho', hm'⟩, hlen⟩
    · have hl : (tick sqrt w o).heap.length = w.heap.length + 1 := by
        rw [hheap]; simp [heapAfterCreate, hwp]
      refine ⟨⟨fun _ => ⟨hmode, hall⟩, fun _ => hl⟩, Or.inr hl, by rw [hl, hh], ?_⟩
      intro _ ⟨o', ho', hm'⟩
      exact absurd hm' (hall o' ho')
    · have hl : (tick sqrt w o).heap.length = w.heap.length := by
        rw [hheap]; simp [heapAfterCreate, hwp]
      refine ⟨⟨fun h => ?_, fun h => absurd hm' (h.2 o' ho')⟩, Or.inl hl, by rw [hl, hlen], ?_⟩
      · omega
      · intro _ _
        refine ⟨heap.length, hwp, by omega, ?_, ?_⟩
        · rw [hoca]
          simp only [wpAfter, hwp]
          cases hw : w.oca
          simp_all
        · rw [hheap]; simp [heapAfterCreate, wpAfter, hwp]
  · have ht := tick_inactive sqrt w o hmode
    have hl : (tick sqrt w o).heap.length = w.heap.length := by rw [ht]; rfl
    refine ⟨⟨fun h => ?_, fun h => absurd h.1 hmode⟩, Or.inl hl, ?_, fun h => absurd h hmode⟩
    · omega
    · rw [hl]
      rcases hinv with ⟨_, _, hh⟩ | ⟨_, _, hlen⟩
      · rw [hh]; omega
      · omega

/-- Evaluation of C8 on the run idle, active, active from a fresh agent over an
empty heap: the third tick keeps the pointer and rewrites its cell. -/
theorem lazy_single_creation_witness :
    exObs.mode = "swarm" ∧ (∃ o' ∈ [exObsIdle, exObs], o'.mode = "swarm") ∧
    ∃ h, (run Rat.sqrt (World.fresh 1 none []) [exObsIdle, exObs]).oca.wp = some h ∧
      h < (run Rat.sqrt (World.fresh 1 none []) [exObsIdle, exObs]).heap.length ∧
      (tick Rat.sqrt (run Rat.sqrt (World.fresh 1 none []) [exObsIdle, exObs]) exObs).oca =
        (run Rat.sqrt (World.fresh 1 none []) [exObsIdle, exObs]).oca ∧
      (tick Rat.sqrt (run Rat.sqrt (World.fresh 1 none []) [exObsIdle, exObs]) exObs).heap =
        (run Rat.sqrt (World.fresh 1 none []) [exObsIdle, exObs]).heap.set h
          (target Rat.sqrt
            ((run Rat.sqrt (World.fresh 1 none []) [exObsIdle, exObs]).observe exObs)) :=
  ⟨rfl, ⟨exObs, by simp, rfl⟩,
    (lazy_single_creation Rat.sqrt 1 none [] [exObsIdle, exObs] exObs).2.2.2 rfl
      ⟨exObs, by simp, rfl⟩⟩

/-! ## C9: scaling the alignment weight -/

theorem length_smul_two (sqrt : F → F)
    (hsqrt : ∀ x : F, 0 ≤ x → 0 ≤ sqrt x ∧ sqrt x * sqrt x = x) (v : Vec3 F) :
    (v * (2 : F)).length sqrt = 2 * v.length sqrt := by
  unfold Vec3.length
  simp only [Vec3.smul_x, Vec3.smul_y, Vec3.smul_z]
  have hq : 0 ≤ v.x * v.x + v.y * v.y + v.z * v.z :=
    add_nonneg (add_nonneg (mul_self_nonneg _) (mul_self_nonneg _)) (mul_self_nonneg _)
  have h4 : v.x * 2 * (v.x * 2) + v.y * 2 * (v.y * 2) + v.z * 2 * (v.z * 2) =
      4 * (v.x * v.x + v.y * v.y + v.z * v.z) := by ring
  rw [h4]
  generalize v.x * v.x + v.y * v.y + v.z * v.z = q at hq
  obtain ⟨h1, h2⟩ := hsqrt q hq
  obtain ⟨h3, h5⟩ := hsqrt (4 * q) (mul_nonneg (by norm_num) hq)
  have h6 : (0 : F) ≤ 2 * sqrt q := mul_nonneg (by norm_num) h1
  refine (mul_self_inj h3 h6).1 ?_
  rw [h5]
  calc 4 * q = 4 * (sqrt q * sqrt q) := by rw [h2]
    _ = 2 * sqrt q * (2 * sqrt q) := by ring

/-- C9: with the roster and the self state fixed, setting `alignmentFactor` to `2a`
makes `getAlignmentVector` return exactly twice the vector it returns with `a`, and
`getSeparationVector` and `getCohesionVector` return what they return with `a`; when
`sqrt` is the square root of the non-negative numbers the length of the alignment
vector doubles as well. -/
theorem alignment_weight_scaling (sqrt : F → F) (oca : SimOCA F) (owner : UAV F)
    (players : List (Player F)) (a : F) :
    getAlignmentVector sqrt (setAlignmentFactor oca (2 * a)).1 owner players =
      getAlignmentVector sqrt (setAlignmentFactor oca a).1 owner players * (2 : F) ∧
    getSeparationVector sqrt (setAlignmentFactor oca (2 * a)).1 owner players =
      getSeparationVector sqrt (setAlignmentFactor oca a).1 owner players ∧
    getCohesionVector sqrt (setAlignmentFactor oca (2 * a)).1 owner players =
      getCohesionVector sqrt (setAlignmentFactor oca a).1 owner players ∧
    ((∀ x : F, 0 ≤ x → 0 ≤ sqrt x ∧ sqrt x * sqrt x = x) →
      (getAlignmentVector sqrt (setAlignmentFactor oca (2 * a)).1 owner players).length sqrt =
        2 * (getAlignmentVector sqrt (setAlignmentFactor oca a).1 owner players).length sqrt) := by
  have hscan : ∀ x : F, alignmentScan sqrt (setAlignmentFactor oca x).1 owner players =
      alignmentScan sqrt oca owner players := fun _ => rfl
  have hvec : getAlignmentVector sqrt (setAlignmentFactor oca (2 * a)).1 owner players =
      getAlignmentVector sqrt (setAlignmentFactor oca a).1 owner players * (2 : F) := by
    unfold getAlignmentVector
    simp only [hscan]
    by_cases hc : (alignmentScan sqrt oca owner players).2 > 0
    · simp only [hc, if_true, setAlignmentFactor]
      ext <;> simp <;> ring
    · have h0 : (alignmentScan sqrt oca owner players).2 = 0 := by omega
      rw [alignmentScan_eq] at h0 ⊢
      have hnil : neighbours sqrt owner oca.commDist players = [] := List.length_eq_zero.1 h0
      simp [hnil]
      ext <;> simp
  refine ⟨hvec, rfl, rfl, fun hsqrt => ?_⟩
  rw [hvec, length_smul_two sqrt hsqrt]

/-- Evaluation of C9 over the reals with the real square root: the weight goes
from 3 to 6 and the length of the alignment vector doubles. -/
theorem alignment_weight_scaling_witness :
    (∀ x : ℝ, 0 ≤ x → 0 ≤ Real.sqrt x ∧ Real.sqrt x * Real.sqrt x = x) ∧
    (getAlignmentVector Real.sqrt (setAlignmentFactor SimOCA.new (2 * 3)).1 exOwnerR
        [exN1R, exN2R]).length Real.sqrt =
      2 * (getAlignmentVector Real.sqrt (setAlignmentFactor SimOCA.new 3).1 exOwnerR
        [exN1R, exN2R]).length Real.sqrt :=
  ⟨fun x hx => ⟨Real.sqrt_nonneg x, Real.mul_self_sqrt hx⟩,
    (alignment_weight_scaling Real.sqrt SimOCA.new exOwnerR [exN1R, exN2R] 3).2.2.2
      (fun x hx => ⟨Real.sqrt_nonneg x, Real.mul_self_sqrt hx⟩)⟩

/-! ## C10: two ticks on the same observation -/

theorem target_congr (sqrt : F → F) (w v : World F)
    (hs : v.oca.sFactor = w.oca.sFactor) (ha : v.oca.aFactor = w.oca.aFactor)
    (hc : v.oca.cFactor = w.oca.cFactor) (hcd : v.oca.commDist = w.oca.commDist)
    (hds : v.oca.desiredSep = w.oca.desiredSep) (hown : v.owner.id = w.owner.id)
    (hpos : v.owner.position = w.owner.position) (hvel : v.owner.velocity = w.owner.velocity)
    (halt : v.owner.altitude = w.owner.altitude) (hpl : v.players = w.players) :
    target sqrt v = target sqrt w := by
  have hsb : separationBody sqrt v.oca v.owner = separationBody sqrt w.oca w.owner := by
    funext p acc
    simp only [separationBody, hds, hown, hpos]
  have hab : alignmentBody sqrt v.oca v.owner = alignmentBody sqrt w.oca w.owner := by
    funext p acc
    simp only [alignmentBody, hcd, hown, hpos]
  have hcb : cohesionBody sqrt v.oca v.owner = cohesionBody sqrt w.oca w.owner := by
    funext p acc
    simp only [cohesionBody, hcd, hown, hpos]
  unfold target getSeparationVector getAlignmentVector getCohesionVector
    separationScan alignmentScan cohesionScan
  simp only [hsb, hab, hcb, hs, ha, hc, hpos, hvel, halt, hpl]

theorem directTo_directTo (r : Route) (h : Nat) : (r.directTo h).directTo h = r.directTo h := rfl

/-- Running `updateData` again on its own result changes nothing. -/
theorem updateData_idempotent (sqrt : F → F) (w : World F) :
    updateData sqrt (updateData sqrt w) = updateData sqrt w := by
  by_cases hmode : w.owner.mode = "swarm"
  · have h1 := updateData_active sqrt w hmode
    have hmode1 : (updateData sqrt w).owner.mode = "swarm" := by rw [h1]; exact hmode
    have ht : target sqrt (updateData sqrt w) = target sqrt w := by
      apply target_congr <;> rw [h1]
    have hwp : wpAfter (updateData sqrt w) = wpAfter w := by rw [h1]; rfl
    have hheap : heapAfterCreate (updateData sqrt w) =
        (heapAfterCreate w).set (wpAfter w) (target sqrt w) := by rw [h1]; rfl
    have hroute : routeAfter (updateData sqrt w) = routeAfter w := by
      rw [h1]
      unfold routeAfter wpAfter
      cases hw : w.oca.wp <;> rfl
    rw [updateData_active sqrt _ hmode1, ht, hwp, hheap, hroute, List.set_set]
    rw [h1]
  · have h1 : updateData sqrt w = w := by
      unfold updateData
      simp [hmode]
    rw [h1, h1]

theorem observe_tick (sqrt : F → F) (w : World F) (o : Observation F) :
    (tick sqrt w o).observe o = tick sqrt w o := by
  unfold tick
  by_cases hmode : o.mode = "swarm"
  · rw [updateData_active sqrt (w.observe o) hmode]
    rfl
  · have h1 : updateData sqrt (w.observe o) = w.observe o := by
      unfold updateData
      simp [World.observe, hmode]
    rw [h1]
    rfl

/-- C10: two consecutive active ticks on the same roster, self state and parameters
write the same position and commanded altitude into the waypoint, also when the
first of them creates it (a null `wp` is a valid pointer); the second tick leaves
the whole state as the first one left it. -/
theorem tick_idempotent (sqrt : F → F) (w : World F) (o : Observation F)
    (hmode : o.mode = "swarm") (hvalid : wpValid w) :
    waypoint (tick sqrt w o) = some (target sqrt (w.observe o)) ∧
    waypoint (tick sqrt (tick sqrt w o) o) = some (target sqrt (w.observe o)) ∧
    tick sqrt (tick sqrt w o) o = tick sqrt w o := by
  have hsame : tick sqrt (tick sqrt w o) o = tick sqrt w o := by
    conv_lhs => rw [tick, observe_tick]
    exact updateData_idempotent sqrt (w.observe o)
  have hfirst : waypoint (tick sqrt w o) = some (target sqrt (w.observe o)) :=
    waypoint_updateData sqrt (w.observe o) hmode hvalid
  exact ⟨hfirst, by rw [hsame, hfirst], hsame⟩

theorem ex_observe : (World.fresh 1 none [] : World ℚ).observe exObs = exWorld := rfl

theorem ex_target :
    target Rat.sqrt exWorld =
      { position := ⟨-899 / 2, -1199 / 2, -1875⟩, cmdAltitude := 1875 } := by
  have hlen : ¬ Vec3.length Rat.sqrt (⟨-899 / 2, -1199 / 2, -1875⟩ : Vec3 ℚ) = 0 := by
    unfold Vec3.length
    exact ratSqrt_ne_zero _ (by norm_num)
  unfold target
  rw [nextWaypoint_eq_net, ex_net, if_neg hlen]
  simp [exWorld, exOwner]
  ext <;> simp

/-- Evaluation of C10 from a fresh agent over an empty heap: the first active tick
creates the waypoint, and both ticks leave the same position and commanded altitude
in it. -/
theorem tick_idempotent_witness :
    exObs.mode = "swarm" ∧ wpValid (World.fresh 1 none [] : World ℚ) ∧
    waypoint (tick Rat.sqrt (World.fresh 1 none []) exObs) =
      some { position := ⟨-899 / 2, -1199 / 2, -1875⟩, cmdAltitude := 1875 } ∧
    waypoint (tick Rat.sqrt (tick Rat.sqrt (World.fresh 1 none []) exObs) exObs) =
      some { position := ⟨-899 / 2, -1199 / 2, -1875⟩, cmdAltitude := 1875 } := by
  have hv : wpValid (World.fresh 1 none [] : World ℚ) := by
    intro h hh
    simp [World.fresh, SimOCA.new] at hh
  have h := tick_idempotent Rat.sqrt (World.fresh 1 none []) exObs rfl hv
  rw [ex_observe, ex_target] at h
  exact ⟨rfl, hv, h.1, h.2.1⟩

/-! ## C11: the slot setters -/

/-- C11: each of the seven slot setters returns `false` exactly when its input is
null and then leaves all five parameters (and `wp`) as they were; on a present
input it returns `true`, stores the value in its own parameter, for a
distance-with-unit input the value converted to meters (`n` nautical miles are
stored as `n * 1852`), and leaves the other parameters as they were. -/
theorem slot_setters (oca : SimOCA F) :
    (∀ msg : Option F,
      ((setSlotSeparationFactor oca msg).2 = false ↔ msg = none) ∧
      ((setSlotAlignmentFactor oca msg).2 = false ↔ msg = none) ∧
      ((setSlotCohesionFactor oca msg).2 = false ↔ msg = none) ∧
      ((setSlotCommDistance oca msg).2 = false ↔ msg = none) ∧
      ((setSlotDesiredSeparation oca msg).2 = false ↔ msg = none)) ∧
    (∀ msg : Option (Distance F),
      ((setSlotCommDistanceD oca msg).2 = false ↔ msg = none) ∧
      ((setSlotDesiredSeparationD oca msg).2 = false ↔ msg = none)) ∧
    (setSlotSeparationFactor oca none = (oca, false) ∧
      setSlotAlignmentFactor oca none = (oca, false) ∧
      setSlotCohesionFactor oca none = (oca, false) ∧
      setSlotCommDistance oca none = (oca, false) ∧
      setSlotCommDistanceD oca none = (oca, false) ∧
      setSlotDesiredSeparation oca none = (oca, false) ∧
      setSlotDesiredSeparationD oca none = (oca, false)) ∧
    (∀ v : F,
      setSlotSeparationFactor oca (some v) = ({ oca with sFactor := v }, true) ∧
      setSlotAlignmentFactor oca (some v) = ({ oca with aFactor := v }, true) ∧
      setSlotCohesionFactor oca (some v) = ({ oca with cFactor := v }, true) ∧
      setSlotCommDistance oca (some v) = ({ oca with commDist := v }, true) ∧
      setSlotDesiredSeparation oca (some v) = ({ oca with desiredSep := v }, true)) ∧
    (∀ d : Distance F,
      setSlotCommDistanceD oca (some d) =
        ({ oca with commDist := Meters.convertStatic d }, true) ∧
      setSlotDesiredSeparationD oca (some d) =
        ({ oca with desiredSep := Meters.convertStatic d }, true)) ∧
    (∀ n : F,
      Meters.convertStatic { amount := n, unit := DistanceUnit.meters } = n ∧
      Meters.convertStatic { amount := n, unit := DistanceUnit.nauticalMiles } = n * 1852 ∧
      setSlotCommDistanceD oca (some { amount := n, unit := DistanceUnit.nauticalMiles }) =
        ({ oca with commDist := n * 1852 }, true) ∧
      setSlotDesiredSeparationD oca (some { amount := n, unit := DistanceUnit.nauticalMiles }) =
        ({ oca with desiredSep := n * 1852 }, true)) := by
  refine ⟨fun msg => ?_, fun msg => ?_, ?_, fun v => ?_, fun d => ?_, fun n => ?_⟩
  · cases msg <;>
      simp [setSlotSeparationFactor, setSlotAlignmentFactor, setSlotCohesionFactor,
        setSlotCommDistance, setSlotDesiredSeparation, setSeparationFactor,
        setAlignmentFactor, setCohesionFactor, setCommDistance, setDesiredSeparation]
  · cases msg <;>
      simp [setSlotCommDistanceD, setSlotDesiredSeparationD, setCommDistance,
        setDesiredSeparation]
  · exact ⟨rfl, rfl, rfl, rfl, rfl, rfl, rfl⟩
  · exact ⟨rfl, rfl, rfl, rfl, rfl⟩
  · exact ⟨rfl, rfl⟩
  · exact ⟨rfl, rfl, rfl, rfl⟩

/-! ## C12: the distance parameters are not range-checked -/

/-- C12, as stated, fails: one call `setCommDistance(-5)` on a freshly constructed
agent is accepted and leaves `commDistance = -5`. -/
theorem distances_positive_counterexample :
    ¬ distancesPositive
      (reach Rat.sqrt (World.fresh 1 none []) [Event.setCommDistance (-5)]).oca := by
  simp [distancesPositive, reach, step, World.withOca, setCommDistance, World.fresh, SimOCA.new]

theorem tick_oca_params (sqrt : F → F) (w : World F) (o : Observation F) :
    (tick sqrt w o).oca.commDist = w.oca.commDist ∧
    (tick sqrt w o).oca.desiredSep = w.oca.desiredSep := by
  by_cases hmode : o.mode = "swarm"
  · rw [(tick_active sqrt w o hmode).1]
    exact ⟨rfl, rfl⟩
  · rw [tick_inactive sqrt w o hmode]
    exact ⟨rfl, rfl⟩

theorem step_distancesPositive (sqrt : F → F) (w : World F) (e : Event F)
    (he : e.distancePositive) (hw : distancesPositive w.oca) :
    distancesPositive (step sqrt w e).oca := by
  unfold distancesPositive at hw ⊢
  cases e with
  | tick o =>
    have h := tick_oca_params sqrt w o
    simp only [step, h.1, h.2]
    exact hw
  | setSeparationFactor x => exact hw
  | setAlignmentFactor x => exact hw
  | setCohesionFactor x => exact hw
  | setCommDistance x => exact ⟨he, hw.2⟩
  | setDesiredSeparation x => exact ⟨hw.1, he⟩
  | setSlotSeparationFactor m => cases m <;> exact hw
  | setSlotAlignmentFactor m => cases m <;> exact hw
  | setSlotCohesionFactor m => cases m <;> exact hw
  | setSlotCommDistance m =>
    cases m with
    | none => exact hw
    | some x => exact ⟨he, hw.2⟩
  | setSlotCommDistanceD m =>
    cases m with
    | none => exact hw
    | some d => exact ⟨he, hw.2⟩
  | setSlotDesiredSeparation m =>
    cases m with
    | none => exact hw
    | some x => exact ⟨hw.1, he⟩
  | setSlotDesiredSeparationD m =>
    cases m with
    | none => exact hw
    | some d => exact ⟨hw.1, he⟩

theorem reach_distancesPositive (sqrt : F → F) (es : List (Event F)) (w : World F)
    (hes : ∀ e ∈ es, e.distancePositive) (hw : distancesPositive w.oca) :
    distancesPositive (reach sqrt w es).oca := by
  induction es generalizing w with
  | nil => exact hw
  | cons e es ih =>
    have hstep := step_distancesPositive sqrt w e (hes e (List.mem_cons_self e es)) hw
    exact ih (step sqrt w e) (fun e' he' => hes e' (List.mem_cons_of_mem e he')) hstep

/-- C12, amended: in every state reached from a freshly constructed agent by ticks
and configuration calls whose distance values (in meters, after unit conversion)
are strictly positive, `commDistance > 0` and `desiredSeparation > 0`. -/
theorem distances_positive_invariant (sqrt : F → F) (id : Nat) (nav : Option Navigation)
    (heap : List (Steerpoint F)) (es : List (Event F))
    (hes : ∀ e ∈ es, e.distancePositive) :
    distancesPositive (reach sqrt (World.fresh id nav heap) es).oca := by
  apply reach_distancesPositive sqrt es _ hes
  constructor <;> simp [World.fresh, SimOCA.new]

/-- Evaluation of the amended C12 on a run with a setter, a tick, a null slot input
and a slot input of 2 nautical miles. -/
theorem distances_positive_invariant_witness :
    (∀ e ∈ exEvents, e.distancePositive) ∧
    distancesPositive (reach Rat.sqrt (World.fresh 1 none []) exEvents).oca := by
  have hes : ∀ e ∈ exEvents, e.distancePositive := by
    intro e he
    simp only [exEvents, List.mem_cons, List.mem_singleton, List.not_mem_nil, or_false] at he
    rcases he with h | h | h | h <;> subst h <;>
      simp [Event.distancePositive, Meters.convertStatic]
  exact ⟨hes, distances_positive_invariant Rat.sqrt 1 none [] exEvents hes⟩

/-! ## C13: the separation vector grows as the neighbour gets closer -/

theorem sqrt_mul_self_of_nonneg (sqrt : F → F)
    (hsqrt : ∀ x : F, 0 ≤ x → 0 ≤ sqrt x ∧ sqrt x * sqrt x = x) (a : F) (ha : 0 ≤ a) :
    sqrt (a * a) = a := by
  obtain ⟨h1, h2⟩ := hsqrt (a * a) (mul_self_nonneg a)
  exact (mul_self_inj h1 ha).1 h2

/-- Length of a unit vector scaled by a non-positive factor `-k`. -/
theorem length_unit_smul_neg (sqrt : F → F)
    (hsqrt : ∀ x : F, 0 ≤ x → 0 ≤ sqrt x ∧ sqrt x * sqrt x = x) (e : Vec3 F)
    (he : e.x * e.x + e.y * e.y + e.z * e.z = 1) (k : F) (hk : 0 ≤ k) :
    (e * (-k)).length sqrt = k := by
  unfold Vec3.length
  simp only [Vec3.smul_x, Vec3.smul_y, Vec3.smul_z]
  have h : e.x * -k * (e.x * -k) + e.y * -k * (e.y * -k) + e.z * -k * (e.z * -k) = k * k := by
    have : e.x * -k * (e.x * -k) + e.y * -k * (e.y * -k) + e.z * -k * (e.z * -k) =
        (e.x * e.x + e.y * e.y + e.z * e.z) * (k * k) := by ring
    rw [this, he, one_mul]
  rw [h]
  exact sqrt_mul_self_of_nonneg sqrt hsqrt k hk

/-- Distance to a point placed at distance `d` along a unit direction. -/
theorem getDistance_along (sqrt : F → F)
    (hsqrt : ∀ x : F, 0 ≤ x → 0 ≤ sqrt x ∧ sqrt x * sqrt x = x) (p e : Vec3 F)
    (he : e.x * e.x + e.y * e.y + e.z * e.z = 1) (d : F) (hd : 0 ≤ d) :
    getDistance sqrt p (p + e * d) = d := by
  unfold getDistance
  simp only [Vec3.add_x, Vec3.add_y, Vec3.add_z, Vec3.smul_x, Vec3.smul_y, Vec3.smul_z]
  have h : (p.x - (p.x + e.x * d)) ^ 2 + (p.y - (p.y + e.y * d)) ^ 2 +
      (p.z - (p.z + e.z * d)) ^ 2 = d * d := by
    have : (p.x - (p.x + e.x * d)) ^ 2 + (p.y - (p.y + e.y * d)) ^ 2 +
        (p.z - (p.z + e.z * d)) ^ 2 = (e.x * e.x + e.y * e.y + e.z * e.z) * (d * d) := by ring
    rw [this, he, one_mul]
  rw [h]
  exact sqrt_mul_self_of_nonneg sqrt hsqrt d hd

/-- The separation vector for a single neighbour at distance `d` along the unit
direction `e`: it points away from the neighbour and has size
`separationFactor * desiredSeparation^2 / d`. -/
theorem separation_single (sqrt : F → F)
    (hsqrt : ∀ x : F, 0 ≤ x → 0 ≤ sqrt x ∧ sqrt x * sqrt x = x)
    (oca : SimOCA F) (owner : UAV F) (n : Player F) (e : Vec3 F) (d : F)
    (he : e.x * e.x + e.y * e.y + e.z * e.z = 1) (hd : 0 < d) (hlt : d < oca.desiredSep)
    (hu : n.isUAV = true) (hid : n.id ≠ owner.id) (hp : n.position = owner.position + e * d) :
    getSeparationVector sqrt oca owner [n] =
      e * (-(oca.sFactor * oca.desiredSep ^ 2 / d)) := by
  have hdist : getDistance sqrt owner.position n.position = d := by
    rw [hp]
    exact getDistance_along sqrt hsqrt owner.position e he d (le_of_lt hd)
  have hq : qualifies sqrt owner oca.desiredSep n := by
    refine ⟨hu, hid, ?_, ?_⟩ <;> rw [hdist] <;> assumption
  have hQ : neighbours sqrt owner oca.desiredSep [n] = [n] := by
    simp [neighbours, List.filter_cons, hq]
  rw [getSeparationVector_eq]
  unfold separationReference
  simp only [hQ]
  simp only [separationTerm, hdist, List.map_cons, List.map_nil]
  have hd0 : d ≠ 0 := ne_of_gt hd
  ext <;> simp [Vec3.sum_cons, hp] <;> field_simp <;> ring

/-- C13, amended: for a single qualifying neighbour placed along a fixed direction at
distance `d` with `0 < d < desiredSeparation`, and `separationFactor > 0`, the length
of `getSeparationVector` is `separationFactor * desiredSeparation^2 / d`; so for
`0 < d1 < d2 < desiredSeparation` it is larger at `d1` than at `d2`: the vector
grows as the neighbour gets closer and shrinks as it approaches the threshold. -/
theorem separation_grows_when_closer (sqrt : F → F)
    (hsqrt : ∀ x : F, 0 ≤ x → 0 ≤ sqrt x ∧ sqrt x * sqrt x = x)
    (oca : SimOCA F) (owner : UAV F) (n1 n2 : Player F) (e : Vec3 F) (d1 d2 : F)
    (he : e.x * e.x + e.y * e.y + e.z * e.z = 1) (hs : 0 < oca.sFactor)
    (hd1 : 0 < d1) (hd12 : d1 < d2) (hd2 : d2 < oca.desiredSep)
    (hu1 : n1.isUAV = true) (hid1 : n1.id ≠ owner.id)
    (hp1 : n1.position = owner.position + e * d1)
    (hu2 : n2.isUAV = true) (hid2 : n2.id ≠ owner.id)
    (hp2 : n2.position = owner.position + e * d2) :
    (getSeparationVector sqrt oca owner [n1]).length sqrt =
        oca.sFactor * oca.desiredSep ^ 2 / d1 ∧
    (getSeparationVector sqrt oca owner [n2]).length sqrt =
        oca.sFactor * oca.desiredSep ^ 2 / d2 ∧
    (getSeparationVector sqrt oca owner [n2]).length sqrt <
      (getSeparationVector sqrt oca owner [n1]).length sqrt := by
  have hd2pos : 0 < d2 := lt_trans hd1 hd12
  have hD : 0 < oca.desiredSep := lt_trans hd2pos hd2
  have hnum : 0 < oca.sFactor * oca.desiredSep ^ 2 := mul_pos hs (pow_pos hD 2)
  have h1 : (getSeparationVector sqrt oca owner [n1]).length sqrt =
      oca.sFactor * oca.desiredSep ^ 2 / d1 := by
    rw [separation_single sqrt hsqrt oca owner n1 e d1 he hd1 (lt_trans hd12 hd2) hu1 hid1 hp1]
    exact length_unit_smul_neg sqrt hsqrt e he _ (le_of_lt (div_pos hnum hd1))
  have h2 : (getSeparationVector sqrt oca owner [n2]).length sqrt =
      oca.sFactor * oca.desiredSep ^ 2 / d2 := by
    rw [separation_single sqrt hsqrt oca owner n2 e d2 he hd2pos hd2 hu2 hid2 hp2]
    exact length_unit_smul_neg sqrt hsqrt e he _ (le_of_lt (div_pos hnum hd2pos))
  refine ⟨h1, h2, ?_⟩
  rw [h1, h2]
  exact div_lt_div_of_pos_left hnum hd1 hd12

theorem exN5_dist : getDistance Rat.sqrt exOwner.position exN5.position = 500 := by
  have h : ((0 : ℚ) - 0) ^ 2 + (0 - 0) ^ 2 + (0 - 500) ^ 2 = 500 * 500 := by norm_num
  simp only [getDistance, exOwner, exN5, h]
  exact ratSqrt_mul_self 500 (by norm_num)

theorem ex_separation_near :
    getSeparationVector Rat.sqrt SimOCA.new exOwner [exN2] = ⟨0, 0, -4000⟩ := by
  have hq := ex_qualifies2 (SimOCA.new : SimOCA ℚ).desiredSep (by norm_num [SimOCA.new])
  have hQ : neighbours Rat.sqrt exOwner (SimOCA.new : SimOCA ℚ).desiredSep [exN2] = [exN2] := by
    simp [neighbours, List.filter_cons, hq]
  rw [getSeparationVector_eq]
  unfold separationReference
  simp only [hQ]
  simp only [separationTerm, List.map_cons, List.map_nil, exN2_dist]
  ext <;> simp [Vec3.sum_cons, exOwner, exN2, SimOCA.new]
  norm_num

theorem ex_separation_far :
    getSeparationVector Rat.sqrt SimOCA.new exOwner [exN5] = ⟨0, 0, -2000⟩ := by
  have hq : qualifies Rat.sqrt exOwner (SimOCA.new : SimOCA ℚ).desiredSep exN5 := by
    refine ⟨rfl, by decide, ?_, ?_⟩ <;> rw [exN5_dist] <;> norm_num [SimOCA.new]
  have hQ : neighbours Rat.sqrt exOwner (SimOCA.new : SimOCA ℚ).desiredSep [exN5] = [exN5] := by
    simp [neighbours, List.filter_cons, hq]
  rw [getSeparationVector_eq]
  unfold separationReference
  simp only [hQ]
  simp only [separationTerm, List.map_cons, List.map_nil, exN5_dist]
  ext <;> simp [Vec3.sum_cons, exOwner, exN5, SimOCA.new]
  norm_num

/-- C13, as stated, fails: with `desiredSeparation = 1000` and
`separationFactor = 1`, the neighbour at distance 250 gives a separation vector of
length 4000 and the same neighbour at distance 500 in the same direction one of
length 2000, so the length at the smaller distance is not the smaller one. -/
theorem separation_shrinks_counterexample :
    getDistance Rat.sqrt exOwner.position exN2.position = 250 ∧
    getDistance Rat.sqrt exOwner.position exN5.position = 500 ∧
    (getSeparationVector Rat.sqrt SimOCA.new exOwner [exN2]).length Rat.sqrt = 4000 ∧
    (getSeparationVector Rat.sqrt SimOCA.new exOwner [exN5]).length Rat.sqrt = 2000 ∧
    ¬ ((getSeparationVector Rat.sqrt SimOCA.new exOwner [exN2]).length Rat.sqrt <
      (getSeparationVector Rat.sqrt SimOCA.new exOwner [exN5]).length Rat.sqrt) := by
  have h1 : (getSeparationVector Rat.sqrt SimOCA.new exOwner [exN2]).length Rat.sqrt = 4000 := by
    rw [ex_separation_near]
    have h : (0 : ℚ) * 0 + 0 * 0 + -4000 * -4000 = 4000 * 4000 := by norm_num
    simp only [Vec3.length, h]
    exact ratSqrt_mul_self 4000 (by norm_num)
  have h2 : (getSeparationVector Rat.sqrt SimOCA.new exOwner [exN5]).length Rat.sqrt = 2000 := by
    rw [ex_separation_far]
    have h : (0 : ℚ) * 0 + 0 * 0 + -2000 * -2000 = 2000 * 2000 := by norm_num
    simp only [Vec3.length, h]
    exact ratSqrt_mul_self 2000 (by norm_num)
  refine ⟨exN2_dist, exN5_dist, h1, h2, ?_⟩
  rw [h1, h2]
  norm_num

/-- Evaluation of the amended C13 over the reals: the neighbour at distance 250 and
at distance 500 straight below the owner, with the constructor's parameters. -/
theorem separation_grows_when_closer_witness :
    (∀ x : ℝ, 0 ≤ x → 0 ≤ Real.sqrt x ∧ Real.sqrt x * Real.sqrt x = x) ∧
    (getSeparationVector Real.sqrt SimOCA.new exOwnerR [exN5R]).length Real.sqrt <
      (getSeparationVector Real.sqrt SimOCA.new exOwnerR [exN2R]).length Real.sqrt := by
  have hsqrt : ∀ x : ℝ, 0 ≤ x → 0 ≤ Real.sqrt x ∧ Real.sqrt x * Real.sqrt x = x :=
    fun x hx => ⟨Real.sqrt_nonneg x, Real.mul_self_sqrt hx⟩
  refine ⟨hsqrt, ?_⟩
  refine (separation_grows_when_closer Real.sqrt hsqrt SimOCA.new exOwnerR exN2R exN5R
    ⟨0, 0, 1⟩ 250 500 (by norm_num) (by norm_num [SimOCA.new]) (by norm_num) (by norm_num)
    (by norm_num [SimOCA.new]) rfl (by decide) ?_ rfl (by decide) ?_).2.2
  · ext <;> simp [exOwnerR, exN2R]
  · ext <;> simp [exOwnerR, exN5R]

/-! ## C14: the fallback is taken when the contributions cancel -/

theorem exN6_dist : getDistance Rat.sqrt exOwner.position exN6.position = 2000 := by
  have h : ((0 : ℚ) - 2000) ^ 2 + (0 - 0) ^ 2 + (0 - 0) ^ 2 = 2000 * 2000 := by norm_num
  simp only [getDistance, exOwner, exN6, h]
  exact ratSqrt_mul_self 2000 (by norm_num)

theorem ex_cancel_neighbours_sep :
    neighbours Rat.sqrt exOwner (SimOCA.new : SimOCA ℚ).desiredSep [exN6] = [] := by
  have hq : ¬ qualifies Rat.sqrt exOwner (SimOCA.new : SimOCA ℚ).desiredSep exN6 := by
    intro h
    have h4 := h.2.2.2
    rw [exN6_dist] at h4
    norm_num [SimOCA.new] at h4
  simp [neighbours, List.filter_cons, hq]

theorem ex_cancel_neighbours_comm :
    neighbours Rat.sqrt exOwner (SimOCA.new : SimOCA ℚ).commDist [exN6] = [exN6] := by
  have hq : qualifies Rat.sqrt exOwner (SimOCA.new : SimOCA ℚ).commDist exN6 := by
    refine ⟨rfl, by decide, ?_, ?_⟩ <;> rw [exN6_dist] <;> norm_num [SimOCA.new]
  simp [neighbours, List.filter_cons, hq]

theorem ex_cancel_net :
    netSteering Rat.sqrt exWorldCancel.oca exWorldCancel.owner exWorldCancel.players = 0 := by
  have hs : getSeparationVector Rat.sqrt SimOCA.new exOwner [exN6] = 0 := by
    rw [getSeparationVector_eq]
    unfold separationReference
    simp only [ex_cancel_neighbours_sep]
    rfl
  have ha : getAlignmentVector Rat.sqrt SimOCA.new exOwner [exN6] = ⟨-2000, 0, 0⟩ := by
    rw [getAlignmentVector_eq]
    unfold alignmentReference
    simp only [ex_cancel_neighbours_comm]
    ext <;> simp [Vec3.sum_cons, exN6, SimOCA.new]
  have hc : getCohesionVector Rat.sqrt SimOCA.new exOwner [exN6] = ⟨2000, 0, 0⟩ := by
    rw [getCohesionVector_eq]
    unfold cohesionReference
    simp only [ex_cancel_neighbours_comm]
    ext <;> simp [Vec3.sum_cons, exN6, exOwner, SimOCA.new]
  unfold netSteering
  simp only [exWorldCancel, hs, ha, hc]
  ext <;> simp

/-- C14, as stated, fails: with the constructor's parameters and one neighbour 2000 m
away whose velocity is the opposite of its offset, alignment is `(-2000, 0, 0)` and
cohesion is `(2000, 0, 0)`; the net vector has length zero and the tick takes the
straight-ahead branch although the neighbour counts of alignment and cohesion are 1. -/
theorem fallback_without_neighbours_counterexample :
    exWorldCancel.owner.mode = "swarm" ∧
    (netSteering Rat.sqrt exWorldCancel.oca exWorldCancel.owner
      exWorldCancel.players).length Rat.sqrt = 0 ∧
    waypoint (updateData Rat.sqrt exWorldCancel) =
      some { position := ⟨5000, 10000, 15000⟩, cmdAltitude := 7 } ∧
    (alignmentScan Rat.sqrt exWorldCancel.oca exWorldCancel.owner exWorldCancel.players).2 = 1 ∧
    (cohesionScan Rat.sqrt exWorldCancel.oca exWorldCancel.owner exWorldCancel.players).2 = 1 ∧
    ¬ ((separationScan Rat.sqrt exWorldCancel.oca exWorldCancel.owner
          exWorldCancel.players).2 = 0 ∧
        (alignmentScan Rat.sqrt exWorldCancel.oca exWorldCancel.owner
          exWorldCancel.players).2 = 0 ∧
        (cohesionScan Rat.sqrt exWorldCancel.oca exWorldCancel.owner
          exWorldCancel.players).2 = 0) := by
  have hlen : (netSteering Rat.sqrt exWorldCancel.oca exWorldCancel.owner
      exWorldCancel.players).length Rat.sqrt = 0 := by
    rw [ex_cancel_net]
    exact length_zero Rat.sqrt (by simp)
  have hv : wpValid exWorldCancel := by
    intro h hh
    simp [exWorldCancel, SimOCA.new] at hh
  have hwp : waypoint (updateData Rat.sqrt exWorldCancel) =
      some { position := ⟨5000, 10000, 15000⟩, cmdAltitude := 7 } := by
    rw [waypoint_updateData Rat.sqrt exWorldCancel rfl hv]
    unfold target
    rw [nextWaypoint_eq_net, if_pos hlen]
    simp [exWorldCancel, exOwner]
    ext <;> simp <;> norm_num
  have ha : (alignmentScan Rat.sqrt exWorldCancel.oca exWorldCancel.owner
      exWorldCancel.players).2 = 1 := by
    rw [alignmentScan_eq]
    simp only [exWorldCancel, ex_cancel_neighbours_comm, List.length_singleton]
  have hc : (cohesionScan Rat.sqrt exWorldCancel.oca exWorldCancel.owner
      exWorldCancel.players).2 = 1 := by
    rw [cohesionScan_eq]
    simp only [exWorldCancel, ex_cancel_neighbours_comm, List.length_singleton]
  refine ⟨rfl, hlen, hwp, ha, hc, ?_⟩
  intro h
  rw [ha] at h
  exact absurd h.2.1 (by decide)

theorem length_eq_zero_iff (sqrt : F → F) (hsqrt : ∀ x : F, 0 ≤ x → (sqrt x = 0 ↔ x = 0))
    (v : Vec3 F) : v.length sqrt = 0 ↔ v = 0 := by
  unfold Vec3.length
  have hx := mul_self_nonneg v.x
  have hy := mul_self_nonneg v.y
  have hz := mul_self_nonneg v.z
  rw [hsqrt _ (add_nonneg (add_nonneg hx hy) hz)]
  constructor
  · intro h
    have hz0 : v.z * v.z = 0 := by linarith
    have hy0 : v.y * v.y = 0 := by linarith
    have hx0 : v.x * v.x = 0 := by linarith
    ext
    · exact mul_self_eq_zero.1 hx0
    · exact mul_self_eq_zero.1 hy0
    · exact mul_self_eq_zero.1 hz0
  · intro h
    rw [h]
    simp

theorem getters_zero_of_counts_zero (sqrt : F → F) (oca : SimOCA F) (owner : UAV F)
    (players : List (Player F))
    (hs : (separationScan sqrt oca owner players).2 = 0)
    (ha : (alignmentScan sqrt oca owner players).2 = 0)
    (hc : (cohesionScan sqrt oca owner players).2 = 0) :
    getSeparationVector sqrt oca owner players = 0 ∧
    getAlignmentVector sqrt oca owner players = 0 ∧
    getCohesionVector sqrt oca owner players = 0 := by
  rw [separationScan_eq] at hs
  rw [alignmentScan_eq] at ha
  rw [cohesionScan_eq] at hc
  have hQs : neighbours sqrt owner oca.desiredSep players = [] := List.length_eq_zero.1 hs
  have hQa : neighbours sqrt owner oca.commDist players = [] := List.length_eq_zero.1 ha
  have hQc : neighbours sqrt owner oca.commDist players = [] := List.length_eq_zero.1 hc
  refine ⟨?_, ?_, ?_⟩
  · rw [getSeparationVector_eq]; simp [separationReference, hQs]
  · rw [getAlignmentVector_eq]; simp [alignmentReference, hQa]
  · rw [getCohesionVector_eq]; simp [cohesionReference, hQc]

/-- C14, amended: on an active tick the net steering vector has zero length, and
`updateData` takes the branch `selfPosition + selfVelocity * 5000` at the current
altitude, exactly when the separation, alignment and cohesion vectors sum to the
zero vector; this is so when the neighbour count of all three rules is 0, and also
when the contributions of qualifying neighbours cancel (`sqrt` is assumed to vanish
at 0 only). -/
theorem fallback_iff_cancellation (sqrt : F → F) (w : World F)
    (hsqrt : ∀ x : F, 0 ≤ x → (sqrt x = 0 ↔ x = 0))
    (hmode : w.owner.mode = "swarm") (hvalid : wpValid w) :
    ((netSteering sqrt w.oca w.owner w.players).length sqrt = 0 ↔
      netSteering sqrt w.oca w.owner w.players = 0) ∧
    ((netSteering sqrt w.oca w.owner w.players).length sqrt = 0 →
      waypoint (updateData sqrt w) =
        some { position := w.owner.position + w.owner.velocity * (5000 : F)
               cmdAltitude := w.owner.altitude }) ∧
    ((separationScan sqrt w.oca w.owner w.players).2 = 0 ∧
        (alignmentScan sqrt w.oca w.owner w.players).2 = 0 ∧
        (cohesionScan sqrt w.oca w.owner w.players).2 = 0 →
      (netSteering sqrt w.oca w.owner w.players).length sqrt = 0) := by
  refine ⟨length_eq_zero_iff sqrt hsqrt _, ?_, ?_⟩
  · intro hlen
    rw [waypoint_updateData sqrt w hmode hvalid]
    unfold target
    rw [nextWaypoint_eq_net, if_pos hlen]
  · intro ⟨hs, ha, hc⟩
    obtain ⟨h1, h2, h3⟩ := getters_zero_of_counts_zero sqrt w.oca w.owner w.players hs ha hc
    rw [length_eq_zero_iff sqrt hsqrt]
    unfold netSteering
    rw [h1, h2, h3]
    ext <;> simp

theorem ratSqrt_eq_zero_iff (x : ℚ) (hx : 0 ≤ x) : Rat.sqrt x = 0 ↔ x = 0 := by
  constructor
  · intro h
    by_contra hne
    exact ratSqrt_ne_zero x (lt_of_le_of_ne hx (Ne.symm hne)) h
  · intro h
    rw [h]
    simp

/-- Evaluation of the amended C14 over the rationals on the world in which
alignment and cohesion cancel: the net vector is the zero vector and the tick takes
the straight-ahead branch. -/
theorem fallback_iff_cancellation_witness :
    (∀ x : ℚ, 0 ≤ x → (Rat.sqrt x = 0 ↔ x = 0)) ∧
    exWorldCancel.owner.mode = "swarm" ∧ wpValid exWorldCancel ∧
    (netSteering Rat.sqrt exWorldCancel.oca exWorldCancel.owner
      exWorldCancel.players).length Rat.sqrt = 0 ∧
    waypoint (updateData Rat.sqrt exWorldCancel) =
      some { position := exWorldCancel.owner.position + exWorldCancel.owner.velocity * (5000 : ℚ)
             cmdAltitude := exWorldCancel.owner.altitude } := by
  have hv : wpValid exWorldCancel := by
    intro h hh
    simp [exWorldCancel, SimOCA.new] at hh
  have h := fallback_iff_cancellation Rat.sqrt exWorldCancel ratSqrt_eq_zero_iff rfl hv
  have hlen := h.1.2 ex_cancel_net
  exact ⟨ratSqrt_eq_zero_iff, rfl, hv, hlen, h.2.1 hlen⟩

/-! ## C15: no division by zero -/

theorem scanPlayersChecked_eq (bodyC : Player F → Vec3 F × Nat → Option (Vec3 F × Nat))
    (body : Player F → Vec3 F × Nat → Vec3 F × Nat)
    (hbody : ∀ p acc, bodyC p acc = some (body p acc))
    (players : List (Player F)) (i : Nat) (acc : Vec3 F × Nat) :
    scanPlayersChecked bodyC players (i + 1) acc =
      some (scanPlayers body players (i + 1) acc) := by
  generalize hn : players.length - i = n
  induction n generalizing i acc with
  | zero =>
    have hle : players.length ≤ i := by omega
    have hnone : getPosition players (i + 1) = none := by
      simp [getPosition, List.getElem?_eq_none hle]
    rw [scanPlayersChecked, scanPlayers]
    split
    · rename_i player hsome
      rw [hnone] at hsome
      cases hsome
    · rfl
  | succ n ih =>
    have hlt : i < players.length := by omega
    have hsome : getPosition players (i + 1) = some (players.get ⟨i, hlt⟩) := by
      simp [getPosition, List.getElem?_eq_getElem hlt]
    rw [scanPlayersChecked, scanPlayers]
    split
    · rename_i player hp
      rw [hsome] at hp
      cases hp
      rw [hbody]
      exact ih (i + 1) _ (by omega)
    · rfl

theorem separationBodyChecked_eq (sqrt : F → F) (oca : SimOCA F) (owner : UAV F)
    (p : Player F) (acc : Vec3 F × Nat) :
    separationBodyChecked sqrt oca owner p acc = some (separationBody sqrt oca owner p acc) := by
  unfold separationBodyChecked separationBody
  by_cases h1 : p.isUAV = true ∧ owner.id ≠ p.id
  · by_cases h2 : getDistance sqrt owner.position p.position > 0 ∧
        getDistance sqrt owner.position p.position < oca.desiredSep
    · have hlen : (owner.position - p.position).length sqrt ≠ 0 := by
        rw [← getDistance_eq_length]
        exact ne_of_gt h2.1
      rw [if_pos h1, if_pos h1]
      simp only [if_pos h2, checkedDiv, if_neg hlen]
    · rw [if_pos h1, if_pos h1]
      simp only [if_neg h2]
  · rw [if_neg h1, if_neg h1]

theorem checkedSdiv_count (v : Vec3 F) (n : Nat) (hn : n > 0) :
    v.checkedSdiv (n : F) = some (v / (n : F)) := by
  unfold Vec3.checkedSdiv
  have h : (n : F) ≠ 0 := Nat.cast_ne_zero.2 (by omega)
  simp [h]

/-- C15: for every roster, self state and parameter values, thresholds and weights
of any sign included, no division of the three getters has a zero divisor: with
every division checked each getter still returns its value; in
`getSeparationVector` the divisor `|selfPos - neighborPos|` is positive whenever the
guard `dist > 0` passed, `dist` being the Euclidean distance of the same positions;
and with `count = 0` each getter returns the zero vector without dividing. -/
theorem no_division_by_zero (sqrt : F → F) (oca : SimOCA F) (owner : UAV F)
    (players : List (Player F)) :
    getSeparationVectorChecked sqrt oca owner players =
        some (getSeparationVector sqrt oca owner players) ∧
    getAlignmentVectorChecked sqrt oca owner players =
        some (getAlignmentVector sqrt oca owner players) ∧
    getCohesionVectorChecked sqrt oca owner players =
        some (getCohesionVector sqrt oca owner players) ∧
    (∀ p : Player F, getDistance sqrt owner.position p.position > 0 →
      (owner.position - p.position).length sqrt > 0) ∧
    ((separationScan sqrt oca owner players).2 = 0 →
      getSeparationVector sqrt oca owner players = 0) ∧
    ((alignmentScan sqrt oca owner players).2 = 0 →
      getAlignmentVector sqrt oca owner players = 0) ∧
    ((cohesionScan sqrt oca owner players).2 = 0 →
      getCohesionVector sqrt oca owner players = 0) := by
  refine ⟨?_, ?_, ?_, ?_, ?_, ?_, ?_⟩
  · unfold getSeparationVectorChecked getSeparationVector separationScan
    rw [scanPlayersChecked_eq _ _ (separationBodyChecked_eq sqrt oca owner) players 0 (0, 0)]
    simp only [Nat.zero_add]
    by_cases hc : (scanPlayers (separationBody sqrt oca owner) players 1 (0, 0)).2 > 0
    · simp only [hc, if_true, checkedSdiv_count _ _ hc]
    · simp only [hc, if_false]
  · unfold getAlignmentVectorChecked getAlignmentVector
    by_cases hc : (alignmentScan sqrt oca owner players).2 > 0
    · simp only [hc, if_true, checkedSdiv_count _ _ hc]
    · simp only [hc, if_false]
  · unfold getCohesionVectorChecked getCohesionVector
    by_cases hc : (cohesionScan sqrt oca owner players).2 > 0
    · simp only [hc, if_true, checkedSdiv_count _ _ hc]
    · simp only [hc, if_false]
  · intro p hp
    rw [← getDistance_eq_length]
    exact hp
  · intro h
    rw [separationScan_eq] at h
    rw [getSeparationVector_eq]
    simp [separationReference, List.length_eq_zero.1 h]
  · intro h
    rw [alignmentScan_eq] at h
    rw [getAlignmentVector_eq]
    simp [alignmentReference, List.length_eq_zero.1 h]
  · intro h
    rw [cohesionScan_eq] at h
    rw [getCohesionVector_eq]
    simp [cohesionReference, List.length_eq_zero.1 h]

/-- Evaluation of C15 over the reals: the guard passes for the neighbour at
`(300, 400, 0)`, so the divisor is positive. -/
theorem no_division_by_zero_witness :
    getDistance Real.sqrt exOwnerR.position exN1R.position > 0 ∧
    (exOwnerR.position - exN1R.position).length Real.sqrt > 0 := by
  have hd : getDistance Real.sqrt exOwnerR.position exN1R.position > 0 := by
    unfold getDistance
    apply Real.sqrt_pos.2
    norm_num [exOwnerR, exN1R]
  exact ⟨hd, (no_division_by_zero Real.sqrt SimOCA.new exOwnerR []).2.2.2.1 exN1R hd⟩

/-! ## C16: what the neighbour filter excludes -/

theorem not_qualifies_of_excluded (sqrt : F → F) (owner : UAV F) (threshold : F) (n : Player F)
    (h : n.id = owner.id ∨ n.isUAV = false ∨ getDistance sqrt owner.position n.position = 0) :
    ¬ qualifies sqrt owner threshold n := by
  intro hq
  rcases h with h | h | h
  · exact hq.2.1 h
  · rw [hq.1] at h
    cases h
  · have h3 := hq.2.2.1
    rw [h] at h3
    exact lt_irrefl _ h3

/-- C16: a roster entry that has the identity of the owner (wherever it is and
however it moves), or is not a UAV, or is at distance exactly 0 from the owner, can
be added to or removed from any place of the roster without changing the results of
`getSeparationVector`, `getAlignmentVector` and `getCohesionVector`. -/
theorem filter_excludes (sqrt : F → F) (oca : SimOCA F) (owner : UAV F)
    (pre post : List (Player F)) (n : Player F)
    (h : n.id = owner.id ∨ n.isUAV = false ∨ getDistance sqrt owner.position n.position = 0) :
    getSeparationVector sqrt oca owner (pre ++ n :: post) =
        getSeparationVector sqrt oca owner (pre ++ post) ∧
    getAlignmentVector sqrt oca owner (pre ++ n :: post) =
        getAlignmentVector sqrt oca owner (pre ++ post) ∧
    getCohesionVector sqrt oca owner (pre ++ n :: post) =
        getCohesionVector sqrt oca owner (pre ++ post) := by
  have hs := not_qualifies_of_excluded sqrt owner oca.desiredSep n h
  have hc := not_qualifies_of_excluded sqrt owner oca.commDist n h
  refine ⟨?_, ?_, ?_⟩
  · simp only [getSeparationVector_eq, separationReference,
      neighbours_insert_of_not sqrt owner oca.desiredSep pre post n hs]
  · simp only [getAlignmentVector_eq, alignmentReference,
      neighbours_insert_of_not sqrt owner oca.commDist pre post n hc]
  · simp only [getCohesionVector_eq, cohesionReference,
      neighbours_insert_of_not sqrt owner oca.commDist pre post n hc]

/-- Evaluation of C16 over the rationals: an entry with the owner's identity, an
entry that is not a UAV and a UAV at the owner's position, each put between the two
neighbours of the example roster. -/
theorem filter_excludes_witness :
    (exSelf.id = exOwner.id ∧
      getSeparationVector Rat.sqrt SimOCA.new exOwner ([exN1] ++ exSelf :: [exN2]) =
        getSeparationVector Rat.sqrt SimOCA.new exOwner ([exN1] ++ [exN2])) ∧
    (exOther.isUAV = false ∧
      getAlignmentVector Rat.sqrt SimOCA.new exOwner ([exN1] ++ exOther :: [exN2]) =
        getAlignmentVector Rat.sqrt SimOCA.new exOwner ([exN1] ++ [exN2])) ∧
    (getDistance Rat.sqrt exOwner.position exCoincident.position = 0 ∧
      getCohesionVector Rat.sqrt SimOCA.new exOwner ([exN1] ++ exCoincident :: [exN2]) =
        getCohesionVector Rat.sqrt SimOCA.new exOwner ([exN1] ++ [exN2])) := by
  have hd : getDistance Rat.sqrt exOwner.position exCoincident.position = 0 := by
    simp [getDistance, exOwner, exCoincident]
  exact ⟨⟨rfl, (filter_excludes Rat.sqrt SimOCA.new exOwner [exN1] [exN2] exSelf
      (Or.inl rfl)).1⟩,
    ⟨rfl, (filter_excludes Rat.sqrt SimOCA.new exOwner [exN1] [exN2] exOther
      (Or.inr (Or.inl rfl))).2.1⟩,
    ⟨hd, (filter_excludes Rat.sqrt SimOCA.new exOwner [exN1] [exN2] exCoincident
      (Or.inr (Or.inr hd))).2.2⟩⟩

/-! ## C17: direct-to on every active tick -/

theorem reach_snoc (sqrt : F → F) (w : World F) (es : List (Event F)) (e : Event F) :
    reach sqrt w (es ++ [e]) = step sqrt (reach sqrt w es) e := by
  simp [reach, List.foldl_append]

/-- A configuration call touches neither the `wp` pointer nor the ownship. -/
theorem step_config (sqrt : F → F) (w : World F) (e : Event F)
    (he : ∀ o, e ≠ Event.tick o) :
    (step sqrt w e).oca.wp = w.oca.wp ∧ (step sqrt w e).owner = w.owner := by
  cases e with
  | tick o => exact absurd rfl (he o)
  | setSeparationFactor x => exact ⟨rfl, rfl⟩
  | setAlignmentFactor x => exact ⟨rfl, rfl⟩
  | setCohesionFactor x => exact ⟨rfl, rfl⟩
  | setCommDistance x => exact ⟨rfl, rfl⟩
  | setDesiredSeparation x => exact ⟨rfl, rfl⟩
  | setSlotSeparationFactor m => cases m <;> exact ⟨rfl, rfl⟩
  | setSlotAlignmentFactor m => cases m <;> exact ⟨rfl, rfl⟩
  | setSlotCohesionFactor m => cases m <;> exact ⟨rfl, rfl⟩
  | setSlotCommDistance m => cases m <;> exact ⟨rfl, rfl⟩
  | setSlotCommDistanceD m => cases m <;> exact ⟨rfl, rfl⟩
  | setSlotDesiredSeparation m => cases m <;> exact ⟨rfl, rfl⟩
  | setSlotDesiredSeparationD m => cases m <;> exact ⟨rfl, rfl⟩

theorem wpInRoute_of_directedTo (w : World F) (h : directedTo w) : wpInRoute w := by
  obtain ⟨k, r, hwp, hnav, hmem, _⟩ := h
  intro k2 hk2
  rw [hwp] at hk2
  cases hk2
  exact ⟨r, hnav, hmem⟩

/-- An active tick on a state in which an owned steerpoint is in the route ends
with the steerpoint in the route and the route flying to it. -/
theorem tick_directedTo (sqrt : F → F) (w : World F) (o : Observation F)
    (hinv : wpInRoute w) (hmode : o.mode = "swarm") : directedTo (tick sqrt w o) := by
  unfold tick
  rw [updateData_active sqrt (w.observe o) hmode]
  unfold directedTo
  refine ⟨wpAfter (w.observe o), routeAfter (w.observe o), rfl, rfl, ?_, ?_⟩
  · unfold wpAfter routeAfter
    cases hwp : w.oca.wp with
    | none =>
      simp [World.observe, hwp, Route.insertSteerpoint, Route.directTo]
    | some k =>
      obtain ⟨r, hnav, hmem⟩ := hinv k hwp
      simp [World.observe, hwp, hnav, Route.directTo, hmem]
  · unfold wpAfter routeAfter
    cases hwp : w.oca.wp <;> simp [World.observe, hwp, Route.directTo]

theorem step_wpInRoute (sqrt : F → F) (w : World F) (e : Event F) (hinv : wpInRoute w) :
    wpInRoute (step sqrt w e) := by
  by_cases he : ∃ o, e = Event.tick o
  · obtain ⟨o, rfl⟩ := he
    by_cases hmode : o.mode = "swarm"
    · exact wpInRoute_of_directedTo _ (tick_directedTo sqrt w o hinv hmode)
    · simp only [step]
      rw [tick_inactive sqrt w o hmode]
      exact hinv
  · have hcfg := step_config sqrt w e (fun o ho => he ⟨o, ho⟩)
    intro k hk
    rw [hcfg.1] at hk
    rw [hcfg.2]
    exact hinv k hk

theorem reach_wpInRoute (sqrt : F → F) (id : Nat) (nav : Option Navigation)
    (heap : List (Steerpoint F)) (es : List (Event F)) :
    wpInRoute (reach sqrt (World.fresh id nav heap) es) := by
  induction es using List.reverseRecOn with
  | nil =>
    intro k hk
    simp [reach, World.fresh, SimOCA.new] at hk
  | append_singleton es e ih =>
    rw [reach_snoc]
    exact step_wpInRoute sqrt _ e ih

/-- C17: in every state reached from a freshly constructed agent by ticks and
configuration calls, and for every observation (so for every roster and in the
fallback branch as in the steering branch), after an active tick the ownship has a
navigation component with a route, the owned steerpoint is among the steerpoints
inserted into that route, and the route's direct-to target is the owned steerpoint. -/
theorem direct_to_on_active_tick (sqrt : F → F) (id : Nat) (nav : Option Navigation)
    (heap : List (Steerpoint F)) (es : List (Event F)) (o : Observation F)
    (hmode : o.mode = "swarm") :
    directedTo (tick sqrt (reach sqrt (World.fresh id nav heap) es) o) :=
  tick_directedTo sqrt _ o (reach_wpInRoute sqrt id nav heap es) hmode

/-- Evaluation of C17 over the rationals: an active tick after the example run of
calls. -/
theorem direct_to_on_active_tick_witness :
    exObs.mode = "swarm" ∧
    directedTo (tick Rat.sqrt (reach Rat.sqrt (World.fresh 1 none []) exEvents) exObs) :=
  ⟨rfl, direct_to_on_active_tick Rat.sqrt 1 none [] exEvents exObs rfl⟩

/-! ## Translation in exact arithmetic -/

theorem getDistance_translate (sqrt : F → F) (p q t : Vec3 F) :
    getDistance sqrt (p + t) (q + t) = getDistance sqrt p q := by
  unfold getDistance
  congr 1
  simp only [Vec3.add_x, Vec3.add_y, Vec3.add_z]
  ring

theorem qualifies_translate (sqrt : F → F) (owner : UAV F) (threshold : F) (t : Vec3 F)
    (p : Player F) :
    qualifies sqrt (owner.translate t) threshold (p.translate t) ↔
      qualifies sqrt owner threshold p := by
  unfold qualifies
  simp only [UAV.translate, Player.translate, getDistance_translate]

theorem neighbours_translate (sqrt : F → F) (owner : UAV F) (threshold : F) (t : Vec3 F)
    (players : List (Player F)) :
    neighbours sqrt (owner.translate t) threshold (players.map (Player.translate t)) =
      (neighbours sqrt owner threshold players).map (Player.translate t) := by
  unfold neighbours
  rw [List.filter_map]
  congr 1
  apply List.filter_congr
  intro p _
  simp only [Function.comp, qualifies_translate]

theorem separationTerm_translate (sqrt : F → F) (oca : SimOCA F) (owner : UAV F) (t : Vec3 F)
    (p : Player F) :
    separationTerm sqrt oca (owner.translate t) (p.translate t) =
      separationTerm sqrt oca owner p := by
  unfold separationTerm
  simp only [UAV.translate, Player.translate, getDistance_translate]
  ext <;> simp

/-- Sum of the translated positions of a list of players. -/
theorem sum_positions_translate (t : Vec3 F) (Q : List (Player F)) :
    ((Q.map (Player.translate t)).map Player.position).sum =
      (Q.map Player.position).sum + t * (Q.length : F) := by
  induction Q with
  | nil => ext <;> simp
  | cons p Q ih =>
    simp only [List.map_cons, Vec3.sum_cons, ih, List.length_cons]
    ext <;> simp [Player.translate] <;> ring

theorem getters_translate (sqrt : F → F) (oca : SimOCA F) (owner : UAV F) (t : Vec3 F)
    (players : List (Player F)) :
    getSeparationVector sqrt oca (owner.translate t) (players.map (Player.translate t)) =
        getSeparationVector sqrt oca owner players ∧
    getAlignmentVector sqrt oca (owner.translate t) (players.map (Player.translate t)) =
        getAlignmentVector sqrt oca owner players ∧
    getCohesionVector sqrt oca (owner.translate t) (players.map (Player.translate t)) =
        getCohesionVector sqrt oca owner players := by
  refine ⟨?_, ?_, ?_⟩
  · simp only [getSeparationVector_eq, separationReference, neighbours_translate,
      List.map_eq_nil_iff, List.length_map, List.map_map]
    have hterm : separationTerm sqrt oca (owner.translate t) ∘ Player.translate t =
        separationTerm sqrt oca owner := by
      funext p
      exact separationTerm_translate sqrt oca owner t p
    rw [hterm]
  · simp only [getAlignmentVector_eq, alignmentReference, neighbours_translate,
      List.map_eq_nil_iff, List.length_map, List.map_map]
    have hvel : Player.velocity ∘ Player.translate t = (Player.velocity : Player F → Vec3 F) := by
      funext p
      rfl
    rw [hvel]
  · simp only [getCohesionVector_eq, cohesionReference, neighbours_translate,
      List.map_eq_nil_iff, List.length_map]
    by_cases hQ : neighbours sqrt owner oca.commDist players = []
    · simp [hQ]
    · have hpos : 0 < (neighbours sqrt owner oca.commDist players).length :=
        List.length_pos.2 hQ
      have hne : ((neighbours sqrt owner oca.commDist players).length : F) ≠ 0 :=
        Nat.cast_ne_zero.2 (by omega)
      simp only [hQ, if_false, sum_positions_translate]
      ext <;>
        simp only [UAV.translate, Vec3.smul_x, Vec3.smul_y, Vec3.smul_z, Vec3.sub_x, Vec3.sub_y,
          Vec3.sub_z, Vec3.sdiv_x, Vec3.sdiv_y, Vec3.sdiv_z, Vec3.add_x, Vec3.add_y,
          Vec3.add_z] <;>
        rw [add_div, mul_div_cancel_right₀ _ hne] <;> ring

/-- In exact arithmetic, adding a vector `t` to the position of the owner and of every
roster entry leaves the three getters as they were and shifts the position that an
active tick writes into the waypoint by exactly `t`. -/
theorem translation_exact (sqrt : F → F) (w : World F) (t : Vec3 F) :
    getSeparationVector sqrt w.oca (w.owner.translate t) (w.players.map (Player.translate t)) =
        getSeparationVector sqrt w.oca w.owner w.players ∧
    getAlignmentVector sqrt w.oca (w.owner.translate t) (w.players.map (Player.translate t)) =
        getAlignmentVector sqrt w.oca w.owner w.players ∧
    getCohesionVector sqrt w.oca (w.owner.translate t) (w.players.map (Player.translate t)) =
        getCohesionVector sqrt w.oca w.owner w.players ∧
    (target sqrt (w.translate t)).position = (target sqrt w).position + t ∧
    (w.owner.mode = "swarm" → wpValid w →
      waypoint (updateData sqrt w) = some (target sqrt w) ∧
      waypoint (updateData sqrt (w.translate t)) = some (target sqrt (w.translate t))) := by
  obtain ⟨hs, ha, hc⟩ := getters_translate sqrt w.oca w.owner t w.players
  refine ⟨hs, ha, hc, ?_, ?_⟩
  · unfold target
    simp only [World.translate, hs, ha, hc]
    split <;> (ext <;> simp [UAV.translate] <;> ring)
  · intro hmode hvalid
    exact ⟨waypoint_updateData sqrt w hmode hvalid,
      waypoint_updateData sqrt (w.translate t) hmode hvalid⟩

/-! ## Permutation of the roster in exact arithmetic -/

theorem sum_map_perm (c : Player F → Vec3 F) (l1 l2 : List (Player F)) (h : l1.Perm l2) :
    (l1.map c).sum = (l2.map c).sum := by
  ext
  · simp only [Vec3.sum_x]
    exact ((h.map c).map Vec3.x).sum_eq
  · simp only [Vec3.sum_y]
    exact ((h.map c).map Vec3.y).sum_eq
  · simp only [Vec3.sum_z]
    exact ((h.map c).map Vec3.z).sum_eq

theorem neighbours_perm (sqrt : F → F) (owner : UAV F) (threshold : F)
    (l1 l2 : List (Player F)) (h : l1.Perm l2) :
    (neighbours sqrt owner threshold l1).Perm (neighbours sqrt owner threshold l2) :=
  h.filter _

/-- In exact arithmetic the three getters return the same vectors for every
permutation of the roster. -/
theorem roster_order_exact (sqrt : F → F) (oca : SimOCA F) (owner : UAV F)
    (players permuted : List (Player F)) (hperm : players.Perm permuted) :
    getSeparationVector sqrt oca owner permuted = getSeparationVector sqrt oca owner players ∧
    getAlignmentVector sqrt oca owner permuted = getAlignmentVector sqrt oca owner players ∧
    getCohesionVector sqrt oca owner permuted = getCohesionVector sqrt oca owner players := by
  have hs := neighbours_perm sqrt owner oca.desiredSep players permuted hperm
  have hc := neighbours_perm sqrt owner oca.commDist players permuted hperm
  have hnil : ∀ {l1 l2 : List (Player F)}, l1.Perm l2 → (l2 = [] ↔ l1 = []) := by
    intro l1 l2 h
    rw [← List.length_eq_zero, ← List.length_eq_zero, h.length_eq]
  refine ⟨?_, ?_, ?_⟩
  · simp only [getSeparationVector_eq, separationReference, hnil hs, hs.length_eq,
      sum_map_perm _ _ _ hs]
  · simp only [getAlignmentVector_eq, alignmentReference, hnil hc, hc.length_eq,
      sum_map_perm _ _ _ hc]
  · simp only [getCohesionVector_eq, cohesionReference, hnil hc, hc.length_eq,
      sum_map_perm _ _ _ hc]

/-! ## C20: non-positive thresholds switch a rule off -/

theorem neighbours_eq_nil_of_nonpos (sqrt : F → F) (owner : UAV F) (threshold : F)
    (players : List (Player F)) (h : threshold ≤ 0) :
    neighbours sqrt owner threshold players = [] := by
  unfold neighbours
  rw [List.filter_eq_nil_iff]
  intro p _ hq
  have hq : qualifies sqrt owner threshold p := of_decide_eq_true hq
  exact absurd (lt_trans hq.2.2.1 hq.2.2.2) (not_lt.2 h)

/-- C20: if `desiredSeparation <= 0` then `getSeparationVector` returns the zero
vector, and if `commDistance <= 0` then `getAlignmentVector` and `getCohesionVector`
return the zero vector, for every roster and self state: no distance `d` satisfies
`0 < d < threshold`. -/
theorem nonpositive_threshold_disables (sqrt : F → F) (oca : SimOCA F) (owner : UAV F)
    (players : List (Player F)) :
    (oca.desiredSep ≤ 0 → getSeparationVector sqrt oca owner players = 0) ∧
    (oca.commDist ≤ 0 →
      getAlignmentVector sqrt oca owner players = 0 ∧
      getCohesionVector sqrt oca owner players = 0) := by
  refine ⟨fun h => ?_, fun h => ⟨?_, ?_⟩⟩
  · rw [getSeparationVector_eq]
    simp [separationReference, neighbours_eq_nil_of_nonpos sqrt owner _ players h]
  · rw [getAlignmentVector_eq]
    simp [alignmentReference, neighbours_eq_nil_of_nonpos sqrt owner _ players h]
  · rw [getCohesionVector_eq]
    simp [cohesionReference, neighbours_eq_nil_of_nonpos sqrt owner _ players h]

/-- Evaluation of C20 over the rationals with `desiredSeparation = 0` and
`commDistance = -1` on the example roster. -/
theorem nonpositive_threshold_disables_witness :
    exOcaOff.desiredSep = 0 ∧ exOcaOff.commDist = -1 ∧
    getSeparationVector Rat.sqrt exOcaOff exOwner [exN1, exN2] = 0 ∧
    getAlignmentVector Rat.sqrt exOcaOff exOwner [exN1, exN2] = 0 ∧
    getCohesionVector Rat.sqrt exOcaOff exOwner [exN1, exN2] = 0 := by
  have h := nonpositive_threshold_disables Rat.sqrt exOcaOff exOwner [exN1, exN2]
  have h1 := h.1 (by norm_num [exOcaOff])
  have h2 := h.2 (by norm_num [exOcaOff])
  exact ⟨rfl, rfl, h1, h2.1, h2.2⟩

/-! ## Rounding to double -/

theorem roundNearestEven_intCast (z : ℤ) : roundNearestEven (z : ℚ) = z := by
  unfold roundNearestEven
  simp

/-- A number within less than one half of an integer rounds to that integer. -/
theorem roundNearestEven_near (y : ℚ) (n : ℤ) (h1 : (n : ℚ) - 1 / 2 < y)
    (h2 : y < (n : ℚ) + 1 / 2) : roundNearestEven y = n := by
  unfold roundNearestEven
  by_cases hy : (n : ℚ) ≤ y
  · have hfloor : ⌊y⌋ = n := Int.floor_eq_iff.2 ⟨hy, by linarith⟩
    simp only [hfloor]
    rw [if_pos (by linarith)]
  · have hlt : y < n := not_le.1 hy
    have hfloor : ⌊y⌋ = n - 1 := by
      apply Int.floor_eq_iff.2
      constructor
      · push_cast; linarith
      · push_cast; linarith
    simp only [hfloor]
    push_cast
    rw [if_neg (by linarith), if_pos (by linarith)]
    ring

/-- A number halfway between two integers rounds to the even one. -/
theorem roundNearestEven_tie (y : ℚ) (n : ℤ) (h : y = (n : ℚ) + 1 / 2) :
    roundNearestEven y = if n % 2 = 0 then n else n + 1 := by
  unfold roundNearestEven
  have hfloor : ⌊y⌋ = n := Int.floor_eq_iff.2 ⟨by linarith, by linarith⟩
  simp only [hfloor]
  rw [if_neg (by linarith), if_neg (by linarith)]

theorem binade_eq (x : ℚ) (e : ℤ) (hx : 0 < x) (hlo : (2 : ℚ) ^ e ≤ x)
    (hhi : x < (2 : ℚ) ^ (e + 1)) : binade x = e := by
  unfold binade
  rw [abs_of_pos hx]
  have h1 : e ≤ Int.log 2 x := by
    have := (Int.zpow_le_iff_le_log (b := 2) (by norm_num) hx (x := e)).1
    exact this (by exact_mod_cast hlo)
  have h2 : Int.log 2 x < e + 1 := by
    have := (Int.lt_zpow_iff_log_lt (b := 2) (by norm_num) hx (x := e + 1)).1
    exact this (by exact_mod_cast hhi)
  omega

theorem fl_zero : fl 0 = 0 := by
  simp [fl]

/-- Rounding of a positive number whose scaled value is within one half of `n`. -/
theorem fl_near (x : ℚ) (e n : ℤ) (hx : 0 < x) (hlo : (2 : ℚ) ^ e ≤ x)
    (hhi : x < (2 : ℚ) ^ (e + 1)) (h1 : (n : ℚ) - 1 / 2 < x * 2 ^ (52 - e))
    (h2 : x * 2 ^ (52 - e) < (n : ℚ) + 1 / 2) : fl x = (n : ℚ) / 2 ^ (52 - e) := by
  unfold fl
  rw [if_neg (ne_of_gt hx), binade_eq x e hx hlo hhi, roundNearestEven_near _ n h1 h2]

/-- Rounding of a positive number whose scaled value is halfway between `n` and `n + 1`. -/
theorem fl_tie (x : ℚ) (e n : ℤ) (hx : 0 < x) (hlo : (2 : ℚ) ^ e ≤ x)
    (hhi : x < (2 : ℚ) ^ (e + 1)) (h : x * 2 ^ (52 - e) = (n : ℚ) + 1 / 2) :
    fl x = ((if n % 2 = 0 then n else n + 1 : ℤ) : ℚ) / 2 ^ (52 - e) := by
  unfold fl
  rw [if_neg (ne_of_gt hx), binade_eq x e hx hlo hhi, roundNearestEven_tie _ n h]

/-- Integers below `2^53` in absolute value are doubles. -/
theorem fl_intCast (z : ℤ) (hz : |z| < 2 ^ 53) : fl (z : ℚ) = z := by
  by_cases h0 : z = 0
  · subst h0
    simp [fl]
  · unfold fl
    have hne : (z : ℚ) ≠ 0 := by exact_mod_cast h0
    rw [if_neg hne]
    have hpos : (0 : ℚ) < |(z : ℚ)| := abs_pos.2 hne
    have hlt : |(z : ℚ)| < (2 : ℚ) ^ (53 : ℤ) := by
      have h : ((|z| : ℤ) : ℚ) < ((2 ^ 53 : ℤ) : ℚ) := by exact_mod_cast hz
      rw [Int.cast_abs] at h
      norm_num at h ⊢
      exact h
    have hlog : binade (z : ℚ) < 53 := by
      unfold binade
      exact (Int.lt_zpow_iff_log_lt (b := 2) (by norm_num) hpos).1 (by exact_mod_cast hlt)
    obtain ⟨k, hk⟩ : ∃ k : ℕ, 52 - binade (z : ℚ) = (k : ℤ) :=
      ⟨(52 - binade (z : ℚ)).toNat, (Int.toNat_of_nonneg (by omega)).symm⟩
    rw [hk, zpow_natCast]
    have hcast : (z : ℚ) * 2 ^ k = ((z * 2 ^ k : ℤ) : ℚ) := by push_cast; ring
    rw [hcast, roundNearestEven_intCast]
    push_cast
    field_simp

/-! ## The doubles of the example velocities and their sums -/

theorem fl_tenth :
    fl (1 / 10) =
      3602879701896397 / 36028797018963968 := by
  rw [fl_near
    (1 / 10)
    (-4) 7205759403792794
    (by norm_num) (by norm_num) (by norm_num) (by norm_num) (by norm_num)]
  norm_num

theorem fl_fifth :
    fl (2 / 10) =
      3602879701896397 / 18014398509481984 := by
  rw [fl_near
    (2 / 10)
    (-3) 7205759403792794
    (by norm_num) (by norm_num) (by norm_num) (by norm_num) (by norm_num)]
  norm_num

theorem fl_three_tenths :
    fl (3 / 10) =
      5404319552844595 / 18014398509481984 := by
  rw [fl_near
    (3 / 10)
    (-2) 5404319552844595
    (by norm_num) (by norm_num) (by norm_num) (by norm_num) (by norm_num)]
  norm_num

theorem fl_sum_a :
    fl (0 + 3602879701896397 / 36028797018963968) =
      3602879701896397 / 36028797018963968 := by
  rw [fl_near
    (0 + 3602879701896397 / 36028797018963968)
    (-4) 7205759403792794
    (by norm_num) (by norm_num) (by norm_num) (by norm_num) (by norm_num)]
  norm_num

theorem fl_sum_ab :
    fl (3602879701896397 / 36028797018963968 + 3602879701896397 / 18014398509481984) =
      1351079888211149 / 4503599627370496 := by
  rw [fl_tie
    (3602879701896397 / 36028797018963968 + 3602879701896397 / 18014398509481984)
    (-2) 5404319552844595
    (by norm_num) (by norm_num) (by norm_num) (by norm_num)]
  norm_num

theorem fl_sum_abc :
    fl (1351079888211149 / 4503599627370496 + 5404319552844595 / 18014398509481984) =
      1351079888211149 / 2251799813685248 := by
  rw [fl_tie
    (1351079888211149 / 4503599627370496 + 5404319552844595 / 18014398509481984)
    (-1) 5404319552844595
    (by norm_num) (by norm_num) (by norm_num) (by norm_num)]
  norm_num

theorem fl_mean_abc :
    fl (1351079888211149 / 2251799813685248 / 3) =
      7205759403792795 / 36028797018963968 := by
  rw [fl_near
    (1351079888211149 / 2251799813685248 / 3)
    (-3) 7205759403792795
    (by norm_num) (by norm_num) (by norm_num) (by norm_num) (by norm_num)]
  norm_num

theorem fl_scaled_abc :
    fl (7205759403792795 / 36028797018963968 * 1) =
      7205759403792795 / 36028797018963968 := by
  rw [fl_near
    (7205759403792795 / 36028797018963968 * 1)
    (-3) 7205759403792795
    (by norm_num) (by norm_num) (by norm_num) (by norm_num) (by norm_num)]
  norm_num

theorem fl_sum_c :
    fl (0 + 5404319552844595 / 18014398509481984) =
      5404319552844595 / 18014398509481984 := by
  rw [fl_near
    (0 + 5404319552844595 / 18014398509481984)
    (-2) 5404319552844595
    (by norm_num) (by norm_num) (by norm_num) (by norm_num) (by norm_num)]
  norm_num

theorem fl_sum_cb :
    fl (5404319552844595 / 18014398509481984 + 3602879701896397 / 18014398509481984) =
      1 / 2 := by
  rw [fl_near
    (5404319552844595 / 18014398509481984 + 3602879701896397 / 18014398509481984)
    (-1) 4503599627370496
    (by norm_num) (by norm_num) (by norm_num) (by norm_num) (by norm_num)]
  norm_num

theorem fl_sum_cba :
    fl (1 / 2 + 3602879701896397 / 36028797018963968) =
      5404319552844595 / 9007199254740992 := by
  rw [fl_near
    (1 / 2 + 3602879701896397 / 36028797018963968)
    (-1) 5404319552844595
    (by norm_num) (by norm_num) (by norm_num) (by norm_num) (by norm_num)]
  norm_num

theorem fl_mean_cba :
    fl (5404319552844595 / 9007199254740992 / 3) =
      7205759403792793 / 36028797018963968 := by
  rw [fl_near
    (5404319552844595 / 9007199254740992 / 3)
    (-3) 7205759403792793
    (by norm_num) (by norm_num) (by norm_num) (by norm_num) (by norm_num)]
  norm_num

theorem fl_scaled_cba :
    fl (7205759403792793 / 36028797018963968 * 1) =
      7205759403792793 / 36028797018963968 := by
  rw [fl_near
    (7205759403792793 / 36028797018963968 * 1)
    (-3) 7205759403792793
    (by norm_num) (by norm_num) (by norm_num) (by norm_num) (by norm_num)]
  norm_num

/-! ## Evaluating the double model -/

theorem fl_neg_three : fl (-3) = -3 := by
  simpa using fl_intCast (-3) (by norm_num)

theorem fl_neg_four : fl (-4) = -4 := by
  simpa using fl_intCast (-4) (by norm_num)

theorem fl_nine : fl 9 = 9 := by
  simpa using fl_intCast 9 (by norm_num)

theorem fl_sixteen : fl 16 = 16 := by
  simpa using fl_intCast 16 (by norm_num)

theorem fl_twenty_five : fl 25 = 25 := by
  simpa using fl_intCast 25 (by norm_num)

theorem ratSqrt_twenty_five : Rat.sqrt 25 = 5 := by
  have h := ratSqrt_mul_self 5 (by norm_num)
  rw [show (5 : ℚ) * 5 = 25 by norm_num] at h
  exact h

theorem dA_dist : getDistanceD Rat.sqrt dOwner.position dA.position = 5 := by
  simp only [getDistanceD, dOwner, dA, dsub, dmul, dadd]
  norm_num [fl_zero, fl_neg_three, fl_neg_four, fl_nine, fl_sixteen, fl_twenty_five,
    ratSqrt_twenty_five, -Rat.sqrt_ofNat]

theorem dB_dist : getDistanceD Rat.sqrt dOwner.position dB.position = 5 := by
  simp only [getDistanceD, dOwner, dB, dsub, dmul, dadd]
  norm_num [fl_zero, fl_neg_three, fl_neg_four, fl_nine, fl_sixteen, fl_twenty_five,
    ratSqrt_twenty_five, -Rat.sqrt_ofNat]

theorem dC_dist : getDistanceD Rat.sqrt dOwner.position dC.position = 5 := by
  simp only [getDistanceD, dOwner, dC, dsub, dmul, dadd]
  norm_num [fl_zero, fl_neg_three, fl_neg_four, fl_nine, fl_sixteen, fl_twenty_five,
    ratSqrt_twenty_five, -Rat.sqrt_ofNat]

/-- A UAV of other identity whose computed distance passes the guard is added to
the sum and counted. -/
theorem alignmentBodyD_counted (sqrt : ℚ → ℚ) (oca : SimOCA ℚ) (owner : UAV ℚ)
    (p : Player ℚ) (acc : Vec3 ℚ × Nat) (hu : p.isUAV = true) (hid : owner.id ≠ p.id)
    (h0 : getDistanceD sqrt owner.position p.position > 0)
    (h1 : getDistanceD sqrt owner.position p.position < oca.commDist) :
    alignmentBodyD sqrt oca owner p acc = (acc.1.dadd p.velocity, acc.2 + 1) := by
  unfold alignmentBodyD
  rw [if_pos ⟨hu, hid⟩]
  simp only [h0, h1, and_self, if_true]

theorem fl_zero_add_zero : fl (0 + 0) = 0 := by
  rw [add_zero, fl_zero]

theorem fl_zero_div (c : ℚ) : fl (0 / c) = 0 := by
  rw [zero_div, fl_zero]

theorem fl_zero_mul (c : ℚ) : fl (0 * c) = 0 := by
  rw [zero_mul, fl_zero]

theorem dA_counted (acc : Vec3 ℚ × Nat) :
    alignmentBodyD Rat.sqrt SimOCA.new dOwner dA acc = (acc.1.dadd dA.velocity, acc.2 + 1) := by
  apply alignmentBodyD_counted Rat.sqrt SimOCA.new dOwner dA acc rfl (by decide)
  · rw [dA_dist]; norm_num
  · rw [dA_dist]; norm_num [SimOCA.new]

theorem dB_counted (acc : Vec3 ℚ × Nat) :
    alignmentBodyD Rat.sqrt SimOCA.new dOwner dB acc = (acc.1.dadd dB.velocity, acc.2 + 1) := by
  apply alignmentBodyD_counted Rat.sqrt SimOCA.new dOwner dB acc rfl (by decide)
  · rw [dB_dist]; norm_num
  · rw [dB_dist]; norm_num [SimOCA.new]

theorem dC_counted (acc : Vec3 ℚ × Nat) :
    alignmentBodyD Rat.sqrt SimOCA.new dOwner dC acc = (acc.1.dadd dC.velocity, acc.2 + 1) := by
  apply alignmentBodyD_counted Rat.sqrt SimOCA.new dOwner dC acc rfl (by decide)
  · rw [dC_dist]; norm_num
  · rw [dC_dist]; norm_num [SimOCA.new]

/-- Exit state of the alignment loop in double arithmetic on the roster `dA, dB, dC`:
the sum is `((0 + 0.1) + 0.2) + 0.3 = 0.6000000000000001`. -/
theorem alignmentScanD_abc :
    alignmentScanD Rat.sqrt SimOCA.new dOwner [dA, dB, dC] =
      (⟨1351079888211149 / 2251799813685248, 0, 0⟩, 3) := by
  unfold alignmentScanD
  rw [scanPlayers_one]
  simp only [List.foldl, dA_counted, dB_counted, dC_counted]
  simp only [Vec3.dadd, dadd, dA, dB, dC, Vec3.zero_x, Vec3.zero_y, Vec3.zero_z]
  simp only [fl_tenth, fl_fifth, fl_three_tenths, fl_zero_add_zero]
  simp only [fl_sum_a]
  simp only [fl_sum_ab]
  simp only [fl_sum_abc]

/-- Exit state of the alignment loop in double arithmetic on the roster `dC, dB, dA`:
the sum is `((0 + 0.3) + 0.2) + 0.1 = 0.6`. -/
theorem alignmentScanD_cba :
    alignmentScanD Rat.sqrt SimOCA.new dOwner [dC, dB, dA] =
      (⟨5404319552844595 / 9007199254740992, 0, 0⟩, 3) := by
  unfold alignmentScanD
  rw [scanPlayers_one]
  simp only [List.foldl, dA_counted, dB_counted, dC_counted]
  simp only [Vec3.dadd, dadd, dA, dB, dC, Vec3.zero_x, Vec3.zero_y, Vec3.zero_z]
  simp only [fl_tenth, fl_fifth, fl_three_tenths, fl_zero_add_zero]
  simp only [fl_sum_c]
  simp only [fl_sum_cb]
  simp only [fl_sum_cba]

theorem getAlignmentVectorD_abc :
    getAlignmentVectorD Rat.sqrt SimOCA.new dOwner [dA, dB, dC] =
      ⟨7205759403792795 / 36028797018963968, 0, 0⟩ := by
  unfold getAlignmentVectorD
  rw [alignmentScanD_abc]
  simp only [show (3 : ℕ) > 0 by decide, if_true, Nat.cast_ofNat, Vec3.dsdiv, Vec3.dsmul, ddiv,
    dmul, SimOCA.new, fl_zero_div, fl_zero_mul]
  simp only [fl_mean_abc]
  simp only [fl_scaled_abc]

theorem getAlignmentVectorD_cba :
    getAlignmentVectorD Rat.sqrt SimOCA.new dOwner [dC, dB, dA] =
      ⟨7205759403792793 / 36028797018963968, 0, 0⟩ := by
  unfold getAlignmentVectorD
  rw [alignmentScanD_cba]
  simp only [show (3 : ℕ) > 0 by decide, if_true, Nat.cast_ofNat, Vec3.dsdiv, Vec3.dsmul, ddiv,
    dmul, SimOCA.new, fl_zero_div, fl_zero_mul]
  simp only [fl_mean_cba]
  simp only [fl_scaled_cba]

/-! ## The doubles of the translated example and the sums of its positions -/

theorem fl_shift :
    fl (1000001 / 10) =
      3435977272773837 / 34359738368 := by
  rw [fl_near
    (1000001 / 10)
    16 6871954545547674
    (by norm_num) (by norm_num) (by norm_num) (by norm_num) (by norm_num)]
  norm_num

theorem fl_owner_shifted :
    fl (0 + 3435977272773837 / 34359738368) =
      3435977272773837 / 34359738368 := by
  rw [fl_near
    (0 + 3435977272773837 / 34359738368)
    16 6871954545547674
    (by norm_num) (by norm_num) (by norm_num) (by norm_num) (by norm_num)]
  norm_num

theorem fl_neighbour_shifted :
    fl (1 + 3435977272773837 / 34359738368) =
      3436011632512205 / 34359738368 := by
  rw [fl_near
    (1 + 3435977272773837 / 34359738368)
    16 6872023265024410
    (by norm_num) (by norm_num) (by norm_num) (by norm_num) (by norm_num)]
  norm_num

theorem fl_sumB_one :
    fl (0 + (1 + 3435977272773837 / 34359738368)) =
      3436011632512205 / 34359738368 := by
  rw [fl_near
    (0 + (1 + 3435977272773837 / 34359738368))
    16 6872023265024410
    (by norm_num) (by norm_num) (by norm_num) (by norm_num) (by norm_num)]
  norm_num

theorem fl_sumB_two :
    fl (3436011632512205 / 34359738368 + (1 + 3435977272773837 / 34359738368)) =
      3436011632512205 / 17179869184 := by
  rw [fl_near
    (3436011632512205 / 34359738368 + (1 + 3435977272773837 / 34359738368))
    17 6872023265024410
    (by norm_num) (by norm_num) (by norm_num) (by norm_num) (by norm_num)]
  norm_num

theorem fl_sumB_three :
    fl (3436011632512205 / 17179869184 + (1 + 3435977272773837 / 34359738368)) =
      1288504362192077 / 4294967296 := by
  rw [fl_tie
    (3436011632512205 / 17179869184 + (1 + 3435977272773837 / 34359738368))
    18 5154017448768307
    (by norm_num) (by norm_num) (by norm_num) (by norm_num)]
  norm_num

theorem fl_meanB :
    fl (1288504362192077 / 4294967296 / 3) =
      6872023265024411 / 68719476736 := by
  rw [fl_near
    (1288504362192077 / 4294967296 / 3)
    16 6872023265024411
    (by norm_num) (by norm_num) (by norm_num) (by norm_num) (by norm_num)]
  norm_num

theorem fl_offsetB :
    fl (6872023265024411 / 68719476736 - (0 + 3435977272773837 / 34359738368)) =
      68719476737 / 68719476736 := by
  rw [fl_near
    (6872023265024411 / 68719476736 - (0 + 3435977272773837 / 34359738368))
    0 4503599627436032
    (by norm_num) (by norm_num) (by norm_num) (by norm_num) (by norm_num)]
  norm_num

theorem fl_scaledB :
    fl (68719476737 / 68719476736 * 1) =
      68719476737 / 68719476736 := by
  rw [fl_near
    (68719476737 / 68719476736 * 1)
    0 4503599627436032
    (by norm_num) (by norm_num) (by norm_num) (by norm_num) (by norm_num)]
  norm_num

theorem fl_neg_one : fl (-1) = -1 := by
  simpa using fl_intCast (-1) (by norm_num)

theorem fl_neg_two : fl (-2) = -2 := by
  simpa using fl_intCast (-2) (by norm_num)

theorem fl_neg_eight : fl (-8) = -8 := by
  simpa using fl_intCast (-8) (by norm_num)

theorem fl_one : fl 1 = 1 := by
  simpa using fl_intCast 1 (by norm_num)

theorem fl_two : fl 2 = 2 := by
  simpa using fl_intCast 2 (by norm_num)

theorem fl_three : fl 3 = 3 := by
  simpa using fl_intCast 3 (by norm_num)

theorem fl_four : fl 4 = 4 := by
  simpa using fl_intCast 4 (by norm_num)

theorem fl_five : fl 5 = 5 := by
  simpa using fl_intCast 5 (by norm_num)

theorem fl_seventeen : fl 17 = 17 := by
  simpa using fl_intCast 17 (by norm_num)

theorem fl_sixty_four : fl 64 = 64 := by
  simpa using fl_intCast 64 (by norm_num)

theorem fl_eighty_one : fl 81 = 81 := by
  simpa using fl_intCast 81 (by norm_num)

theorem ratSqrt_one : Rat.sqrt 1 = 1 := by
  have h := ratSqrt_mul_self 1 (by norm_num)
  rw [show (1 : ℚ) * 1 = 1 by norm_num] at h
  exact h

theorem ratSqrt_nine : Rat.sqrt 9 = 3 := by
  have h := ratSqrt_mul_self 3 (by norm_num)
  rw [show (3 : ℚ) * 3 = 9 by norm_num] at h
  exact h

theorem ratSqrt_eighty_one : Rat.sqrt 81 = 9 := by
  have h := ratSqrt_mul_self 9 (by norm_num)
  rw [show (9 : ℚ) * 9 = 81 by norm_num] at h
  exact h

theorem dP_dist : getDistanceD Rat.sqrt dOwner.position dP.position = 1 := by
  simp only [getDistanceD, dOwner, dP, dsub, dmul, dadd]
  norm_num [fl_zero, fl_neg_one, fl_one, ratSqrt_one, -Rat.sqrt_ofNat]

theorem dQ_dist : getDistanceD Rat.sqrt dOwner.position dQ.position = 3 := by
  simp only [getDistanceD, dOwner, dQ, dsub, dmul, dadd]
  norm_num [fl_zero, fl_neg_one, fl_neg_two, fl_one, fl_four, fl_five, fl_nine, ratSqrt_nine,
    -Rat.sqrt_ofNat]

theorem dR_dist : getDistanceD Rat.sqrt dOwner.position dR.position = 9 := by
  simp only [getDistanceD, dOwner, dR, dsub, dmul, dadd]
  norm_num [fl_zero, fl_neg_one, fl_neg_four, fl_neg_eight, fl_one, fl_sixteen, fl_sixty_four,
    fl_seventeen, fl_eighty_one, ratSqrt_eighty_one, -Rat.sqrt_ofNat]

/-- In double arithmetic the computed distance of two positions moved by the same
vector, when the moved positions are exact, is the computed distance of the
original positions: the coordinate differences are the same numbers. -/
theorem getDistanceD_translate (sqrt : ℚ → ℚ) (p q t : Vec3 ℚ) :
    getDistanceD sqrt (p + t) (q + t) = getDistanceD sqrt p q := by
  unfold getDistanceD dsub
  simp only [Vec3.add_x, Vec3.add_y, Vec3.add_z, add_sub_add_right_eq_sub]

/-- A UAV of other identity whose computed distance passes the guard has its
position added to the sum and is counted. -/
theorem cohesionBodyD_counted (sqrt : ℚ → ℚ) (oca : SimOCA ℚ) (owner : UAV ℚ)
    (p : Player ℚ) (acc : Vec3 ℚ × Nat) (hu : p.isUAV = true) (hid : owner.id ≠ p.id)
    (h0 : getDistanceD sqrt owner.position p.position > 0)
    (h1 : getDistanceD sqrt owner.position p.position < oca.commDist) :
    cohesionBodyD sqrt oca owner p acc = (acc.1.dadd p.position, acc.2 + 1) := by
  unfold cohesionBodyD
  rw [if_pos ⟨hu, hid⟩]
  simp only [h0, h1, and_self, if_true]

/-- The x component of the cohesion vector in double arithmetic for a roster of
three entries that are all counted. -/
theorem getCohesionVectorD_three_x (sqrt : ℚ → ℚ) (oca : SimOCA ℚ) (owner : UAV ℚ)
    (p q r : Player ℚ)
    (hp : ∀ acc, cohesionBodyD sqrt oca owner p acc = (acc.1.dadd p.position, acc.2 + 1))
    (hq : ∀ acc, cohesionBodyD sqrt oca owner q acc = (acc.1.dadd q.position, acc.2 + 1))
    (hr : ∀ acc, cohesionBodyD sqrt oca owner r acc = (acc.1.dadd r.position, acc.2 + 1)) :
    (getCohesionVectorD sqrt oca owner [p, q, r]).x =
      dmul (dsub (ddiv (dadd (dadd (dadd 0 p.position.x) q.position.x) r.position.x) 3)
        owner.position.x) oca.cFactor := by
  unfold getCohesionVectorD cohesionScanD
  rw [scanPlayers_one]
  simp only [List.foldl, hp, hq, hr]
  rw [if_pos (by decide)]
  simp only [Vec3.dsmul, Vec3.dsub, Vec3.dsdiv, Vec3.dadd, Vec3.zero_x]
  norm_num

/-! ## What survives rounding -/

theorem alignmentBodyD_eq (sqrt : ℚ → ℚ) (oca : SimOCA ℚ) (owner : UAV ℚ)
    (p : Player ℚ) (acc : Vec3 ℚ × Nat) :
    alignmentBodyD sqrt oca owner p acc =
      if countedD sqrt oca owner p then (acc.1.dadd p.velocity, acc.2 + 1) else acc := by
  unfold alignmentBodyD countedD
  by_cases h1 : p.isUAV = true ∧ owner.id ≠ p.id
  · by_cases h2 : getDistanceD sqrt owner.position p.position > 0 ∧
        getDistanceD sqrt owner.position p.position < oca.commDist
    · have hc : (p.isUAV = true ∧ owner.id ≠ p.id) ∧
          (getDistanceD sqrt owner.position p.position > 0 ∧
            getDistanceD sqrt owner.position p.position < oca.commDist) := ⟨h1, h2⟩
      rw [if_pos h1]
      simp only [if_pos h2, if_pos hc]
    · have hc : ¬ ((p.isUAV = true ∧ owner.id ≠ p.id) ∧
          (getDistanceD sqrt owner.position p.position > 0 ∧
            getDistanceD sqrt owner.position p.position < oca.commDist)) := fun h => h2 h.2
      rw [if_pos h1]
      simp only [if_neg h2, if_neg hc]
  · have hc : ¬ ((p.isUAV = true ∧ owner.id ≠ p.id) ∧
        (getDistanceD sqrt owner.position p.position > 0 ∧
          getDistanceD sqrt owner.position p.position < oca.commDist)) := fun h => h1 h.1
    rw [if_neg h1, if_neg hc]

theorem cohesionBodyD_eq (sqrt : ℚ → ℚ) (oca : SimOCA ℚ) (owner : UAV ℚ)
    (p : Player ℚ) (acc : Vec3 ℚ × Nat) :
    cohesionBodyD sqrt oca owner p acc =
      if countedD sqrt oca owner p then (acc.1.dadd p.position, acc.2 + 1) else acc := by
  unfold cohesionBodyD countedD
  by_cases h1 : p.isUAV = true ∧ owner.id ≠ p.id
  · by_cases h2 : getDistanceD sqrt owner.position p.position > 0 ∧
        getDistanceD sqrt owner.position p.position < oca.commDist
    · have hc : (p.isUAV = true ∧ owner.id ≠ p.id) ∧
          (getDistanceD sqrt owner.position p.position > 0 ∧
            getDistanceD sqrt owner.position p.position < oca.commDist) := ⟨h1, h2⟩
      rw [if_pos h1]
      simp only [if_pos h2, if_pos hc]
    · have hc : ¬ ((p.isUAV = true ∧ owner.id ≠ p.id) ∧
          (getDistanceD sqrt owner.position p.position > 0 ∧
            getDistanceD sqrt owner.position p.position < oca.commDist)) := fun h => h2 h.2
      rw [if_pos h1]
      simp only [if_neg h2, if_neg hc]
  · have hc : ¬ ((p.isUAV = true ∧ owner.id ≠ p.id) ∧
        (getDistanceD sqrt owner.position p.position > 0 ∧
          getDistanceD sqrt owner.position p.position < oca.commDist)) := fun h => h1 h.1
    rw [if_neg h1, if_neg hc]

/-- The count of a conditional accumulation is the number of entries that pass the
test, whatever is added to the sum. -/
theorem foldl_cond_count (q : Player ℚ → Prop) [DecidablePred q]
    (c : Vec3 ℚ → Player ℚ → Vec3 ℚ) (l : List (Player ℚ)) (acc : Vec3 ℚ × Nat) :
    (l.foldl (fun a p => if q p then (c a.1 p, a.2 + 1) else a) acc).2 =
      acc.2 + l.countP (fun p => decide (q p)) := by
  induction l generalizing acc with
  | nil => simp
  | cons p l ih =>
    rw [List.foldl_cons, ih]
    by_cases hq : q p
    · simp [hq, List.countP_cons, Nat.add_assoc, Nat.add_comm 1]
    · simp [hq, List.countP_cons]

theorem alignmentScanD_count (sqrt : ℚ → ℚ) (oca : SimOCA ℚ) (owner : UAV ℚ)
    (players : List (Player ℚ)) :
    (alignmentScanD sqrt oca owner players).2 =
      players.countP (fun p => decide (countedD sqrt oca owner p)) := by
  unfold alignmentScanD
  rw [scanPlayers_one]
  simp only [alignmentBodyD_eq]
  rw [foldl_cond_count (countedD sqrt oca owner) (fun s p => s.dadd p.velocity)]
  simp

theorem cohesionScanD_count (sqrt : ℚ → ℚ) (oca : SimOCA ℚ) (owner : UAV ℚ)
    (players : List (Player ℚ)) :
    (cohesionScanD sqrt oca owner players).2 =
      players.countP (fun p => decide (countedD sqrt oca owner p)) := by
  unfold cohesionScanD
  rw [scanPlayers_one]
  simp only [cohesionBodyD_eq]
  rw [foldl_cond_count (countedD sqrt oca owner) (fun s p => s.dadd p.position)]
  simp

theorem countedD_translate (sqrt : ℚ → ℚ) (oca : SimOCA ℚ) (owner : UAV ℚ) (t : Vec3 ℚ)
    (p : Player ℚ) :
    countedD sqrt oca (owner.translate t) (p.translate t) ↔ countedD sqrt oca owner p := by
  unfold countedD
  simp only [UAV.translate, Player.translate, getDistanceD_translate]

/-- In double arithmetic the alignment loop does the same on a roster moved by `t`
(the moved positions being exact) as on the original one. -/
theorem alignmentScanD_translate (sqrt : ℚ → ℚ) (oca : SimOCA ℚ) (owner : UAV ℚ)
    (t : Vec3 ℚ) (players : List (Player ℚ)) :
    alignmentScanD sqrt oca (owner.translate t) (players.map (Player.translate t)) =
      alignmentScanD sqrt oca owner players := by
  unfold alignmentScanD
  rw [scanPlayers_one, scanPlayers_one, List.foldl_map]
  congr 1
  funext acc p
  rw [alignmentBodyD_eq, alignmentBodyD_eq]
  simp only [countedD_translate]
  rfl

theorem cohesionScanD_count_translate (sqrt : ℚ → ℚ) (oca : SimOCA ℚ) (owner : UAV ℚ)
    (t : Vec3 ℚ) (players : List (Player ℚ)) :
    (cohesionScanD sqrt oca (owner.translate t) (players.map (Player.translate t))).2 =
      (cohesionScanD sqrt oca owner players).2 := by
  rw [cohesionScanD_count, cohesionScanD_count, List.countP_map]
  congr 1
  funext p
  simp only [Function.comp, countedD_translate]

/-! ## C18: translation, exactly and in double arithmetic -/

theorem dP_counted (acc : Vec3 ℚ × Nat) :
    cohesionBodyD Rat.sqrt SimOCA.new dOwner dP acc = (acc.1.dadd dP.position, acc.2 + 1) := by
  apply cohesionBodyD_counted Rat.sqrt SimOCA.new dOwner dP acc rfl (by decide)
  · rw [dP_dist]; norm_num
  · rw [dP_dist]; norm_num [SimOCA.new]

theorem dQ_counted (acc : Vec3 ℚ × Nat) :
    cohesionBodyD Rat.sqrt SimOCA.new dOwner dQ acc = (acc.1.dadd dQ.position, acc.2 + 1) := by
  apply cohesionBodyD_counted Rat.sqrt SimOCA.new dOwner dQ acc rfl (by decide)
  · rw [dQ_dist]; norm_num
  · rw [dQ_dist]; norm_num [SimOCA.new]

theorem dR_counted (acc : Vec3 ℚ × Nat) :
    cohesionBodyD Rat.sqrt SimOCA.new dOwner dR acc = (acc.1.dadd dR.position, acc.2 + 1) := by
  apply cohesionBodyD_counted Rat.sqrt SimOCA.new dOwner dR acc rfl (by decide)
  · rw [dR_dist]; norm_num
  · rw [dR_dist]; norm_num [SimOCA.new]

/-- A counted entry is still counted after the translation: its computed distance is
the same. -/
theorem counted_shifted (p : Player ℚ)
    (hp : ∀ acc, cohesionBodyD Rat.sqrt SimOCA.new dOwner p acc =
      (acc.1.dadd p.position, acc.2 + 1)) (acc : Vec3 ℚ × Nat) :
    cohesionBodyD Rat.sqrt SimOCA.new (dOwner.translate dShift) (p.translate dShift) acc =
      (acc.1.dadd (p.translate dShift).position, acc.2 + 1) := by
  have h1 := hp (0, 0)
  rw [cohesionBodyD_eq] at h1
  have hc : countedD Rat.sqrt SimOCA.new dOwner p := by
    by_contra hn
    rw [if_neg hn] at h1
    have h2 := congrArg Prod.snd h1
    simp at h2
  rw [cohesionBodyD_eq, if_pos ((countedD_translate Rat.sqrt SimOCA.new dOwner dShift p).2 hc)]

theorem cohesionD_original_x :
    (getCohesionVectorD Rat.sqrt SimOCA.new dOwner [dP, dQ, dR]).x = 1 := by
  rw [getCohesionVectorD_three_x Rat.sqrt SimOCA.new dOwner dP dQ dR dP_counted dQ_counted
    dR_counted]
  simp only [dadd, ddiv, dsub, dmul, dOwner, dP, dQ, dR, SimOCA.new]
  norm_num [fl_one, fl_two, fl_three]

theorem cohesionD_shifted_x :
    (getCohesionVectorD Rat.sqrt SimOCA.new (dOwner.translate dShift)
      ([dP, dQ, dR].map (Player.translate dShift))).x = 68719476737 / 68719476736 := by
  simp only [List.map]
  rw [getCohesionVectorD_three_x Rat.sqrt SimOCA.new (dOwner.translate dShift)
    (dP.translate dShift) (dQ.translate dShift) (dR.translate dShift)
    (counted_shifted dP dP_counted) (counted_shifted dQ dQ_counted)
    (counted_shifted dR dR_counted)]
  simp only [dadd, ddiv, dsub, dmul, UAV.translate, Player.translate, Vec3.add_x, dOwner, dP,
    dQ, dR, dShift, SimOCA.new]
  simp only [fl_shift]
  simp only [fl_sumB_one]
  simp only [fl_sumB_two]
  simp only [fl_sumB_three]
  simp only [fl_meanB]
  simp only [fl_offsetB]
  simp only [fl_scaledB]

/-- C19, as stated, fails in the arithmetic of the code: three neighbours in range
with velocities `0.1`, `0.2`, `0.3` along x give the alignment vector
`0.20000000000000004` in the order `dA, dB, dC` and `0.19999999999999998` in the
order `dC, dB, dA`, because `(0.1 + 0.2) + 0.3` and `(0.3 + 0.2) + 0.1` round
differently. -/
theorem roster_order_counterexample :
    [dA, dB, dC].Perm [dC, dB, dA] ∧
    getAlignmentVectorD Rat.sqrt SimOCA.new dOwner [dA, dB, dC] =
      ⟨7205759403792795 / 36028797018963968, 0, 0⟩ ∧
    getAlignmentVectorD Rat.sqrt SimOCA.new dOwner [dC, dB, dA] =
      ⟨7205759403792793 / 36028797018963968, 0, 0⟩ ∧
    getAlignmentVectorD Rat.sqrt SimOCA.new dOwner [dC, dB, dA] ≠
      getAlignmentVectorD Rat.sqrt SimOCA.new dOwner [dA, dB, dC] := by
  refine ⟨(List.reverse_perm [dA, dB, dC]).symm, getAlignmentVectorD_abc,
    getAlignmentVectorD_cba, ?_⟩
  intro h
  have hx := congrArg Vec3.x h
  rw [getAlignmentVectorD_abc, getAlignmentVectorD_cba] at hx
  norm_num at hx

/-- C19, amended: in exact arithmetic `getSeparationVector`, `getAlignmentVector` and
`getCohesionVector` return the same vectors for every permutation of the roster,
although the roster is traversed by position index from 1 until the first absent
entry. In double arithmetic every permutation counts the same number of neighbours
in the loops of `getAlignmentVector` and `getCohesionVector`; the sums, which are
accumulated in roster order, are not covered. -/
theorem roster_order_independence (sqrt : F → F) (oca : SimOCA F) (owner : UAV F)
    (players permuted : List (Player F)) (hperm : players.Perm permuted)
    (sqrtD : ℚ → ℚ) (ocaD : SimOCA ℚ) (ownerD : UAV ℚ)
    (playersD permutedD : List (Player ℚ)) (hpermD : playersD.Perm permutedD) :
    (getSeparationVector sqrt oca owner permuted = getSeparationVector sqrt oca owner players ∧
      getAlignmentVector sqrt oca owner permuted = getAlignmentVector sqrt oca owner players ∧
      getCohesionVector sqrt oca owner permuted = getCohesionVector sqrt oca owner players) ∧
    (alignmentScanD sqrtD ocaD ownerD permutedD).2 =
      (alignmentScanD sqrtD ocaD ownerD playersD).2 ∧
    (cohesionScanD sqrtD ocaD ownerD permutedD).2 =
      (cohesionScanD sqrtD ocaD ownerD playersD).2 := by
  refine ⟨roster_order_exact sqrt oca owner players permuted hperm, ?_, ?_⟩
  · rw [alignmentScanD_count, alignmentScanD_count]
    exact (hpermD.countP_eq _).symm
  · rw [cohesionScanD_count, cohesionScanD_count]
    exact (hpermD.countP_eq _).symm

/-- Evaluation of the amended C19: the example roster of the exact model in both
orders, and the double roster `dA, dB, dC` reversed. -/
theorem roster_order_independence_witness :
    [exN1, exN2].Perm [exN2, exN1] ∧ [dA, dB, dC].Perm [dC, dB, dA] ∧
    getSeparationVector Rat.sqrt SimOCA.new exOwner [exN2, exN1] =
      getSeparationVector Rat.sqrt SimOCA.new exOwner [exN1, exN2] ∧
    getAlignmentVector Rat.sqrt SimOCA.new exOwner [exN2, exN1] =
      getAlignmentVector Rat.sqrt SimOCA.new exOwner [exN1, exN2] ∧
    getCohesionVector Rat.sqrt SimOCA.new exOwner [exN2, exN1] =
      getCohesionVector Rat.sqrt SimOCA.new exOwner [exN1, exN2] ∧
    (alignmentScanD Rat.sqrt SimOCA.new dOwner [dC, dB, dA]).2 =
      (alignmentScanD Rat.sqrt SimOCA.new dOwner [dA, dB, dC]).2 := by
  have h := roster_order_independence Rat.sqrt SimOCA.new exOwner [exN1, exN2] [exN2, exN1]
    (List.Perm.swap exN2 exN1 []) Rat.sqrt SimOCA.new dOwner [dA, dB, dC] [dC, dB, dA]
    (List.reverse_perm [dA, dB, dC]).symm
  exact ⟨List.Perm.swap exN2 exN1 [], (List.reverse_perm [dA, dB, dC]).symm, h.1.1, h.1.2.1,
    h.1.2.2, h.2.1⟩

end Swarms
